import Mathlib

/-!
# Loudness balance monitor: queue, voice activity detector and judgments

A shallow embedding of the analysis core of the loudness balance monitor
(`spsc-queue.h`, `vad.cpp`, `analysis-results.h`, `loudness-analyzer.cpp`)
together with theorems about it.

Conventions of the embedding:

* `size_t` cursors are natural numbers; the only arithmetic on them is
  `(i + 1) % Capacity`.
* `uint32_t` counters are natural numbers reduced modulo `2 ^ 32` after
  every addition.
* a finite `double` is an exact rational number; `-HUGE_VAL` is a separate
  constructor of `Level`.  Arithmetic is exact, except in
  `update_balance_judgment_rounded` and `update_mix_judgment_rounded`, where
  the result of every `double` operation passes through a rounding function
  (`fl64` is the binary64 one); they decide the one property that depends on
  rounding.
* a call is a function from the state before the call to the returned value
  and the state after it; calls are executed one at a time.
* the worker thread is one function, a pass through the body of its loop; the
  loudness integrator is a record of what was fed to it, and its short-term
  query and the outcome of its allocations are inputs.
-/

namespace lbm

/-! ## spsc-queue.h -/

/-- The queue `SPSCQueue<T, Capacity>`: the ring `buffer_` and the two cursors
`head_` (written by the producer) and `tail_` (written by the consumer). -/
structure SPSCQueue (T : Type) (Capacity : Nat) where
  buffer_ : List T
  head_ : Nat
  tail_ : Nat
deriving DecidableEq

namespace SPSCQueue

variable {T : Type} {Capacity : Nat}

/-- The representation invariant of the C++ object: `buffer_` is a
`std::array<T, Capacity>` and both cursors index into it. -/
def WellFormed (q : SPSCQueue T Capacity) : Prop :=
  q.buffer_.length = Capacity ∧ q.head_ < Capacity ∧ q.tail_ < Capacity

instance (q : SPSCQueue T Capacity) : Decidable q.WellFormed := by
  unfold WellFormed; infer_instance

/-- The call `try_push(item)`: the returned flag and the queue afterwards. -/
def try_push (q : SPSCQueue T Capacity) (item : T) : Bool × SPSCQueue T Capacity :=
  let current_head := q.head_
  let next_head := (current_head + 1) % Capacity
  if next_head = q.tail_ then
    (false, q)
  else
    (true, { q with buffer_ := q.buffer_.set current_head item, head_ := next_head })

/-- The call `try_pop(item)`: the returned flag, the queue afterwards and the
value of the caller's `item` afterwards. -/
def try_pop (q : SPSCQueue T Capacity) (item : T) : Bool × SPSCQueue T Capacity × T :=
  let current_tail := q.tail_
  if current_tail = q.head_ then
    (false, q, item)
  else
    (true, { q with tail_ := (current_tail + 1) % Capacity }, q.buffer_.getD current_tail item)

/-- The method `size_approx()`. -/
def size_approx (q : SPSCQueue T Capacity) : Nat :=
  let head := q.head_
  let tail := q.tail_
  if head ≥ tail then head - tail else Capacity - tail + head

/-- The method `empty()`. -/
def empty (q : SPSCQueue T Capacity) : Bool :=
  decide (q.head_ = q.tail_)

/-- The method `clear()`. -/
def clear (q : SPSCQueue T Capacity) : SPSCQueue T Capacity :=
  { q with head_ := 0, tail_ := 0 }

end SPSCQueue

/-- One call on a queue: `try_push(item)`, or `try_pop(item)` where `item` is
the value the caller's output variable holds before the call. -/
inductive QueueCall (T : Type) where
  | push (item : T)
  | pop (item : T)
deriving DecidableEq

/-- A queue together with the record of a run: the items of the successful
`try_push` calls and the items returned by the successful `try_pop` calls,
both oldest first. -/
structure QueueRun (T : Type) (Capacity : Nat) where
  queue : SPSCQueue T Capacity
  pushed : List T
  popped : List T
deriving DecidableEq

/-- Executes one call and records its outcome. -/
def QueueRun.step {T : Type} {Capacity : Nat} (r : QueueRun T Capacity) :
    QueueCall T → QueueRun T Capacity
  | .push item =>
    let res := r.queue.try_push item
    if res.1 then { r with queue := res.2, pushed := r.pushed ++ [item] }
    else { r with queue := res.2 }
  | .pop item =>
    let res := r.queue.try_pop item
    if res.1 then { r with queue := res.2.1, popped := r.popped ++ [res.2.2] }
    else { r with queue := res.2.1 }

/-- Executes a sequence of calls one at a time, starting from queue `q`. -/
def runCalls {T : Type} {Capacity : Nat} (q : SPSCQueue T Capacity)
    (calls : List (QueueCall T)) : QueueRun T Capacity :=
  calls.foldl QueueRun.step { queue := q, pushed := [], popped := [] }

/-- The abstraction relation of the ring: the `xs.length` slots starting at
`tail_` hold `xs`, and `head_` is the slot after them. -/
def SPSCQueue.Holds {T : Type} {Capacity : Nat} (q : SPSCQueue T Capacity) (xs : List T) : Prop :=
  q.WellFormed ∧ xs.length < Capacity ∧ q.head_ = (q.tail_ + xs.length) % Capacity ∧
    ∀ i, i < xs.length → q.buffer_[(q.tail_ + i) % Capacity]? = xs[i]?

/-! ## Numbers -/

/-- A `double` holding a level in dB: either `-HUGE_VAL` (the "no signal" /
"not yet measured" sentinel) or a finite value, taken as an exact rational. -/
inductive Level where
  | negInf
  | fin (q : ℚ)
deriving DecidableEq

namespace Level

/-- The comparison `level >= x` of a level with a finite `double`. -/
def ge : Level → ℚ → Bool
  | negInf, _ => false
  | fin q, x => decide (x ≤ q)

/-- The comparison `a < b` of two levels. -/
def lt : Level → Level → Bool
  | negInf, negInf => false
  | negInf, fin _ => true
  | fin _, negInf => false
  | fin a, fin b => decide (a < b)

/-- The order `a <= b` of two levels, `-HUGE_VAL` being the least. -/
def le : Level → Level → Bool
  | negInf, _ => true
  | fin _, negInf => false
  | fin a, fin b => decide (a ≤ b)

end Level

/-- The functions of the C mathematics library that the code calls, on finite
arguments.  They are parameters of the embedding. -/
structure LibM where
  sqrt : ℚ → ℚ
  log10 : ℚ → ℚ

/-- The conversion `static_cast<uint32_t>(x)` of a `double`: truncation toward
zero.  The C++ conversion is defined for `-1 < x < 2 ^ 32` only. -/
def to_uint32 (x : ℚ) : Nat :=
  (Int.tdiv x.num x.den).toNat % 2 ^ 32

/-! ## vad.h, vad.cpp -/

/-- The constant `kDefaultAttackMs`. -/
def kDefaultAttackMs : ℚ := 150

/-- The constant `kDefaultReleaseMs`. -/
def kDefaultReleaseMs : ℚ := 600

/-- The data members of `VoiceActivityDetector`, with their default member
initialisers. -/
structure VoiceActivityDetector where
  threshold_dbfs_ : ℚ := -40
  attack_samples_ : Nat := 0
  release_samples_ : Nat := 0
  sample_rate_ : Nat := 48000
  attack_counter_ : Nat := 0
  release_counter_ : Nat := 0
  is_active_ : Bool := false
deriving DecidableEq

namespace VoiceActivityDetector

/-- The method `set_threshold`. -/
def set_threshold (v : VoiceActivityDetector) (threshold_dbfs : ℚ) : VoiceActivityDetector :=
  { v with threshold_dbfs_ := threshold_dbfs }

/-- The method `set_attack_time`. -/
def set_attack_time (v : VoiceActivityDetector) (attack_ms : ℚ) : VoiceActivityDetector :=
  let sr := v.sample_rate_
  let samples := to_uint32 (attack_ms * sr / 1000)
  { v with attack_samples_ := samples }

/-- The method `set_release_time`. -/
def set_release_time (v : VoiceActivityDetector) (release_ms : ℚ) : VoiceActivityDetector :=
  let sr := v.sample_rate_
  let samples := to_uint32 (release_ms * sr / 1000)
  { v with release_samples_ := samples }

/-- The method `set_sample_rate`. -/
def set_sample_rate (v : VoiceActivityDetector) (sample_rate : Nat) : VoiceActivityDetector :=
  let v1 := { v with sample_rate_ := sample_rate }
  let v2 := v1.set_attack_time kDefaultAttackMs
  v2.set_release_time kDefaultReleaseMs

/-- The constructor `VoiceActivityDetector()`. -/
def new : VoiceActivityDetector :=
  ({} : VoiceActivityDetector).set_sample_rate 48000

/-- The method `calculate_rms_dbfs`.  `samples` is the array behind the
pointer (`none` for a null pointer); a read past its end yields 0. -/
def calculate_rms_dbfs (m : LibM) (samples : Option (List ℚ)) (frame_count : Nat) : Level :=
  match samples with
  | none => .negInf
  | some xs =>
    if frame_count = 0 then .negInf
    else
      let sum_sq := (List.range frame_count).foldl
        (fun (acc : ℚ) i => let s := xs.getD i 0; acc + s * s) 0
      let rms := m.sqrt (sum_sq / frame_count)
      if rms ≤ 0 then .negInf else .fin (20 * m.log10 rms)

/-- The method `update`: the returned flag and the detector afterwards. -/
def update (m : LibM) (v : VoiceActivityDetector) (samples : Option (List ℚ))
    (frame_count : Nat) : Bool × VoiceActivityDetector :=
  if samples.isNone ∨ frame_count = 0 then
    (v.is_active_, v)
  else
    let level_dbfs := calculate_rms_dbfs m samples frame_count
    let threshold := v.threshold_dbfs_
    let above_threshold := level_dbfs.ge threshold
    let attack_target := v.attack_samples_
    let release_target := v.release_samples_
    let is_active := v.is_active_
    let v' :=
      if above_threshold then
        let v1 := { v with release_counter_ := 0 }
        if !is_active then
          let current := (v1.attack_counter_ + frame_count) % 2 ^ 32
          let v2 := { v1 with attack_counter_ := current }
          if current ≥ attack_target then
            { v2 with is_active_ := true, attack_counter_ := 0 }
          else v2
        else v1
      else
        let v1 := { v with attack_counter_ := 0 }
        if is_active then
          let current := (v1.release_counter_ + frame_count) % 2 ^ 32
          let v2 := { v1 with release_counter_ := current }
          if current ≥ release_target then
            { v2 with is_active_ := false, release_counter_ := 0 }
          else v2
        else v1
    (v'.is_active_, v')

/-- The method `reset`. -/
def reset (v : VoiceActivityDetector) : VoiceActivityDetector :=
  { v with attack_counter_ := 0, release_counter_ := 0, is_active_ := false }

end VoiceActivityDetector

/-- The arguments of one `update` call: the sample array (`none` for a null
pointer) and `frame_count`. -/
structure Block where
  samples : Option (List ℚ)
  frame_count : Nat
deriving DecidableEq

/-- The RMS level `update` computes for a block. -/
def Block.level (m : LibM) (b : Block) : Level :=
  VoiceActivityDetector.calculate_rms_dbfs m b.samples b.frame_count

/-- The values returned by a sequence of `update` calls, one per block. -/
def updateReturns (m : LibM) (v : VoiceActivityDetector) : List Block → List Bool
  | [] => []
  | b :: bs =>
    (v.update m b.samples b.frame_count).1 ::
      updateReturns m (v.update m b.samples b.frame_count).2 bs

/-- The detector after a sequence of `update` calls. -/
def updateAll (m : LibM) (v : VoiceActivityDetector) : List Block → VoiceActivityDetector
  | [] => v
  | b :: bs => updateAll m (v.update m b.samples b.frame_count).2 bs

/-- The length, in samples, of the unbroken run of blocks at or above the
threshold that ends with the last block of `bs`, continuing a run of `acc`
samples. -/
def aboveRun (m : LibM) (threshold : ℚ) (acc : Nat) (bs : List Block) : Nat :=
  bs.foldl (fun run b => if (b.level m).ge threshold then run + b.frame_count else 0) acc

/-- The length, in samples, of the unbroken run of blocks strictly above the
threshold that ends with the last block of `bs`. -/
def strictlyAboveRun (m : LibM) (threshold : ℚ) (acc : Nat) (bs : List Block) : Nat :=
  bs.foldl (fun run b => if Level.lt (.fin threshold) (b.level m) then run + b.frame_count else 0)
    acc

/-- The length, in samples, of the unbroken run of blocks strictly below the
threshold that ends with the last block of `bs`, continuing a run of `acc`
samples. -/
def belowRun (m : LibM) (threshold : ℚ) (acc : Nat) (bs : List Block) : Nat :=
  bs.foldl (fun run b => if Level.lt (b.level m) (.fin threshold) then run + b.frame_count else 0)
    acc

/-- A table of library values: exact at the arguments 0 and 1 of `sqrt` and at
the arguments 1 and 10 of `log10`, used to evaluate the code on blocks of
zeros and of full-scale samples. -/
def tableLibM : LibM where
  sqrt x := if x = 0 then 0 else if x = 1 then 1 else (x + 1) / 2
  log10 x := if x = 1 then 0 else if x = 10 then 1 else x - 1

/-- A block of `n` full-scale samples (amplitude 1.0, 0 dBFS). -/
@[irreducible]
def fullScaleBlock (n : Nat) : Block :=
  { samples := some (List.replicate n 1), frame_count := n }

/-- A block of `n` zero samples. -/
@[irreducible]
def silentBlock (n : Nat) : Block :=
  { samples := some (List.replicate n 0), frame_count := n }

/-! ## analysis-results.h -/

/-- The enumeration `Status`. -/
inductive Status where
  | OK
  | WARN
  | BAD
deriving DecidableEq

/-- The published fields of `AnalysisResults`, with their initial values. -/
structure AnalysisResults where
  voice_lufs : Level := .negInf
  voice_peak_dbfs : Level := .negInf
  bgm_lufs : Level := .negInf
  bgm_peak_dbfs : Level := .negInf
  mix_lufs : Level := .negInf
  mix_peak_dbfs : Level := .negInf
  balance_delta : ℚ := 0
  voice_active : Bool := false
  balance_status : Status := .OK
  mix_status : Status := .OK
  clip_status : Status := .OK
deriving DecidableEq

/-- The fields of `AnalysisConfig`, with their initial values. -/
structure AnalysisConfig where
  vad_threshold : ℚ := -40
  balance_target : ℚ := 6
  mix_ok_threshold : ℚ := -18
  mix_warn_threshold : ℚ := -22
  hysteresis : ℚ := 1 / 2
deriving DecidableEq

/-- The constant `AnalysisConfig::kClipWarnThreshold`. -/
def kClipWarnThreshold : ℚ := -1

/-- The constant `AnalysisConfig::kClipBadThreshold`. -/
def kClipBadThreshold : ℚ := 0

/-! ## loudness-analyzer.cpp: the judgments -/

/-- The call `std::max` on an initializer list with first element `a`: the
first greatest element, found with `<`. -/
def std_max (a : Level) (rest : List Level) : Level :=
  rest.foldl (fun largest x => if largest.lt x then x else largest) a

/-- The method `update_balance_judgment`, on the configuration and the
published results.  The two `match` patterns are the test
`voice == -HUGE_VAL || bgm == -HUGE_VAL`. -/
def update_balance_judgment (config_ : AnalysisConfig) (results_ : AnalysisResults) :
    AnalysisResults :=
  match results_.voice_lufs, results_.bgm_lufs with
  | .fin voice, .fin bgm =>
    let delta := voice - bgm
    let results1 := { results_ with balance_delta := delta }
    let target := config_.balance_target
    let hyst := config_.hysteresis
    let current := results1.balance_status
    let ok_thresh := target
    let warn_thresh := target - 3
    let new_status :=
      if delta ≥ ok_thresh + hyst then Status.OK
      else if delta < warn_thresh - hyst then Status.BAD
      else if delta < ok_thresh - hyst ∧ delta ≥ warn_thresh + hyst then Status.WARN
      else current
    { results1 with balance_status := new_status }
  | _, _ => results_

/-- The method `update_mix_judgment`. -/
def update_mix_judgment (config_ : AnalysisConfig) (results_ : AnalysisResults) :
    AnalysisResults :=
  match results_.mix_lufs with
  | .negInf => results_
  | .fin mix =>
    let ok_thresh := config_.mix_ok_threshold
    let warn_thresh := config_.mix_warn_threshold
    let hyst := config_.hysteresis
    let current := results_.mix_status
    let new_status :=
      if mix ≥ ok_thresh + hyst then Status.OK
      else if mix < warn_thresh - hyst then Status.BAD
      else if mix < ok_thresh - hyst ∧ mix ≥ warn_thresh + hyst then Status.WARN
      else current
    { results_ with mix_status := new_status }

/-- The method `update_clip_judgment`. -/
def update_clip_judgment (results_ : AnalysisResults) : AnalysisResults :=
  let voice_peak := results_.voice_peak_dbfs
  let bgm_peak := results_.bgm_peak_dbfs
  let mix_peak := results_.mix_peak_dbfs
  let max_peak := std_max voice_peak [bgm_peak, mix_peak]
  let status :=
    if max_peak.ge kClipBadThreshold then Status.BAD
    else if max_peak.ge kClipWarnThreshold then Status.WARN
    else Status.OK
  { results_ with clip_status := status }

/-- The classifier of the specification (section 4.4), written from its
pseudo-code. -/
def specClassify (metric ok_thresh warn_thresh hysteresis : ℚ) (previous_status : Status) :
    Status :=
  if metric ≥ ok_thresh + hysteresis then .OK
  else if metric < warn_thresh - hysteresis then .BAD
  else if metric < ok_thresh - hysteresis ∧ metric ≥ warn_thresh + hysteresis then .WARN
  else previous_status

/-! ## audio-frame.h -/

/-- The constant `AudioFrame::kMaxSamples`. -/
def kMaxSamples : Nat := 4096

/-- The enumeration `AudioFrame::SourceType`. -/
inductive SourceType where
  | Voice
  | BGM
deriving DecidableEq

/-- The record `AudioFrame`, with its default member initialisers.  `samples`
holds the slots of the array that have been written (the first `frame_count`
after a push); the other slots are indeterminate in C++ and are never read. -/
structure AudioFrame where
  samples : List ℚ := []
  frame_count : Nat := 0
  timestamp : Nat := 0
  source_type : SourceType := .Voice
  source_name : String := ""
deriving DecidableEq

/-- The method `AudioFrame::clear`. -/
def AudioFrame.clear (f : AudioFrame) : AudioFrame :=
  { f with frame_count := 0, timestamp := 0, source_name := "" }

/-! ## The loudness integrator (libebur128) -/

/-- Modelled from the spec: the opaque loudness integrator, a rolling-window
accumulator over mono samples at a fixed sample rate.  The record keeps what
the analyzer did to it: the rate it was created with, the channel type set for
channel 0, and the samples fed to it since it was created. -/
structure Ebur128State where
  samplerate : Nat
  channel0 : Option Nat
  audio : List ℚ
deriving DecidableEq

/-- The library constant `EBUR128_CENTER`. -/
def EBUR128_CENTER : Nat := 3

/-- Modelled from the spec: the call `ebur128_init(1, samplerate, mode)`, which
returns null when the allocation fails (`ok = false`) and a fresh integrator
holding no samples otherwise. -/
def ebur128_init (ok : Bool) (samplerate : Nat) : Option Ebur128State :=
  if ok then some { samplerate := samplerate, channel0 := none, audio := [] } else none

/-- Modelled from the spec: the call `ebur128_set_channel(st, 0, value)`. -/
def ebur128_set_channel (st : Ebur128State) (value : Nat) : Ebur128State :=
  { st with channel0 := some value }

/-- Modelled from the spec: the call `ebur128_add_frames_float(st, src, frames)`
(the interface's `add_samples`). -/
def ebur128_add_frames_float (st : Ebur128State) (src : List ℚ) (frames : Nat) :
    Ebur128State :=
  { st with audio := st.audio ++ src.take frames }

/-- The short-term loudness query of the library, a parameter of the
embedding: `some lufs` when `ebur128_loudness_shortterm` returns
`EBUR128_SUCCESS` and writes `lufs`, `none` when it returns an error. -/
structure Ebur128Lib where
  loudness_shortterm : Ebur128State → Option Level

/-- Whether each of the three `ebur128_init` calls of one initialisation
succeeds (an input from the environment). -/
structure Allocs where
  voice : Bool
  bgm : Bool
  mix : Bool
deriving DecidableEq

/-- A library whose short-term query never reports a result. -/
def noResultLib : Ebur128Lib where
  loudness_shortterm _ := none

/-! ## loudness-analyzer.h, loudness-analyzer.cpp -/

/-- The data members of `LoudnessAnalyzer`, with their default member
initialisers.  The worker thread is represented by `running_` and by the
function `worker_loop_iteration`, which is one pass through the loop body. -/
structure LoudnessAnalyzer where
  running_ : Bool := false
  voice_queue_ : SPSCQueue AudioFrame 256 := ⟨List.replicate 256 {}, 0, 0⟩
  bgm_queue_ : SPSCQueue AudioFrame 256 := ⟨List.replicate 256 {}, 0, 0⟩
  voice_state_ : Option Ebur128State := none
  bgm_state_ : Option Ebur128State := none
  mix_state_ : Option Ebur128State := none
  mix_buffer_ : List ℚ := []
  vad_ : VoiceActivityDetector := VoiceActivityDetector.new
  prev_voice_active_ : Bool := false
  voice_peak_ : ℚ := 0
  bgm_peak_ : ℚ := 0
  mix_peak_ : ℚ := 0
  sample_rate_ : Nat := 48000
  results_ : AnalysisResults := {}
  config_ : AnalysisConfig := {}
  last_bgm_samples_ : List ℚ := []
  last_bgm_frame_count_ : Nat := 0
deriving DecidableEq

/-- The loop that the push and mix code run over a block: the greatest
absolute value of the first `frames` samples, starting from 0. -/
def block_peak (samples : List ℚ) (frames : Nat) : ℚ :=
  (List.range frames).foldl
    (fun (peak : ℚ) i => let abs_val := |samples.getD i 0|; if abs_val > peak then abs_val else peak)
    0

namespace LoudnessAnalyzer

/-- The constructor `LoudnessAnalyzer()`. -/
def new : LoudnessAnalyzer := {}

/-- The method `is_running`. -/
def is_running (a : LoudnessAnalyzer) : Bool := a.running_

/-- The method `destroy_ebur128_states`. -/
def destroy_ebur128_states (a : LoudnessAnalyzer) : LoudnessAnalyzer :=
  { a with voice_state_ := none, bgm_state_ := none, mix_state_ := none }

/-- The method `init_ebur128_states`. -/
def init_ebur128_states (alloc : Allocs) (a : LoudnessAnalyzer) : LoudnessAnalyzer :=
  let a0 := a.destroy_ebur128_states
  let sr := a0.sample_rate_
  let voice_state := ebur128_init alloc.voice sr
  let bgm_state := ebur128_init alloc.bgm sr
  let mix_state := ebur128_init alloc.mix sr
  { a0 with
    voice_state_ := voice_state.map (fun st => ebur128_set_channel st EBUR128_CENTER)
    bgm_state_ := bgm_state.map (fun st => ebur128_set_channel st EBUR128_CENTER)
    mix_state_ := mix_state.map (fun st => ebur128_set_channel st EBUR128_CENTER) }

/-- The method `reset_ebur128_state`, on one of the three state pointers. -/
def reset_ebur128_state (ok : Bool) (sample_rate : Nat) (state : Option Ebur128State) :
    Option Ebur128State :=
  match state with
  | none => none
  | some _ =>
    (ebur128_init ok sample_rate).map (fun st => ebur128_set_channel st EBUR128_CENTER)

/-- The method `start`. -/
def start (alloc : Allocs) (a : LoudnessAnalyzer) : LoudnessAnalyzer :=
  if a.running_ then a
  else
    let a1 := a.init_ebur128_states alloc
    { a1 with running_ := true }

/-- The method `stop`. -/
def stop (a : LoudnessAnalyzer) : LoudnessAnalyzer :=
  if !a.running_ then a else { a with running_ := false }

/-- The method `push_voice_frame`; `samples` is the array behind the pointer
(`none` for a null pointer). -/
def push_voice_frame (a : LoudnessAnalyzer) (samples : Option (List ℚ)) (frames : Nat) :
    LoudnessAnalyzer :=
  match samples with
  | none => a
  | some xs =>
    if frames = 0 ∨ frames > kMaxSamples then a
    else
      let frame : AudioFrame :=
        { source_type := .Voice, frame_count := frames, samples := xs.take frames }
      let peak := block_peak xs frames
      let a1 := { a with voice_peak_ := peak }
      { a1 with voice_queue_ := (a1.voice_queue_.try_push frame).2 }

/-- The method `push_bgm_frame`. -/
def push_bgm_frame (a : LoudnessAnalyzer) (samples : Option (List ℚ)) (frames : Nat) :
    LoudnessAnalyzer :=
  match samples with
  | none => a
  | some xs =>
    if frames = 0 ∨ frames > kMaxSamples then a
    else
      let frame : AudioFrame :=
        { source_type := .BGM, frame_count := frames, samples := xs.take frames }
      let peak := block_peak xs frames
      let a1 := { a with bgm_peak_ := peak }
      { a1 with bgm_queue_ := (a1.bgm_queue_.try_push frame).2 }

/-- The method `reset_states`. -/
def reset_states (a : LoudnessAnalyzer) : LoudnessAnalyzer :=
  { a with
    results_ := { a.results_ with voice_lufs := .negInf, bgm_lufs := .negInf,
                                  mix_lufs := .negInf } }

/-- The method `set_sample_rate`. -/
def set_sample_rate (a : LoudnessAnalyzer) (sample_rate : Nat) : LoudnessAnalyzer :=
  if sample_rate = a.sample_rate_ then a
  else
    let a1 := { a with sample_rate_ := sample_rate,
                       vad_ := a.vad_.set_sample_rate sample_rate }
    if a1.running_ then a1.reset_states else a1

/-- The conversion of a linear peak to dBFS used by the three metric updates. -/
def peak_to_dbfs (m : LibM) (peak : ℚ) : Level :=
  if peak > 0 then .fin (20 * m.log10 peak) else .negInf

/-- The method `update_voice_metrics`. -/
def update_voice_metrics (m : LibM) (lib : Ebur128Lib) (a : LoudnessAnalyzer) :
    LoudnessAnalyzer :=
  match a.voice_state_ with
  | none => a
  | some st =>
    let results1 :=
      match lib.loudness_shortterm st with
      | some lufs => { a.results_ with voice_lufs := lufs }
      | none => a.results_
    let peak := a.voice_peak_
    let peak_dbfs := peak_to_dbfs m peak
    { a with results_ := { results1 with voice_peak_dbfs := peak_dbfs } }

/-- The method `update_bgm_metrics`. -/
def update_bgm_metrics (m : LibM) (lib : Ebur128Lib) (a : LoudnessAnalyzer) :
    LoudnessAnalyzer :=
  match a.bgm_state_ with
  | none => a
  | some st =>
    let results1 :=
      match lib.loudness_shortterm st with
      | some lufs => { a.results_ with bgm_lufs := lufs }
      | none => a.results_
    let peak := a.bgm_peak_
    let peak_dbfs := peak_to_dbfs m peak
    { a with results_ := { results1 with bgm_peak_dbfs := peak_dbfs } }

/-- The method `update_mix_metrics`. -/
def update_mix_metrics (m : LibM) (lib : Ebur128Lib) (a : LoudnessAnalyzer) :
    LoudnessAnalyzer :=
  match a.mix_state_ with
  | none => a
  | some st =>
    let results1 :=
      match lib.loudness_shortterm st with
      | some lufs => { a.results_ with mix_lufs := lufs }
      | none => a.results_
    let peak := a.mix_peak_
    let peak_dbfs := peak_to_dbfs m peak
    { a with results_ := { results1 with mix_peak_dbfs := peak_dbfs } }

/-- The method `process_voice`.  `ok_voice` and `ok_mix` say whether the
allocations of the two possible `reset_ebur128_state` calls succeed. -/
def process_voice (m : LibM) (lib : Ebur128Lib) (ok_voice ok_mix : Bool)
    (a : LoudnessAnalyzer) (frame : AudioFrame) : LoudnessAnalyzer :=
  let upd := a.vad_.update m (some frame.samples) frame.frame_count
  let voice_active := upd.1
  let a1 := { a with vad_ := upd.2,
                     results_ := { a.results_ with voice_active := voice_active } }
  let a2 :=
    if a1.prev_voice_active_ && !voice_active then
      let a' := { a1 with
        voice_state_ := reset_ebur128_state ok_voice a1.sample_rate_ a1.voice_state_ }
      { a' with mix_state_ := reset_ebur128_state ok_mix a'.sample_rate_ a'.mix_state_ }
    else a1
  let a3 := { a2 with prev_voice_active_ := voice_active }
  match voice_active, a3.voice_state_ with
  | true, some vst =>
    let a4 := { a3 with
      voice_state_ := some (ebur128_add_frames_float vst frame.samples frame.frame_count) }
    let a5 := a4.update_voice_metrics m lib
    match a5.mix_state_ with
    | some mst =>
      if a5.last_bgm_frame_count_ > 0 then
        let mix_frames := min frame.frame_count a5.last_bgm_frame_count_
        let mix_buffer := (List.range mix_frames).map
          (fun i => frame.samples.getD i 0 + a5.last_bgm_samples_.getD i 0)
        let mix_pk := block_peak mix_buffer mix_frames
        let a6 := { a5 with mix_buffer_ := mix_buffer, mix_peak_ := mix_pk }
        let a7 := { a6 with
          mix_state_ := some (ebur128_add_frames_float mst mix_buffer mix_frames) }
        a7.update_mix_metrics m lib
      else a5
    | none => a5
  | _, _ => a3

/-- The method `process_bgm`. -/
def process_bgm (m : LibM) (lib : Ebur128Lib) (a : LoudnessAnalyzer) (frame : AudioFrame) :
    LoudnessAnalyzer :=
  match a.bgm_state_ with
  | none => a
  | some bst =>
    let a1 := { a with
      last_bgm_frame_count_ := frame.frame_count
      last_bgm_samples_ := frame.samples.take frame.frame_count }
    let a2 := { a1 with
      bgm_state_ := some (ebur128_add_frames_float bst frame.samples frame.frame_count) }
    a2.update_bgm_metrics m lib

/-- The three judgment updates at the end of a loop pass, in source order. -/
def update_judgments (a : LoudnessAnalyzer) : LoudnessAnalyzer :=
  { a with
    results_ :=
      update_clip_judgment
        (update_mix_judgment a.config_ (update_balance_judgment a.config_ a.results_)) }

/-- One pass through the body of `worker_loop`, including the test of
`running_` at its head.  A pass that finds both queues empty only sleeps. -/
def worker_loop_iteration (m : LibM) (lib : Ebur128Lib) (ok_voice ok_mix : Bool)
    (a : LoudnessAnalyzer) : LoudnessAnalyzer :=
  if !a.running_ then a
  else
    let voice_pop := a.voice_queue_.try_pop ({} : AudioFrame)
    let bgm_pop := a.bgm_queue_.try_pop ({} : AudioFrame)
    let has_voice := voice_pop.1
    let has_bgm := bgm_pop.1
    let a1 := { a with voice_queue_ := voice_pop.2.1, bgm_queue_ := bgm_pop.2.1 }
    if !has_voice && !has_bgm then a1
    else
      let a2 := if has_voice then a1.process_voice m lib ok_voice ok_mix voice_pop.2.2 else a1
      let a3 := if has_bgm then a2.process_bgm m lib bgm_pop.2.2 else a2
      a3.update_judgments

end LoudnessAnalyzer

/-- A full-scale square wave of `n` samples: `1, -1, 1, -1, ...`. -/
@[irreducible]
def squareWave (n : Nat) : List ℚ :=
  (List.range n).map (fun i => if i % 2 = 0 then 1 else -1)

/-- The relation between the activity flag and the two counters of a
detector: the attack counter is 0 while active and the release counter is 0
while inactive. -/
def CountersConsistent (v : VoiceActivityDetector) : Prop :=
  (v.is_active_ = true → v.attack_counter_ = 0) ∧
    (v.is_active_ = false → v.release_counter_ = 0)

/-- An analyzer in the middle of a run: running, detector active after an
active voice frame, all three integrators present, and the one-sample BGM
block `[1/4]` retained by an earlier `process_bgm`.  Both queues are empty. -/
def midRunAnalyzer : LoudnessAnalyzer :=
  { running_ := true,
    vad_ := { attack_samples_ := 7200, release_samples_ := 28800, is_active_ := true },
    prev_voice_active_ := true,
    voice_state_ := some ⟨48000, some EBUR128_CENTER, []⟩,
    bgm_state_ := some ⟨48000, some EBUR128_CENTER, [1 / 4]⟩,
    mix_state_ := some ⟨48000, some EBUR128_CENTER, []⟩,
    last_bgm_samples_ := [1 / 4],
    last_bgm_frame_count_ := 1 }

/-- An analyzer whose voice queue is full: all 255 usable slots hold the
one-sample frame `[1]`; running, detector active, voice integrator present. -/
def fullQueueAnalyzer : LoudnessAnalyzer :=
  { running_ := true,
    voice_queue_ := ⟨List.replicate 256 { samples := [1], frame_count := 1 }, 255, 0⟩,
    vad_ := { attack_samples_ := 7200, release_samples_ := 28800, is_active_ := true },
    prev_voice_active_ := true,
    voice_state_ := some ⟨48000, some EBUR128_CENTER, []⟩,
    voice_peak_ := 1 }

/-! ## Double arithmetic with rounding -/

/-- Round to the nearest integer, a tie going to the even neighbour. -/
def roundHalfEven (q : ℚ) : ℤ :=
  let f := ⌊q⌋
  if q - f < 1 / 2 then f
  else if 1 / 2 < q - f then f + 1
  else if f % 2 = 0 then f else f + 1

/-- The exponent `e` of the binade of a `double`: `2 ^ e <= |x| < 2 ^ (e + 1)`,
and `-1022` on the subnormal range. -/
def binade (x : ℚ) : ℤ := max (Int.log 2 |x|) (-1022)

/-- The rounding that IEEE-754 binary64 arithmetic applies to the exact result
of `+` and `-`: the nearest multiple of `2 ^ (e - 52)`, where `e` is the binade
of the exact result, ties to even.  A `double` operation `a - b` of the source
is `fl64 (a - b)`.  Results of magnitude `2 ^ 1024` or more (overflow to
infinity) are outside this model. -/
def fl64 (x : ℚ) : ℚ :=
  let ulp : ℚ := 2 ^ (binade x - 52)
  roundHalfEven (x / ulp) * ulp

/-- The method `update_balance_judgment` with the result of every `double`
operation of the source (`voice - bgm`, `target - 3.0`, `ok_thresh + hyst`,
`warn_thresh - hyst`, `ok_thresh - hyst`, `warn_thresh + hyst`) rounded by
`fl`.  With `fl := id` this is `update_balance_judgment`; with `fl := fl64` it
is the arithmetic the program runs. -/
def update_balance_judgment_rounded (fl : ℚ → ℚ) (config_ : AnalysisConfig)
    (results_ : AnalysisResults) : AnalysisResults :=
  match results_.voice_lufs, results_.bgm_lufs with
  | .fin voice, .fin bgm =>
    let delta := fl (voice - bgm)
    let results1 := { results_ with balance_delta := delta }
    let target := config_.balance_target
    let hyst := config_.hysteresis
    let current := results1.balance_status
    let ok_thresh := target
    let warn_thresh := fl (target - 3)
    let new_status :=
      if delta ≥ fl (ok_thresh + hyst) then Status.OK
      else if delta < fl (warn_thresh - hyst) then Status.BAD
      else if delta < fl (ok_thresh - hyst) ∧ delta ≥ fl (warn_thresh + hyst) then Status.WARN
      else current
    { results1 with balance_status := new_status }
  | _, _ => results_

/-- The method `update_mix_judgment` with the result of every `double`
operation of the source rounded by `fl`. -/
def update_mix_judgment_rounded (fl : ℚ → ℚ) (config_ : AnalysisConfig)
    (results_ : AnalysisResults) : AnalysisResults :=
  match results_.mix_lufs with
  | .negInf => results_
  | .fin mix =>
    let ok_thresh := config_.mix_ok_threshold
    let warn_thresh := config_.mix_warn_threshold
    let hyst := config_.hysteresis
    let current := results_.mix_status
    let new_status :=
      if mix ≥ fl (ok_thresh + hyst) then Status.OK
      else if mix < fl (warn_thresh - hyst) then Status.BAD
      else if mix < fl (ok_thresh - hyst) ∧ mix ≥ fl (warn_thresh + hyst) then Status.WARN
      else current
    { results_ with mix_status := new_status }

/-! # Theorems -/

/-! ## Queue -/

theorem ring_index_inj {c t i j : Nat} (hi : i < c) (hj : j < c)
    (h : (t + i) % c = (t + j) % c) : i = j := by
  have h1 : i % c = j % c := Nat.ModEq.add_left_cancel' t h
  rwa [Nat.mod_eq_of_lt hi, Nat.mod_eq_of_lt hj] at h1

theorem ring_succ_mod (c t n : Nat) : ((t + 1) % c + n) % c = (t + (n + 1)) % c := by
  rw [Nat.mod_add_mod]
  congr 1
  omega

namespace SPSCQueue

variable {T : Type} {Capacity : Nat}

theorem holds_nil_iff (q : SPSCQueue T Capacity) (hwf : q.WellFormed) :
    q.Holds [] ↔ q.tail_ = q.head_ := by
  obtain ⟨hlen, hh, ht⟩ := hwf
  constructor
  · rintro ⟨_, _, h, _⟩
    simp only [List.length_nil, Nat.add_zero] at h
    rw [h, Nat.mod_eq_of_lt ht]
  · intro h
    refine ⟨⟨hlen, hh, ht⟩, by simpa using (by omega : 0 < Capacity), ?_, ?_⟩
    · simp only [List.length_nil, Nat.add_zero]
      rw [← h, Nat.mod_eq_of_lt ht]
    · intro i hi
      simp at hi

theorem holds_empty_iff (q : SPSCQueue T Capacity) (xs : List T) (h : q.Holds xs) :
    q.tail_ = q.head_ ↔ xs = [] := by
  obtain ⟨⟨_, _, ht⟩, hn, hhead, _⟩ := h
  constructor
  · intro he
    have h1 : (q.tail_ + 0) % Capacity = (q.tail_ + xs.length) % Capacity := by
      rw [Nat.add_zero, Nat.mod_eq_of_lt ht, ← hhead, he]
    have h2 : 0 = xs.length := ring_index_inj (by omega) hn h1
    exact List.length_eq_zero.mp h2.symm
  · intro he
    subst he
    simp only [List.length_nil, Nat.add_zero] at hhead
    rw [hhead, Nat.mod_eq_of_lt ht]

theorem holds_full_iff (q : SPSCQueue T Capacity) (xs : List T) (h : q.Holds xs) :
    (q.head_ + 1) % Capacity = q.tail_ ↔ xs.length + 1 = Capacity := by
  obtain ⟨⟨_, _, ht⟩, hn, hhead, _⟩ := h
  have hnext : (q.head_ + 1) % Capacity = (q.tail_ + (xs.length + 1)) % Capacity := by
    rw [hhead, Nat.mod_add_mod, Nat.add_assoc]
  constructor
  · intro hf
    by_contra hne
    have h1 : (q.tail_ + (xs.length + 1)) % Capacity = (q.tail_ + 0) % Capacity := by
      rw [← hnext, hf, Nat.add_zero, Nat.mod_eq_of_lt ht]
    have h2 : xs.length + 1 = 0 := ring_index_inj (by omega) (by omega) h1
    omega
  · intro hc
    rw [hnext, hc, Nat.add_mod_right, Nat.mod_eq_of_lt ht]

theorem holds_push (q : SPSCQueue T Capacity) (xs : List T) (item : T) (h : q.Holds xs)
    (hroom : xs.length + 1 ≠ Capacity) :
    (q.try_push item).1 = true ∧ (q.try_push item).2.Holds (xs ++ [item]) := by
  have hnf : ¬ (q.head_ + 1) % Capacity = q.tail_ := fun hf =>
    hroom ((holds_full_iff q xs h).mp hf)
  obtain ⟨⟨hlen, hh, ht⟩, hn, hhead, hslots⟩ := h
  have hpos : 0 < Capacity := by omega
  simp only [try_push, hnf, if_false, true_and]
  refine ⟨⟨by simpa using hlen, Nat.mod_lt _ hpos, ht⟩, by simp; omega, ?_, ?_⟩
  · simp only [List.length_append, List.length_singleton]
    rw [hhead, Nat.mod_add_mod, Nat.add_assoc]
  · intro i hi
    simp only [List.length_append, List.length_singleton] at hi
    by_cases hlt : i < xs.length
    · have hne : q.head_ ≠ (q.tail_ + i) % Capacity := by
        intro he
        rw [hhead] at he
        have := ring_index_inj hn (by omega) he
        omega
      rw [List.getElem?_set_ne hne, hslots i hlt, List.getElem?_append_left hlt]
    · have hi' : i = xs.length := by omega
      subst hi'
      rw [← hhead, List.getElem?_set_self (by omega), List.getElem?_append_right (le_refl _)]
      simp

theorem holds_pop (q : SPSCQueue T Capacity) (x : T) (xs : List T) (item : T)
    (h : q.Holds (x :: xs)) :
    (q.try_pop item).1 = true ∧ (q.try_pop item).2.2 = x ∧ (q.try_pop item).2.1.Holds xs := by
  have hne : ¬ q.tail_ = q.head_ := fun he => by
    have := (holds_empty_iff q _ h).mp he
    simp at this
  obtain ⟨⟨hlen, hh, ht⟩, hn, hhead, hslots⟩ := h
  have hpos : 0 < Capacity := by omega
  simp only [List.length_cons] at hn hhead
  simp only [try_pop, hne, if_false, true_and]
  refine ⟨?_, ⟨hlen, hh, Nat.mod_lt _ hpos⟩, by omega, ?_, ?_⟩
  · have h0 := hslots 0 (by simp)
    rw [Nat.add_zero, Nat.mod_eq_of_lt ht] at h0
    rw [List.getD_eq_getElem?_getD, h0]
    simp
  · show q.head_ = ((q.tail_ + 1) % Capacity + xs.length) % Capacity
    rw [ring_succ_mod, hhead]
  · intro i hi
    show q.buffer_[((q.tail_ + 1) % Capacity + i) % Capacity]? = xs[i]?
    rw [ring_succ_mod, hslots (i + 1) (by simp; omega), List.getElem?_cons_succ]

/-- The invariant of a run from an empty queue: what was pushed is what was
popped followed by what the ring still holds. -/
theorem runCalls_invariant (q : SPSCQueue T Capacity) (hwf : q.WellFormed)
    (hempty : q.head_ = q.tail_) (calls : List (QueueCall T)) :
    ∃ xs, (runCalls q calls).queue.Holds xs ∧
      (runCalls q calls).pushed = (runCalls q calls).popped ++ xs := by
  induction calls using List.reverseRecOn with
  | nil => exact ⟨[], (holds_nil_iff q hwf).mpr hempty.symm, rfl⟩
  | append_singleton calls c ih =>
    obtain ⟨xs, hh, hp⟩ := ih
    have hstep : runCalls q (calls ++ [c]) = (runCalls q calls).step c := by
      simp [runCalls, List.foldl_append]
    rw [hstep]
    cases c with
    | push item =>
      by_cases hroom : xs.length + 1 = Capacity
      · have hf := (holds_full_iff _ xs hh).mpr hroom
        refine ⟨xs, ?_, ?_⟩ <;> simp [QueueRun.step, try_push, hf, hh, hp]
      · obtain ⟨h1, h2⟩ := holds_push _ xs item hh hroom
        refine ⟨xs ++ [item], ?_, ?_⟩ <;> simp [QueueRun.step, h1, h2, hp]
    | pop item =>
      cases xs with
      | nil =>
        have he := (holds_empty_iff _ [] hh).mpr rfl
        refine ⟨[], ?_, ?_⟩ <;> simp [QueueRun.step, try_pop, he, hh, hp]
      | cons x xs =>
        obtain ⟨h1, h2, h3⟩ := holds_pop _ x xs item hh
        refine ⟨xs, ?_, ?_⟩ <;> simp [QueueRun.step, h1, h2, h3, hp]

end SPSCQueue

/-- C1: for every sequence of `try_push` and `try_pop` calls executed one at
a time on a queue that starts empty, the items returned by the successful
pops, in order, are a prefix of the items of the successful pushes, in order.
A well-formed queue has capacity at least 1, so this covers every capacity
from 2 upwards. -/
theorem spsc_fifo_order {T : Type} {Capacity : Nat}
    (q : SPSCQueue T Capacity) (hwf : q.WellFormed) (hempty : q.head_ = q.tail_)
    (calls : List (QueueCall T)) :
    (runCalls q calls).popped <+: (runCalls q calls).pushed := by
  obtain ⟨xs, _, hp⟩ := SPSCQueue.runCalls_invariant q hwf hempty calls
  rw [hp]
  exact List.prefix_append _ _

/-- Witness for C1 on a 4-slot queue: three pushes interleaved with four
pops, the last of which finds the queue empty. -/
theorem spsc_fifo_order_witness :
    (runCalls (⟨[0, 0, 0, 0], 0, 0⟩ : SPSCQueue Nat 4)
        [.push 1, .push 2, .pop 0, .push 3, .pop 0, .pop 0, .pop 0]).popped <+:
      (runCalls (⟨[0, 0, 0, 0], 0, 0⟩ : SPSCQueue Nat 4)
        [.push 1, .push 2, .pop 0, .push 3, .pop 0, .pop 0, .pop 0]).pushed :=
  spsc_fifo_order ⟨[0, 0, 0, 0], 0, 0⟩ (by decide) rfl _

/-- C2: when the queue is full (the next write index equals the read index),
`try_push` returns false and leaves the write cursor, the read cursor and the
buffer unchanged, so every later sequence of calls behaves as if the push had
not been made. -/
theorem try_push_full_unchanged {T : Type} {Capacity : Nat} (q : SPSCQueue T Capacity)
    (item : T) (hfull : (q.head_ + 1) % Capacity = q.tail_) :
    (q.try_push item).1 = false ∧
      (q.try_push item).2.head_ = q.head_ ∧
      (q.try_push item).2.tail_ = q.tail_ ∧
      (q.try_push item).2.buffer_ = q.buffer_ ∧
      ∀ calls : List (QueueCall T),
        runCalls (q.try_push item).2 calls = runCalls q calls := by
  have h : q.try_push item = (false, q) := by
    simp [SPSCQueue.try_push, hfull]
  simp [h]

/-- Witness for C2: a 4-slot queue holding three items rejects a fourth. -/
theorem try_push_full_unchanged_witness :
    ((⟨[7, 8, 9, 0], 3, 0⟩ : SPSCQueue Nat 4).try_push 5).1 = false ∧
      ((⟨[7, 8, 9, 0], 3, 0⟩ : SPSCQueue Nat 4).try_push 5).2.buffer_ = [7, 8, 9, 0] :=
  ⟨(try_push_full_unchanged (⟨[7, 8, 9, 0], 3, 0⟩ : SPSCQueue Nat 4) 5 (by decide)).1,
    (try_push_full_unchanged (⟨[7, 8, 9, 0], 3, 0⟩ : SPSCQueue Nat 4) 5 (by decide)).2.2.2.1⟩

/-- C3: when the queue is empty (read index equals write index), `try_pop`
returns false, leaves both cursors and the buffer unchanged, and leaves the
caller's output item as it was. -/
theorem try_pop_empty_unchanged {T : Type} {Capacity : Nat} (q : SPSCQueue T Capacity)
    (item : T) (hempty : q.tail_ = q.head_) :
    (q.try_pop item).1 = false ∧
      (q.try_pop item).2.1.head_ = q.head_ ∧
      (q.try_pop item).2.1.tail_ = q.tail_ ∧
      (q.try_pop item).2.1.buffer_ = q.buffer_ ∧
      (q.try_pop item).2.2 = item := by
  have h : q.try_pop item = (false, q, item) := by
    simp [SPSCQueue.try_pop, hempty]
  simp [h]

/-- Witness for C3: popping a 4-slot queue whose cursors are both 2. -/
theorem try_pop_empty_unchanged_witness :
    ((⟨[7, 8, 9, 0], 2, 2⟩ : SPSCQueue Nat 4).try_pop 5).1 = false ∧
      ((⟨[7, 8, 9, 0], 2, 2⟩ : SPSCQueue Nat 4).try_pop 5).2.2 = 5 :=
  ⟨(try_pop_empty_unchanged (⟨[7, 8, 9, 0], 2, 2⟩ : SPSCQueue Nat 4) 5 rfl).1,
    (try_pop_empty_unchanged (⟨[7, 8, 9, 0], 2, 2⟩ : SPSCQueue Nat 4) 5 rfl).2.2.2.2⟩

/-! ## Judgments -/

theorem balance_judgment_eq (config_ : AnalysisConfig) (r : AnalysisResults) (v b : ℚ) :
    update_balance_judgment config_ { r with voice_lufs := .fin v, bgm_lufs := .fin b } =
      { r with
        voice_lufs := .fin v
        bgm_lufs := .fin b
        balance_delta := v - b
        balance_status :=
          specClassify (v - b) config_.balance_target (config_.balance_target - 3)
            config_.hysteresis r.balance_status } := by
  simp only [update_balance_judgment, specClassify]

theorem mix_judgment_eq (config_ : AnalysisConfig) (r : AnalysisResults) (mx : ℚ) :
    update_mix_judgment config_ { r with mix_lufs := .fin mx } =
      { r with
        mix_lufs := .fin mx
        mix_status :=
          specClassify mx config_.mix_ok_threshold config_.mix_warn_threshold
            config_.hysteresis r.mix_status } := by
  simp only [update_mix_judgment, specClassify]

theorem specClassify_dead_zone (m ok warn h : ℚ) (p : Status) (hlt : warn < ok)
    (hz : (ok - h ≤ m ∧ m < ok + h) ∨ (warn - h ≤ m ∧ m < warn + h)) :
    specClassify m ok warn h p = p := by
  unfold specClassify
  rcases hz with ⟨h1, h2⟩ | ⟨h1, h2⟩
  · rw [if_neg (by linarith), if_neg (by linarith), if_neg (by intro hc; linarith [hc.1])]
  · rw [if_neg (by linarith), if_neg (by linarith), if_neg (by intro hc; linarith [hc.2])]

theorem specClassify_outside (m ok warn h : ℚ) (p p' : Status)
    (hz : ¬ ((ok - h ≤ m ∧ m < ok + h) ∨ (warn - h ≤ m ∧ m < warn + h))) :
    specClassify m ok warn h p = specClassify m ok warn h p' := by
  unfold specClassify
  by_cases h1 : m ≥ ok + h
  · rw [if_pos h1, if_pos h1]
  · by_cases h2 : m < warn - h
    · rw [if_neg h1, if_pos h2, if_neg h1, if_pos h2]
    · by_cases h3 : m < ok - h ∧ m ≥ warn + h
      · rw [if_neg h1, if_neg h2, if_pos h3, if_neg h1, if_neg h2, if_pos h3]
      · exfalso
        apply hz
        push_neg at h1 h2 h3
        by_cases h4 : m < ok - h
        · exact Or.inr ⟨h2, h3 h4⟩
        · exact Or.inl ⟨le_of_not_lt h4, h1⟩

/-- C7: for non-sentinel voice and BGM loudness `v` and `b`,
`update_balance_judgment` publishes the delta `v - b` and the status the
specification's `classify` gives for the metric `v - b`, the thresholds
`target` and `target - 3`, the hysteresis and the previous balance status; for
a non-sentinel mix loudness, `update_mix_judgment` publishes the status
`classify` gives for the mix thresholds and the previous mix status.  No other
field changes. -/
theorem judgments_refine_classify (config_ : AnalysisConfig) (r : AnalysisResults)
    (v b mx : ℚ) :
    update_balance_judgment config_ { r with voice_lufs := .fin v, bgm_lufs := .fin b } =
        { r with
          voice_lufs := .fin v
          bgm_lufs := .fin b
          balance_delta := v - b
          balance_status :=
            specClassify (v - b) config_.balance_target (config_.balance_target - 3)
              config_.hysteresis r.balance_status } ∧
      update_mix_judgment config_ { r with mix_lufs := .fin mx } =
        { r with
          mix_lufs := .fin mx
          mix_status :=
            specClassify mx config_.mix_ok_threshold config_.mix_warn_threshold
              config_.hysteresis r.mix_status } :=
  ⟨balance_judgment_eq config_ r v b, mix_judgment_eq config_ r mx⟩

/-- C8: when the OK threshold is above the WARN threshold, a metric inside
`[ok - h, ok + h)` or `[warn - h, warn + h)` leaves the status as it was, and
for a metric outside both zones the new status is the same whatever the
previous status was.  This holds for every hysteresis `h`, in particular for
`h >= 0`.  Stated for the balance judgment (thresholds `target` and
`target - 3`, metric `v - b`) and for the mix judgment (thresholds from the
configuration). -/
theorem judgment_dead_zone (config_ : AnalysisConfig) (r : AnalysisResults) (v b mx : ℚ)
    (hmix : config_.mix_warn_threshold < config_.mix_ok_threshold) :
    (((config_.balance_target - config_.hysteresis ≤ v - b ∧
          v - b < config_.balance_target + config_.hysteresis) ∨
        (config_.balance_target - 3 - config_.hysteresis ≤ v - b ∧
          v - b < config_.balance_target - 3 + config_.hysteresis)) →
      (update_balance_judgment config_
        { r with voice_lufs := .fin v, bgm_lufs := .fin b }).balance_status =
          r.balance_status) ∧
    (¬ ((config_.balance_target - config_.hysteresis ≤ v - b ∧
          v - b < config_.balance_target + config_.hysteresis) ∨
        (config_.balance_target - 3 - config_.hysteresis ≤ v - b ∧
          v - b < config_.balance_target - 3 + config_.hysteresis)) →
      ∀ p : Status,
        (update_balance_judgment config_
          { r with voice_lufs := .fin v, bgm_lufs := .fin b, balance_status := p }).balance_status =
        (update_balance_judgment config_
          { r with voice_lufs := .fin v, bgm_lufs := .fin b }).balance_status) ∧
    (((config_.mix_ok_threshold - config_.hysteresis ≤ mx ∧
          mx < config_.mix_ok_threshold + config_.hysteresis) ∨
        (config_.mix_warn_threshold - config_.hysteresis ≤ mx ∧
          mx < config_.mix_warn_threshold + config_.hysteresis)) →
      (update_mix_judgment config_ { r with mix_lufs := .fin mx }).mix_status = r.mix_status) ∧
    (¬ ((config_.mix_ok_threshold - config_.hysteresis ≤ mx ∧
          mx < config_.mix_ok_threshold + config_.hysteresis) ∨
        (config_.mix_warn_threshold - config_.hysteresis ≤ mx ∧
          mx < config_.mix_warn_threshold + config_.hysteresis)) →
      ∀ p : Status,
        (update_mix_judgment config_ { r with mix_lufs := .fin mx, mix_status := p }).mix_status =
        (update_mix_judgment config_ { r with mix_lufs := .fin mx }).mix_status) := by
  refine ⟨fun hz => ?_, fun hz p => ?_, fun hz => ?_, fun hz p => ?_⟩
  · rw [balance_judgment_eq]
    exact specClassify_dead_zone _ _ _ _ _ (by linarith) hz
  · have e := balance_judgment_eq config_ { r with balance_status := p } v b
    rw [e, balance_judgment_eq]
    exact specClassify_outside _ _ _ _ _ _ hz
  · rw [mix_judgment_eq]
    exact specClassify_dead_zone _ _ _ _ _ hmix hz
  · have e := mix_judgment_eq config_ { r with mix_status := p } mx
    rw [e, mix_judgment_eq]
    exact specClassify_outside _ _ _ _ _ _ hz

/-- Witness for C8, at target 6 and hysteresis 0.5 with previous status OK:
the delta 6.5 gives OK (by evaluation), the deltas 6.0 and 5.6 lie in the dead
zone `[5.5, 6.5)` and keep OK (by the theorem), and the delta 5.0 gives WARN
(by evaluation). -/
theorem judgment_dead_zone_witness :
    (update_balance_judgment {}
        { voice_lufs := .fin (-14), bgm_lufs := .fin (-41 / 2) }).balance_status = .OK ∧
      (update_balance_judgment {}
        { voice_lufs := .fin (-14), bgm_lufs := .fin (-20) }).balance_status = .OK ∧
      (update_balance_judgment {}
        { voice_lufs := .fin (-14), bgm_lufs := .fin (-98 / 5) }).balance_status = .OK ∧
      (update_balance_judgment {}
        { voice_lufs := .fin (-14), bgm_lufs := .fin (-19) }).balance_status = .WARN := by
  refine ⟨?_, ?_, ?_, ?_⟩
  · simp only [update_balance_judgment]; norm_num
  · exact (judgment_dead_zone {} {} (-14) (-20) (-20) (by norm_num)).1 (Or.inl (by norm_num))
  · exact (judgment_dead_zone {} {} (-14) (-98 / 5) (-20) (by norm_num)).1
      (Or.inl (by norm_num))
  · simp only [update_balance_judgment]; norm_num

/-- C9: when the published voice loudness or the published BGM loudness is
the sentinel, `update_balance_judgment` changes nothing (in particular neither
the balance status nor the balance delta); when the published mix loudness is
the sentinel, `update_mix_judgment` changes nothing. -/
theorem sentinel_skips_judgment (config_ : AnalysisConfig) (r : AnalysisResults) :
    update_balance_judgment config_ { r with voice_lufs := .negInf } =
        { r with voice_lufs := .negInf } ∧
      update_balance_judgment config_ { r with bgm_lufs := .negInf } =
        { r with bgm_lufs := .negInf } ∧
      update_mix_judgment config_ { r with mix_lufs := .negInf } =
        { r with mix_lufs := .negInf } := by
  refine ⟨rfl, ?_, rfl⟩
  cases hv : r.voice_lufs <;> simp [update_balance_judgment, hv]

theorem std_max_three (a b c : Level) :
    std_max a [b, c] ∈ [a, b, c] ∧ a.le (std_max a [b, c]) = true ∧
      b.le (std_max a [b, c]) = true ∧ c.le (std_max a [b, c]) = true := by
  cases a <;> cases b <;> cases c <;>
    simp only [std_max, List.foldl, Level.lt, Level.le] <;>
    split_ifs <;> simp_all <;> (try constructor) <;> linarith

/-- C10: `update_clip_judgment` writes only the clip status, and that status
is a function of the three published peaks: with `M` their maximum, it is BAD
if `M >= 0`, WARN if `-1 <= M < 0` and OK otherwise; three sentinel peaks give
OK; the previous clip status does not matter. -/
theorem clip_judgment_stateless (r : AnalysisResults) :
    (∃ M : Level,
      M ∈ [r.voice_peak_dbfs, r.bgm_peak_dbfs, r.mix_peak_dbfs] ∧
      (∀ x ∈ [r.voice_peak_dbfs, r.bgm_peak_dbfs, r.mix_peak_dbfs], x.le M = true) ∧
      update_clip_judgment r =
        { r with
          clip_status :=
            if M.ge 0 then Status.BAD else if M.ge (-1) then Status.WARN else Status.OK }) ∧
    (update_clip_judgment
      { r with voice_peak_dbfs := .negInf, bgm_peak_dbfs := .negInf,
               mix_peak_dbfs := .negInf }).clip_status = .OK ∧
    (∀ p : Status,
      (update_clip_judgment { r with clip_status := p }).clip_status =
        (update_clip_judgment r).clip_status) := by
  refine ⟨⟨std_max r.voice_peak_dbfs [r.bgm_peak_dbfs, r.mix_peak_dbfs], ?_, ?_, ?_⟩, ?_, ?_⟩
  · exact (std_max_three _ _ _).1
  · intro x hx
    obtain ⟨_, h1, h2, h3⟩ := std_max_three r.voice_peak_dbfs r.bgm_peak_dbfs r.mix_peak_dbfs
    simp only [List.mem_cons, List.mem_singleton, List.not_mem_nil, or_false] at hx
    rcases hx with rfl | rfl | rfl <;> assumption
  · simp only [update_clip_judgment, kClipBadThreshold, kClipWarnThreshold]
  · simp [update_clip_judgment, std_max, Level.lt, Level.ge]
  · intro p
    simp only [update_clip_judgment]

/-! ## Voice activity detector -/

theorem Level.ge_eq_not_lt (l : Level) (x : ℚ) : l.ge x = !(l.lt (.fin x)) := by
  cases l with
  | negInf => rfl
  | fin q =>
    simp only [Level.ge, Level.lt]
    by_cases h : x ≤ q
    · simp [h, not_lt.mpr h]
    · simp [h, not_le.mp h]

namespace VoiceActivityDetector

theorem sum_sq_const (xs : List ℚ) (c : ℚ) (n : Nat)
    (h : ∀ i, i < n → xs.getD i 0 * xs.getD i 0 = c) :
    (List.range n).foldl (fun (acc : ℚ) i => let s := xs.getD i 0; acc + s * s) 0 = n * c := by
  induction n with
  | zero => simp
  | succ n ih =>
    rw [List.range_succ, List.foldl_append, ih (fun i hi => h i (Nat.lt_succ_of_lt hi))]
    simp only [List.foldl_cons, List.foldl_nil]
    rw [h n (Nat.lt_succ_self n)]
    push_cast
    ring

theorem level_of_silence (m : LibM) (hsqrt : m.sqrt 0 = 0) (samples : Option (List ℚ))
    (n : Nat) (h : ∀ xs, samples = some xs → ∀ i, i < n → xs.getD i 0 = 0) :
    calculate_rms_dbfs m samples n = .negInf := by
  cases samples with
  | none => rfl
  | some xs =>
    unfold calculate_rms_dbfs
    by_cases hn : n = 0
    · simp [hn]
    · have hs := sum_sq_const xs 0 n (fun i hi => by rw [h xs rfl i hi]; ring)
      simp only [hn, if_false, hs, mul_zero, zero_div, hsqrt, le_refl, if_true]

theorem level_of_full_scale (m : LibM) (hsqrt : m.sqrt 1 = 1) (hlog : m.log10 1 = 0)
    (xs : List ℚ) (n : Nat) (hn : n ≠ 0)
    (h : ∀ i, i < n → xs.getD i 0 * xs.getD i 0 = 1) :
    calculate_rms_dbfs m (some xs) n = .fin 0 := by
  unfold calculate_rms_dbfs
  have hs := sum_sq_const xs 1 n h
  have hq : (n : ℚ) ≠ 0 := Nat.cast_ne_zero.mpr hn
  simp only [hn, if_false, hs, mul_one, div_self hq, hsqrt, hlog, mul_zero]
  norm_num

theorem update_skip (m : LibM) (v : VoiceActivityDetector) (samples : Option (List ℚ))
    (n : Nat) (h : samples = none ∨ n = 0) : v.update m samples n = (v.is_active_, v) := by
  rcases h with h | h <;> simp [update, h]

theorem update_inactive_above (m : LibM) (v : VoiceActivityDetector) (b : Block)
    (hs : b.samples.isSome = true) (hn : b.frame_count ≠ 0) (hi : v.is_active_ = false)
    (hl : (b.level m).ge v.threshold_dbfs_ = true) :
    v.update m b.samples b.frame_count =
      if v.attack_samples_ ≤ (v.attack_counter_ + b.frame_count) % 2 ^ 32 then
        (true, { v with release_counter_ := 0, attack_counter_ := 0, is_active_ := true })
      else
        (false, { v with release_counter_ := 0,
                         attack_counter_ := (v.attack_counter_ + b.frame_count) % 2 ^ 32 }) := by
  obtain ⟨xs, hxs⟩ := Option.isSome_iff_exists.mp hs
  simp only [Block.level, hxs] at hl
  simp only [update, hxs, Option.isNone_some, hn, hl, hi]
  split_ifs <;> simp_all

theorem update_inactive_below (m : LibM) (v : VoiceActivityDetector) (b : Block)
    (hs : b.samples.isSome = true) (hn : b.frame_count ≠ 0) (hi : v.is_active_ = false)
    (hl : (b.level m).ge v.threshold_dbfs_ = false) :
    v.update m b.samples b.frame_count = (false, { v with attack_counter_ := 0 }) := by
  obtain ⟨xs, hxs⟩ := Option.isSome_iff_exists.mp hs
  simp only [Block.level, hxs] at hl
  simp [update, hxs, hn, hl, hi]

theorem update_active_above (m : LibM) (v : VoiceActivityDetector) (b : Block)
    (hs : b.samples.isSome = true) (hn : b.frame_count ≠ 0) (hi : v.is_active_ = true)
    (hl : (b.level m).ge v.threshold_dbfs_ = true) :
    v.update m b.samples b.frame_count = (true, { v with release_counter_ := 0 }) := by
  obtain ⟨xs, hxs⟩ := Option.isSome_iff_exists.mp hs
  simp only [Block.level, hxs] at hl
  simp [update, hxs, hn, hl, hi]

theorem update_active_below (m : LibM) (v : VoiceActivityDetector) (b : Block)
    (hs : b.samples.isSome = true) (hn : b.frame_count ≠ 0) (hi : v.is_active_ = true)
    (hl : (b.level m).ge v.threshold_dbfs_ = false) :
    v.update m b.samples b.frame_count =
      if v.release_samples_ ≤ (v.release_counter_ + b.frame_count) % 2 ^ 32 then
        (false, { v with attack_counter_ := 0, release_counter_ := 0, is_active_ := false })
      else
        (true, { v with attack_counter_ := 0,
                        release_counter_ := (v.release_counter_ + b.frame_count) % 2 ^ 32 }) := by
  obtain ⟨xs, hxs⟩ := Option.isSome_iff_exists.mp hs
  simp only [Block.level, hxs] at hl
  simp only [update, hxs, Option.isNone_some, hn, hl, hi]
  split_ifs <;> simp_all

theorem new_eq :
    VoiceActivityDetector.new = { attack_samples_ := 7200, release_samples_ := 28800 } := by
  simp only [VoiceActivityDetector.new, set_sample_rate, set_attack_time, set_release_time,
    to_uint32, kDefaultAttackMs, kDefaultReleaseMs]
  norm_num
  constructor <;> rfl

end VoiceActivityDetector

theorem fullScaleBlock_isSome (n : Nat) : (fullScaleBlock n).samples.isSome = true := by
  simp only [fullScaleBlock, Option.isSome_some]

theorem fullScaleBlock_frame_count (n : Nat) : (fullScaleBlock n).frame_count = n := by
  simp only [fullScaleBlock]

theorem fullScaleBlock_level (n : Nat) (hn : n ≠ 0) :
    (fullScaleBlock n).level tableLibM = .fin 0 := by
  simp only [fullScaleBlock, Block.level]
  refine VoiceActivityDetector.level_of_full_scale tableLibM (by simp [tableLibM])
    (by simp [tableLibM]) _ n hn (fun i hi => ?_)
  rw [List.getD_eq_getElem?_getD, List.getElem?_replicate]
  simp [hi]

theorem silentBlock_isSome (n : Nat) : (silentBlock n).samples.isSome = true := by
  simp only [silentBlock, Option.isSome_some]

theorem silentBlock_frame_count (n : Nat) : (silentBlock n).frame_count = n := by
  simp only [silentBlock]

theorem silentBlock_zero (n : Nat) :
    ∀ xs, (silentBlock n).samples = some xs → ∀ i, i < (silentBlock n).frame_count →
      xs.getD i 0 = 0 := by
  intro xs hxs i hi
  have e1 : (silentBlock n).samples = some (List.replicate n 0) := by
    simp only [silentBlock]
  rw [e1] at hxs
  rw [silentBlock_frame_count] at hi
  injection hxs with hxs
  subst hxs
  rw [List.getD_eq_getElem?_getD, List.getElem?_replicate]
  simp [hi]

theorem silentBlock_level (n : Nat) : (silentBlock n).level tableLibM = .negInf :=
  VoiceActivityDetector.level_of_silence tableLibM (by simp [tableLibM]) _ _
    (silentBlock_zero n)

theorem aboveRun_cons (m : LibM) (thr : ℚ) (acc : Nat) (b : Block) (bs : List Block) :
    aboveRun m thr acc (b :: bs) = aboveRun m thr (aboveRun m thr acc [b]) bs := by
  simp [aboveRun]

theorem belowRun_cons (m : LibM) (thr : ℚ) (acc : Nat) (b : Block) (bs : List Block) :
    belowRun m thr acc (b :: bs) = belowRun m thr (belowRun m thr acc [b]) bs := by
  simp [belowRun]

/-- One `update` on an inactive detector whose attack counter is below the
budget, for a non-empty block that cannot overflow the counter. -/
theorem attack_step (m : LibM) (v : VoiceActivityDetector) (b : Block)
    (hi : v.is_active_ = false) (hA : 1 ≤ v.attack_samples_)
    (hc : v.attack_counter_ < v.attack_samples_)
    (hb : b.samples.isSome = true ∧ 1 ≤ b.frame_count ∧
      v.attack_samples_ + b.frame_count ≤ 2 ^ 32) :
    (v.update m b.samples b.frame_count).1 =
        decide (v.attack_samples_ ≤ aboveRun m v.threshold_dbfs_ v.attack_counter_ [b]) ∧
      (v.update m b.samples b.frame_count).2.attack_samples_ = v.attack_samples_ ∧
      (v.update m b.samples b.frame_count).2.threshold_dbfs_ = v.threshold_dbfs_ ∧
      (v.update m b.samples b.frame_count).2.is_active_ =
        decide (v.attack_samples_ ≤ aboveRun m v.threshold_dbfs_ v.attack_counter_ [b]) ∧
      (v.update m b.samples b.frame_count).2.attack_counter_ =
        if v.attack_samples_ ≤ aboveRun m v.threshold_dbfs_ v.attack_counter_ [b] then 0
        else aboveRun m v.threshold_dbfs_ v.attack_counter_ [b] := by
  obtain ⟨hs, hn, hov⟩ := hb
  have hn0 : b.frame_count ≠ 0 := by omega
  cases hl : (b.level m).ge v.threshold_dbfs_ with
  | true =>
    have hrun : aboveRun m v.threshold_dbfs_ v.attack_counter_ [b] =
        v.attack_counter_ + b.frame_count := by
      simp [aboveRun, hl]
    have hmod : (v.attack_counter_ + b.frame_count) % 2 ^ 32 =
        v.attack_counter_ + b.frame_count := Nat.mod_eq_of_lt (by omega)
    rw [VoiceActivityDetector.update_inactive_above m v b hs hn0 hi hl, hmod, hrun]
    split_ifs with h <;> simp [h, hi]
  | false =>
    have hrun : aboveRun m v.threshold_dbfs_ v.attack_counter_ [b] = 0 := by
      simp [aboveRun, hl]
    rw [VoiceActivityDetector.update_inactive_below m v b hs hn0 hi hl, hrun]
    have : ¬ v.attack_samples_ ≤ 0 := by omega
    simp [this, hi]

theorem attack_run_aux (m : LibM) (A : Nat) (thr : ℚ) (hA : 1 ≤ A) :
    ∀ (bs : List Block) (v : VoiceActivityDetector) (k : Nat),
      v.is_active_ = false → v.attack_samples_ = A → v.threshold_dbfs_ = thr →
      v.attack_counter_ < A →
      (∀ b ∈ bs, b.samples.isSome = true ∧ 1 ≤ b.frame_count ∧ A + b.frame_count ≤ 2 ^ 32) →
      k < bs.length →
      (∀ j, j < k → aboveRun m thr v.attack_counter_ (bs.take (j + 1)) < A) →
      (updateReturns m v bs)[k]? =
          some (decide (A ≤ aboveRun m thr v.attack_counter_ (bs.take (k + 1)))) ∧
        (updateAll m v (bs.take (k + 1))).attack_counter_ =
          (if A ≤ aboveRun m thr v.attack_counter_ (bs.take (k + 1)) then 0
           else aboveRun m thr v.attack_counter_ (bs.take (k + 1))) := by
  intro bs
  induction bs with
  | nil => intro v k _ _ _ _ _ hk; simp at hk
  | cons b bs ih =>
    intro v k hi hAv hthr hc hbs hk hbefore
    subst hAv hthr
    obtain ⟨s1, s2, s3, s4, s5⟩ := attack_step m v b hi hA hc (hbs b (List.mem_cons_self _ _))
    cases k with
    | zero =>
      simp only [updateReturns, List.getElem?_cons_zero, s1, zero_add, List.take_succ_cons,
        List.take_zero, updateAll, s5, and_self]
    | succ k =>
      have h0 := hbefore 0 (Nat.succ_pos k)
      simp only [zero_add, List.take_succ_cons, List.take_zero] at h0
      have hnot : ¬ v.attack_samples_ ≤ aboveRun m v.threshold_dbfs_ v.attack_counter_ [b] := by
        omega
      rw [if_neg hnot] at s5
      rw [decide_eq_false hnot] at s4
      have := ih (v.update m b.samples b.frame_count).2 k s4 s2 s3 (by rw [s5]; exact h0)
        (fun b' hb' => hbs b' (List.mem_cons_of_mem _ hb')) (by simpa using hk)
        (fun j hj => by
          have := hbefore (j + 1) (by omega)
          rw [List.take_succ_cons, aboveRun_cons] at this
          rw [s5]; exact this)
      rw [s5] at this
      simp only [updateReturns, List.getElem?_cons_succ, List.take_succ_cons, updateAll,
        aboveRun_cons m _ _ b (List.take (k + 1) bs)]
      exact this

/-- One `update` on an active detector whose release counter is below the
budget, for a non-empty block that cannot overflow the counter. -/
theorem release_step (m : LibM) (v : VoiceActivityDetector) (b : Block)
    (hi : v.is_active_ = true) (hR : 1 ≤ v.release_samples_)
    (hc : v.release_counter_ < v.release_samples_)
    (hb : b.samples.isSome = true ∧ 1 ≤ b.frame_count ∧
      v.release_samples_ + b.frame_count ≤ 2 ^ 32) :
    (v.update m b.samples b.frame_count).1 =
        !decide (v.release_samples_ ≤ belowRun m v.threshold_dbfs_ v.release_counter_ [b]) ∧
      (v.update m b.samples b.frame_count).2.release_samples_ = v.release_samples_ ∧
      (v.update m b.samples b.frame_count).2.threshold_dbfs_ = v.threshold_dbfs_ ∧
      (v.update m b.samples b.frame_count).2.is_active_ =
        !decide (v.release_samples_ ≤ belowRun m v.threshold_dbfs_ v.release_counter_ [b]) ∧
      (v.update m b.samples b.frame_count).2.release_counter_ =
        if v.release_samples_ ≤ belowRun m v.threshold_dbfs_ v.release_counter_ [b] then 0
        else belowRun m v.threshold_dbfs_ v.release_counter_ [b] := by
  obtain ⟨hs, hn, hov⟩ := hb
  have hn0 : b.frame_count ≠ 0 := by omega
  have hge := Level.ge_eq_not_lt (b.level m) v.threshold_dbfs_
  cases hl : (b.level m).ge v.threshold_dbfs_ with
  | false =>
    have hlt : (b.level m).lt (.fin v.threshold_dbfs_) = true := by
      rw [hl] at hge; simpa using hge
    have hrun : belowRun m v.threshold_dbfs_ v.release_counter_ [b] =
        v.release_counter_ + b.frame_count := by
      simp [belowRun, hlt]
    have hmod : (v.release_counter_ + b.frame_count) % 2 ^ 32 =
        v.release_counter_ + b.frame_count := Nat.mod_eq_of_lt (by omega)
    rw [VoiceActivityDetector.update_active_below m v b hs hn0 hi hl, hmod, hrun]
    split_ifs with h <;> simp [h, hi]
  | true =>
    have hlt : (b.level m).lt (.fin v.threshold_dbfs_) = false := by
      rw [hl] at hge; simpa using hge
    have hrun : belowRun m v.threshold_dbfs_ v.release_counter_ [b] = 0 := by
      simp [belowRun, hlt]
    rw [VoiceActivityDetector.update_active_above m v b hs hn0 hi hl, hrun]
    have : ¬ v.release_samples_ ≤ 0 := by omega
    simp [this, hi]

theorem release_run_aux (m : LibM) (R : Nat) (thr : ℚ) (hR : 1 ≤ R) :
    ∀ (bs : List Block) (v : VoiceActivityDetector) (k : Nat),
      v.is_active_ = true → v.release_samples_ = R → v.threshold_dbfs_ = thr →
      v.release_counter_ < R →
      (∀ b ∈ bs, b.samples.isSome = true ∧ 1 ≤ b.frame_count ∧ R + b.frame_count ≤ 2 ^ 32) →
      k < bs.length →
      (∀ j, j < k → belowRun m thr v.release_counter_ (bs.take (j + 1)) < R) →
      (updateReturns m v bs)[k]? =
          some (!decide (R ≤ belowRun m thr v.release_counter_ (bs.take (k + 1)))) ∧
        (updateAll m v (bs.take (k + 1))).release_counter_ =
          (if R ≤ belowRun m thr v.release_counter_ (bs.take (k + 1)) then 0
           else belowRun m thr v.release_counter_ (bs.take (k + 1))) := by
  intro bs
  induction bs with
  | nil => intro v k _ _ _ _ _ hk; simp at hk
  | cons b bs ih =>
    intro v k hi hRv hthr hc hbs hk hbefore
    subst hRv hthr
    obtain ⟨s1, s2, s3, s4, s5⟩ := release_step m v b hi hR hc (hbs b (List.mem_cons_self _ _))
    cases k with
    | zero =>
      simp only [updateReturns, List.getElem?_cons_zero, s1, zero_add, List.take_succ_cons,
        List.take_zero, updateAll, s5, and_self]
    | succ k =>
      have h0 := hbefore 0 (Nat.succ_pos k)
      simp only [zero_add, List.take_succ_cons, List.take_zero] at h0
      have hnot : ¬ v.release_samples_ ≤ belowRun m v.threshold_dbfs_ v.release_counter_ [b] := by
        omega
      rw [if_neg hnot] at s5
      rw [decide_eq_false hnot] at s4
      have := ih (v.update m b.samples b.frame_count).2 k (by simpa using s4) s2 s3
        (by rw [s5]; exact h0)
        (fun b' hb' => hbs b' (List.mem_cons_of_mem _ hb')) (by simpa using hk)
        (fun j hj => by
          have := hbefore (j + 1) (by omega)
          rw [List.take_succ_cons, belowRun_cons] at this
          rw [s5]; exact this)
      rw [s5] at this
      simp only [updateReturns, List.getElem?_cons_succ, List.take_succ_cons, updateAll,
        belowRun_cons m _ _ b (List.take (k + 1) bs)]
      exact this

/-- One `update` with a block of zeros (or a null or empty block) on an
inactive detector. -/
theorem silence_step (m : LibM) (hsqrt : m.sqrt 0 = 0) (v : VoiceActivityDetector) (b : Block)
    (hi : v.is_active_ = false)
    (hz : ∀ xs, b.samples = some xs → ∀ i, i < b.frame_count → xs.getD i 0 = 0) :
    (v.update m b.samples b.frame_count).1 = false ∧
      (v.update m b.samples b.frame_count).2.is_active_ = false := by
  by_cases hs : b.samples = none ∨ b.frame_count = 0
  · rw [VoiceActivityDetector.update_skip m v _ _ hs]
    exact ⟨hi, hi⟩
  · push_neg at hs
    have hl : (b.level m).ge v.threshold_dbfs_ = false := by
      rw [Block.level, VoiceActivityDetector.level_of_silence m hsqrt _ _ hz]
      rfl
    rw [VoiceActivityDetector.update_inactive_below m v b
      (Option.isSome_iff_ne_none.mpr hs.1) hs.2 hi hl]
    exact ⟨rfl, hi⟩

theorem aboveRun_nil (m : LibM) (thr : ℚ) (acc : Nat) : aboveRun m thr acc [] = acc := rfl

theorem strictlyAboveRun_nil (m : LibM) (thr : ℚ) (acc : Nat) :
    strictlyAboveRun m thr acc [] = acc := rfl

theorem belowRun_nil (m : LibM) (thr : ℚ) (acc : Nat) : belowRun m thr acc [] = acc := rfl

theorem aboveRun_fullScale (thr : ℚ) (acc n : Nat) (bs : List Block) (hn : n ≠ 0)
    (hthr : thr ≤ 0) :
    aboveRun tableLibM thr acc (fullScaleBlock n :: bs) = aboveRun tableLibM thr (acc + n) bs := by
  simp [aboveRun, fullScaleBlock_level n hn, Level.ge, hthr, fullScaleBlock_frame_count]

theorem strictlyAboveRun_fullScale (thr : ℚ) (acc n : Nat) (bs : List Block) (hn : n ≠ 0)
    (hthr : thr < 0) :
    strictlyAboveRun tableLibM thr acc (fullScaleBlock n :: bs) =
      strictlyAboveRun tableLibM thr (acc + n) bs := by
  simp [strictlyAboveRun, fullScaleBlock_level n hn, Level.lt, hthr, fullScaleBlock_frame_count]

theorem strictlyAboveRun_fullScale_at_zero (acc n : Nat) (bs : List Block) (hn : n ≠ 0) :
    strictlyAboveRun tableLibM 0 acc (fullScaleBlock n :: bs) =
      strictlyAboveRun tableLibM 0 0 bs := by
  simp [strictlyAboveRun, fullScaleBlock_level n hn, Level.lt]

theorem belowRun_silent (thr : ℚ) (acc n : Nat) (bs : List Block) :
    belowRun tableLibM thr acc (silentBlock n :: bs) = belowRun tableLibM thr (acc + n) bs := by
  simp [belowRun, silentBlock_level n, Level.lt, silentBlock_frame_count]

/-- The `update` call for a full-scale block on an inactive detector whose
threshold is at most 0 dBFS. -/
theorem update_fullScale_inactive (v : VoiceActivityDetector) (n : Nat) (hn : n ≠ 0)
    (hi : v.is_active_ = false) (hthr : v.threshold_dbfs_ ≤ 0) :
    v.update tableLibM (fullScaleBlock n).samples (fullScaleBlock n).frame_count =
      if v.attack_samples_ ≤ (v.attack_counter_ + n) % 2 ^ 32 then
        (true, { v with release_counter_ := 0, attack_counter_ := 0, is_active_ := true })
      else
        (false, { v with release_counter_ := 0,
                         attack_counter_ := (v.attack_counter_ + n) % 2 ^ 32 }) := by
  rw [VoiceActivityDetector.update_inactive_above tableLibM v _ (fullScaleBlock_isSome n)
    (by rw [fullScaleBlock_frame_count]; exact hn) hi
    (by rw [fullScaleBlock_level n hn]; simp [Level.ge, hthr]), fullScaleBlock_frame_count]

/-- The `update` call for a block of zeros on an active detector. -/
theorem update_silent_active (v : VoiceActivityDetector) (n : Nat) (hn : n ≠ 0)
    (hi : v.is_active_ = true) :
    v.update tableLibM (silentBlock n).samples (silentBlock n).frame_count =
      if v.release_samples_ ≤ (v.release_counter_ + n) % 2 ^ 32 then
        (false, { v with attack_counter_ := 0, release_counter_ := 0, is_active_ := false })
      else
        (true, { v with attack_counter_ := 0,
                        release_counter_ := (v.release_counter_ + n) % 2 ^ 32 }) := by
  rw [VoiceActivityDetector.update_active_below tableLibM v _ (silentBlock_isSome n)
    (by rw [silentBlock_frame_count]; exact hn) hi
    (by rw [silentBlock_level n]; rfl), silentBlock_frame_count]

/-- C4 (amended): for a fixed threshold and attack budget `A >= 1`, starting
from an inactive detector whose attack counter is 0, for every sequence of
non-null, non-empty blocks with `A + frame_count <= 2 ^ 32`: as long as no
earlier block has completed an unbroken run of blocks with RMS level at or
above the threshold (`>=`) whose sample counts sum to at least `A`, the `k`-th
`update` returns true exactly when block `k` completes such a run; so it returns
false on every block before the first completing one and true at that one.  A
block strictly below the threshold restarts the run from zero, and the attack
counter holds the current run while the detector is inactive. -/
theorem vad_attack_run (m : LibM) (v : VoiceActivityDetector) (bs : List Block) (k : Nat)
    (hinactive : v.is_active_ = false) (hcounter : v.attack_counter_ = 0)
    (hA : 1 ≤ v.attack_samples_)
    (hblocks : ∀ b ∈ bs, b.samples.isSome = true ∧ 1 ≤ b.frame_count ∧
      v.attack_samples_ + b.frame_count ≤ 2 ^ 32)
    (hk : k < bs.length)
    (hbefore : ∀ j, j < k →
      aboveRun m v.threshold_dbfs_ 0 (bs.take (j + 1)) < v.attack_samples_) :
    (updateReturns m v bs)[k]? =
        some (decide (v.attack_samples_ ≤ aboveRun m v.threshold_dbfs_ 0 (bs.take (k + 1)))) ∧
      (updateAll m v (bs.take (k + 1))).attack_counter_ =
        (if v.attack_samples_ ≤ aboveRun m v.threshold_dbfs_ 0 (bs.take (k + 1)) then 0
         else aboveRun m v.threshold_dbfs_ 0 (bs.take (k + 1))) := by
  have h := attack_run_aux m v.attack_samples_ v.threshold_dbfs_ hA bs v k hinactive rfl rfl
    (by omega) hblocks hk (by rw [hcounter]; exact hbefore)
  rw [hcounter] at h
  exact h

/-- Witness for C4 at 48 kHz: the default budget is 7200 samples, and of two
full-scale blocks of 4096 samples the first leaves the detector inactive
(4096 < 7200) and the second activates it (8192 >= 7200). -/
theorem vad_attack_run_witness :
    VoiceActivityDetector.new.attack_samples_ = 7200 ∧
      (updateReturns tableLibM VoiceActivityDetector.new
        [fullScaleBlock 4096, fullScaleBlock 4096])[0]? = some false ∧
      (updateReturns tableLibM VoiceActivityDetector.new
        [fullScaleBlock 4096, fullScaleBlock 4096])[1]? = some true := by
  have hA : VoiceActivityDetector.new.attack_samples_ = 7200 := by
    rw [VoiceActivityDetector.new_eq]
  have hthr : VoiceActivityDetector.new.threshold_dbfs_ = -40 := by
    rw [VoiceActivityDetector.new_eq]
  have hact : VoiceActivityDetector.new.is_active_ = false := by
    rw [VoiceActivityDetector.new_eq]
  have hcnt : VoiceActivityDetector.new.attack_counter_ = 0 := by
    rw [VoiceActivityDetector.new_eq]
  have h1 : aboveRun tableLibM (-40) 0 [fullScaleBlock 4096] = 4096 := by
    rw [aboveRun_fullScale _ _ _ _ (by norm_num) (by norm_num), aboveRun_nil]
  have h2 : aboveRun tableLibM (-40) 0 [fullScaleBlock 4096, fullScaleBlock 4096] = 8192 := by
    rw [aboveRun_fullScale _ _ _ _ (by norm_num) (by norm_num),
      aboveRun_fullScale _ _ _ _ (by norm_num) (by norm_num), aboveRun_nil]
  have hb : ∀ b ∈ [fullScaleBlock 4096, fullScaleBlock 4096],
      b.samples.isSome = true ∧ 1 ≤ b.frame_count ∧
        VoiceActivityDetector.new.attack_samples_ + b.frame_count ≤ 2 ^ 32 := by
    intro b hb
    simp only [List.mem_cons, List.mem_singleton, List.not_mem_nil, or_false, or_self] at hb
    subst hb
    rw [hA, fullScaleBlock_frame_count]
    exact ⟨fullScaleBlock_isSome _, by norm_num, by norm_num⟩
  have r0 := (vad_attack_run tableLibM VoiceActivityDetector.new
    [fullScaleBlock 4096, fullScaleBlock 4096] 0 hact hcnt (by rw [hA]; norm_num) hb
    (by simp) (fun j hj => absurd hj (Nat.not_lt_zero j))).1
  have r1 := (vad_attack_run tableLibM VoiceActivityDetector.new
    [fullScaleBlock 4096, fullScaleBlock 4096] 1 hact hcnt (by rw [hA]; norm_num) hb
    (by simp) (fun j hj => by
      have hj0 : j = 0 := by omega
      subst hj0
      rw [hthr, hA]
      simp only [zero_add, List.take_succ_cons, List.take_zero, h1]
      norm_num)).1
  rw [hthr, hA] at r0 r1
  simp only [zero_add, List.take_succ_cons, List.take_zero, List.take_nil, h1] at r0
  simp only [List.take_succ_cons, List.take_zero, List.take_nil, h2] at r1
  refine ⟨hA, ?_, ?_⟩
  · rw [r0]; simp
  · rw [r1]; simp

/-- Counterexample to C4 as stated, in two parts.  (1) At threshold 0 dBFS one
block of 7200 full-scale samples has RMS level exactly 0 dBFS: it is not
strictly above the threshold, the run of strictly-above blocks stays 0, yet
`update` returns true.  (2) With the default budget 7200 and threshold -40, a
full-scale block of 1 sample followed by one of `2 ^ 32 - 1` samples forms a
strictly-above run of `2 ^ 32` samples, yet `update` returns false on both
blocks, because the 32-bit attack counter wraps to 0. -/
theorem vad_attack_strict_counterexample :
    (updateReturns tableLibM (VoiceActivityDetector.new.set_threshold 0)
          [fullScaleBlock 7200] = [true] ∧
        strictlyAboveRun tableLibM 0 0 [fullScaleBlock 7200] = 0) ∧
      (updateReturns tableLibM VoiceActivityDetector.new
          [fullScaleBlock 1, fullScaleBlock 4294967295] = [false, false] ∧
        strictlyAboveRun tableLibM (-40) 0 [fullScaleBlock 1] = 1 ∧
        strictlyAboveRun tableLibM (-40) 0 [fullScaleBlock 1, fullScaleBlock 4294967295] =
          4294967296) := by
  refine ⟨⟨?_, ?_⟩, ?_, ?_, ?_⟩
  · rw [VoiceActivityDetector.new_eq]
    simp only [updateReturns, VoiceActivityDetector.set_threshold]
    rw [update_fullScale_inactive _ _ (by norm_num) rfl (le_refl _)]
    norm_num
  · rw [strictlyAboveRun_fullScale_at_zero _ _ _ (by norm_num), strictlyAboveRun_nil]
  · rw [VoiceActivityDetector.new_eq]
    simp only [updateReturns]
    rw [update_fullScale_inactive _ 1 (by norm_num) rfl (by norm_num)]
    norm_num
    rw [update_fullScale_inactive _ 4294967295 (by norm_num) rfl (by norm_num)]
    norm_num
  · rw [strictlyAboveRun_fullScale _ _ _ _ (by norm_num) (by norm_num), strictlyAboveRun_nil]
  · rw [strictlyAboveRun_fullScale _ _ _ _ (by norm_num) (by norm_num),
      strictlyAboveRun_fullScale _ _ _ _ (by norm_num) (by norm_num), strictlyAboveRun_nil]

/-- C5 (amended): for a fixed threshold and release budget `R >= 1`, starting
from an active detector whose release counter is 0, for every sequence of
non-null, non-empty blocks with `R + frame_count <= 2 ^ 32`: as long as no
earlier block has completed an unbroken run of blocks with RMS level strictly
below the threshold whose sample counts sum to at least `R`, the `k`-th
`update` returns false exactly when block `k` completes such a run; so it
returns true on every block before the first completing one and false at that
one.  A block at or above the threshold restarts the run from zero, and the
release counter holds the current run while the detector is active (so such a
block resets it to zero). -/
theorem vad_release_run (m : LibM) (v : VoiceActivityDetector) (bs : List Block) (k : Nat)
    (hactive : v.is_active_ = true) (hcounter : v.release_counter_ = 0)
    (hR : 1 ≤ v.release_samples_)
    (hblocks : ∀ b ∈ bs, b.samples.isSome = true ∧ 1 ≤ b.frame_count ∧
      v.release_samples_ + b.frame_count ≤ 2 ^ 32)
    (hk : k < bs.length)
    (hbefore : ∀ j, j < k →
      belowRun m v.threshold_dbfs_ 0 (bs.take (j + 1)) < v.release_samples_) :
    (updateReturns m v bs)[k]? =
        some (!decide (v.release_samples_ ≤ belowRun m v.threshold_dbfs_ 0 (bs.take (k + 1)))) ∧
      (updateAll m v (bs.take (k + 1))).release_counter_ =
        (if v.release_samples_ ≤ belowRun m v.threshold_dbfs_ 0 (bs.take (k + 1)) then 0
         else belowRun m v.threshold_dbfs_ 0 (bs.take (k + 1))) := by
  have h := release_run_aux m v.release_samples_ v.threshold_dbfs_ hR bs v k hactive rfl rfl
    (by omega) hblocks hk (by rw [hcounter]; exact hbefore)
  rw [hcounter] at h
  exact h

/-- Witness for C5 at 48 kHz, where the default release budget is 28800
samples: an active detector with the default budgets and threshold is fed two
blocks of zeros with 20000 and 8800 samples; the first leaves it active
(20000 < 28800) and the second deactivates it (28800 >= 28800). -/
theorem vad_release_run_witness :
    VoiceActivityDetector.new.release_samples_ = 28800 ∧
      (updateReturns tableLibM
        { attack_samples_ := 7200, release_samples_ := 28800, is_active_ := true }
        [silentBlock 20000, silentBlock 8800])[0]? = some true ∧
      (updateReturns tableLibM
        { attack_samples_ := 7200, release_samples_ := 28800, is_active_ := true }
        [silentBlock 20000, silentBlock 8800])[1]? = some false := by
  have hR : VoiceActivityDetector.new.release_samples_ = 28800 := by
    rw [VoiceActivityDetector.new_eq]
  have h1 : belowRun tableLibM (-40) 0 [silentBlock 20000] = 20000 := by
    rw [belowRun_silent, belowRun_nil]
  have h2 : belowRun tableLibM (-40) 0 [silentBlock 20000, silentBlock 8800] = 28800 := by
    rw [belowRun_silent, belowRun_silent, belowRun_nil]
  have hb : ∀ b ∈ [silentBlock 20000, silentBlock 8800],
      b.samples.isSome = true ∧ 1 ≤ b.frame_count ∧ 28800 + b.frame_count ≤ 2 ^ 32 := by
    intro b hb
    simp only [List.mem_cons, List.mem_singleton, List.not_mem_nil, or_false] at hb
    rcases hb with rfl | rfl
    · rw [silentBlock_frame_count]
      exact ⟨silentBlock_isSome _, by norm_num, by norm_num⟩
    · rw [silentBlock_frame_count]
      exact ⟨silentBlock_isSome _, by norm_num, by norm_num⟩
  have r0 := (vad_release_run tableLibM
    { attack_samples_ := 7200, release_samples_ := 28800, is_active_ := true }
    [silentBlock 20000, silentBlock 8800] 0 rfl rfl (by norm_num) hb
    (by simp) (fun j hj => absurd hj (Nat.not_lt_zero j))).1
  have r1 := (vad_release_run tableLibM
    { attack_samples_ := 7200, release_samples_ := 28800, is_active_ := true }
    [silentBlock 20000, silentBlock 8800] 1 rfl rfl (by norm_num) hb
    (by simp) (fun j hj => by
      have hj0 : j = 0 := by omega
      subst hj0
      simp only [zero_add, List.take_succ_cons, List.take_zero, h1]
      norm_num)).1
  simp only [zero_add, List.take_succ_cons, List.take_zero, List.take_nil, h1] at r0
  simp only [List.take_succ_cons, List.take_zero, List.take_nil, h2] at r1
  refine ⟨hR, ?_, ?_⟩
  · rw [r0]; simp
  · rw [r1]; simp

/-- Counterexample to C5 as stated: with the default release budget 28800 and
threshold -40, an active detector fed a block of zeros of 1 sample and then
one of `2 ^ 32 - 1` samples sees an unbroken strictly-below run of `2 ^ 32`
samples, yet `update` returns true on both blocks, because the 32-bit release
counter wraps to 0. -/
theorem vad_release_counterexample :
    updateReturns tableLibM
        { attack_samples_ := 7200, release_samples_ := 28800, is_active_ := true }
        [silentBlock 1, silentBlock 4294967295] = [true, true] ∧
      belowRun tableLibM (-40) 0 [silentBlock 1] = 1 ∧
      belowRun tableLibM (-40) 0 [silentBlock 1, silentBlock 4294967295] = 4294967296 := by
  refine ⟨?_, ?_, ?_⟩
  · simp only [updateReturns]
    rw [update_silent_active _ 1 (by norm_num) rfl]
    norm_num
    rw [update_silent_active _ 4294967295 (by norm_num) rfl]
    norm_num
  · rw [belowRun_silent, belowRun_nil]
  · rw [belowRun_silent, belowRun_silent, belowRun_nil]

/-- C6: whatever the threshold and the attack budget, an inactive detector
stays inactive under any sequence of `update` calls whose blocks hold only
zero samples (null and empty blocks included): every call returns false.  The
library `sqrt` is assumed to map 0 to 0. -/
theorem vad_silence_stays_inactive (m : LibM) (hsqrt : m.sqrt 0 = 0)
    (v : VoiceActivityDetector) (hinactive : v.is_active_ = false) (bs : List Block)
    (hzero : ∀ b ∈ bs, ∀ xs, b.samples = some xs →
      ∀ i, i < b.frame_count → xs.getD i 0 = 0) :
    (∀ r ∈ updateReturns m v bs, r = false) ∧ (updateAll m v bs).is_active_ = false := by
  induction bs generalizing v with
  | nil => exact ⟨by simp [updateReturns], hinactive⟩
  | cons b bs ih =>
    obtain ⟨s1, s2⟩ := silence_step m hsqrt v b hinactive (hzero b (List.mem_cons_self _ _))
    obtain ⟨i1, i2⟩ := ih (v.update m b.samples b.frame_count).2 s2
      (fun b' hb' => hzero b' (List.mem_cons_of_mem _ hb'))
    refine ⟨?_, i2⟩
    intro r hr
    simp only [updateReturns, List.mem_cons] at hr
    rcases hr with rfl | hr
    · exact s1
    · exact i1 r hr

/-- Witness for C6: the default detector with its threshold lowered to -60
dBFS, fed a null block and two blocks of zeros. -/
theorem vad_silence_stays_inactive_witness :
    (∀ r ∈ updateReturns tableLibM (VoiceActivityDetector.new.set_threshold (-60))
        [⟨none, 16⟩, silentBlock 4096, silentBlock 480], r = false) ∧
      (updateAll tableLibM (VoiceActivityDetector.new.set_threshold (-60))
        [⟨none, 16⟩, silentBlock 4096, silentBlock 480]).is_active_ = false :=
  vad_silence_stays_inactive tableLibM (by simp [tableLibM])
    (VoiceActivityDetector.new.set_threshold (-60))
    (by rw [VoiceActivityDetector.new_eq]; rfl) _
    (by
      intro b hb
      simp only [List.mem_cons, List.mem_singleton, List.not_mem_nil, or_false] at hb
      rcases hb with rfl | rfl | rfl
      · intro xs hxs; simp at hxs
      · exact silentBlock_zero _
      · exact silentBlock_zero _)

/-! ## Sample-rate budgets, threshold equality and empty blocks -/

theorem to_uint32_natCast_div (n d : Nat) :
    to_uint32 ((n : ℚ) / d) = (n / d) % 2 ^ 32 := by
  have hq : (0 : ℚ) ≤ (n : ℚ) / d := by positivity
  have h : Int.tdiv ((n : ℚ) / d).num ((n : ℚ) / d).den = ((n / d : Nat) : Int) := by
    rw [Int.tdiv_eq_ediv (Rat.num_nonneg.mpr hq) (by positivity), ← Rat.floor_def']
    change ⌊(n : ℚ) / d⌋ = _
    have := Rat.floor_intCast_div_natCast (n : ℤ) d
    simp only [Int.cast_natCast] at this
    rw [this]
    norm_cast
  rw [to_uint32, h, Int.toNat_natCast]

theorem vad_set_sample_rate_attack (v : VoiceActivityDetector) (r : Nat) (hr : r < 2 ^ 32) :
    (v.set_sample_rate r).attack_samples_ = 150 * r / 1000 := by
  have e : kDefaultAttackMs * (r : ℚ) / 1000 = ((150 * r : Nat) : ℚ) / (1000 : Nat) := by
    simp only [kDefaultAttackMs]; push_cast; ring
  simp only [VoiceActivityDetector.set_sample_rate, VoiceActivityDetector.set_attack_time,
    VoiceActivityDetector.set_release_time, e, to_uint32_natCast_div]
  exact Nat.mod_eq_of_lt (by omega)

theorem vad_set_sample_rate_release (v : VoiceActivityDetector) (r : Nat) (hr : r < 2 ^ 32) :
    (v.set_sample_rate r).release_samples_ = 600 * r / 1000 := by
  have e : kDefaultReleaseMs * (r : ℚ) / 1000 = ((600 * r : Nat) : ℚ) / (1000 : Nat) := by
    simp only [kDefaultReleaseMs]; push_cast; ring
  simp only [VoiceActivityDetector.set_sample_rate, VoiceActivityDetector.set_attack_time,
    VoiceActivityDetector.set_release_time, e, to_uint32_natCast_div]
  exact Nat.mod_eq_of_lt (by omega)

/-- C17: for a 32-bit sample rate `r`, `VoiceActivityDetector::set_sample_rate(r)`
sets the attack budget to `floor(150 * r / 1000)` samples and the release
budget to `floor(600 * r / 1000)` samples, also when `set_attack_time` and
`set_release_time` had installed other values before. -/
theorem vad_set_sample_rate_budgets (v : VoiceActivityDetector) (r : Nat) (hr : r < 2 ^ 32)
    (attack_ms release_ms : ℚ) :
    (v.set_sample_rate r).attack_samples_ = 150 * r / 1000 ∧
      (v.set_sample_rate r).release_samples_ = 600 * r / 1000 ∧
      (((v.set_attack_time attack_ms).set_release_time release_ms).set_sample_rate
        r).attack_samples_ = 150 * r / 1000 ∧
      (((v.set_attack_time attack_ms).set_release_time release_ms).set_sample_rate
        r).release_samples_ = 600 * r / 1000 :=
  ⟨vad_set_sample_rate_attack v r hr, vad_set_sample_rate_release v r hr,
    vad_set_sample_rate_attack _ r hr, vad_set_sample_rate_release _ r hr⟩

/-- Witness for C17: 7200 and 28800 samples at 48000 Hz, 6615 and 26460 at
44100 Hz, for a detector whose budgets had been set from 10 ms and 20 ms. -/
theorem vad_set_sample_rate_budgets_witness :
    ((((VoiceActivityDetector.new.set_attack_time 10).set_release_time 20).set_sample_rate
        48000).attack_samples_ = 7200 ∧
      (((VoiceActivityDetector.new.set_attack_time 10).set_release_time 20).set_sample_rate
        48000).release_samples_ = 28800) ∧
      ((((VoiceActivityDetector.new.set_attack_time 10).set_release_time 20).set_sample_rate
        44100).attack_samples_ = 6615 ∧
      (((VoiceActivityDetector.new.set_attack_time 10).set_release_time 20).set_sample_rate
        44100).release_samples_ = 26460) :=
  ⟨⟨(vad_set_sample_rate_budgets VoiceActivityDetector.new 48000 (by norm_num) 10 20).2.2.1,
      (vad_set_sample_rate_budgets VoiceActivityDetector.new 48000 (by norm_num) 10 20).2.2.2⟩,
    ⟨(vad_set_sample_rate_budgets VoiceActivityDetector.new 44100 (by norm_num) 10 20).2.2.1,
      (vad_set_sample_rate_budgets VoiceActivityDetector.new 44100 (by norm_num) 10 20).2.2.2⟩⟩

/-- C18 (amended): a non-empty block whose RMS level is exactly the configured
threshold is handled as above the threshold.  On an inactive detector the
release counter is reset and the attack counter accumulates the block's sample
count (modulo `2 ^ 32`), activating the detector when it reaches the budget;
on an active detector the release counter is reset and the detector stays
active. -/
theorem update_at_threshold (m : LibM) (v : VoiceActivityDetector) (b : Block)
    (hs : b.samples.isSome = true) (hn : b.frame_count ≠ 0)
    (hl : b.level m = .fin v.threshold_dbfs_) :
    (v.is_active_ = false →
      v.update m b.samples b.frame_count =
        if v.attack_samples_ ≤ (v.attack_counter_ + b.frame_count) % 2 ^ 32 then
          (true, { v with release_counter_ := 0, attack_counter_ := 0, is_active_ := true })
        else
          (false, { v with release_counter_ := 0,
                           attack_counter_ := (v.attack_counter_ + b.frame_count) % 2 ^ 32 })) ∧
    (v.is_active_ = true →
      v.update m b.samples b.frame_count = (true, { v with release_counter_ := 0 })) := by
  have hge : (b.level m).ge v.threshold_dbfs_ = true := by
    rw [hl]; simp [Level.ge]
  exact ⟨fun hi => VoiceActivityDetector.update_inactive_above m v b hs hn hi hge,
    fun hi => VoiceActivityDetector.update_active_above m v b hs hn hi hge⟩

/-- Witness for C18 (amended): at threshold 0 dBFS a block of 4096 full-scale
samples, whose level is exactly 0 dBFS, takes the attack counter of the
inactive default detector from 0 to 4096. -/
theorem update_at_threshold_witness :
    (VoiceActivityDetector.update tableLibM
        { threshold_dbfs_ := 0, attack_samples_ := 7200, release_samples_ := 28800 }
        (fullScaleBlock 4096).samples (fullScaleBlock 4096).frame_count).2.attack_counter_ =
      4096 := by
  have h := (update_at_threshold tableLibM
    { threshold_dbfs_ := 0, attack_samples_ := 7200, release_samples_ := 28800 }
    (fullScaleBlock 4096) (fullScaleBlock_isSome _)
    (by rw [fullScaleBlock_frame_count]; norm_num)
    (fullScaleBlock_level 4096 (by norm_num))).1 rfl
  rw [h, fullScaleBlock_frame_count]
  norm_num

/-- Counterexample to C18 as stated: at threshold 0 dBFS, full-scale blocks
have RMS level exactly 0 dBFS, equal to the threshold.  A block of 4096 such
samples leaves the attack counter of the default detector at 4096 instead of
resetting it to zero, and a second block of 3104 samples activates the
detector: blocks at the threshold do accumulate toward activation. -/
theorem update_at_threshold_counterexample :
    (fullScaleBlock 4096).level tableLibM = .fin 0 ∧
      (updateAll tableLibM (VoiceActivityDetector.new.set_threshold 0)
        [fullScaleBlock 4096]).attack_counter_ = 4096 ∧
      updateReturns tableLibM (VoiceActivityDetector.new.set_threshold 0)
        [fullScaleBlock 4096, fullScaleBlock 3104] = [false, true] := by
  refine ⟨fullScaleBlock_level 4096 (by norm_num), ?_, ?_⟩
  · rw [VoiceActivityDetector.new_eq]
    simp only [updateAll, VoiceActivityDetector.set_threshold]
    rw [update_fullScale_inactive _ 4096 (by norm_num) rfl (le_refl _)]
    norm_num
  · rw [VoiceActivityDetector.new_eq]
    simp only [updateReturns, VoiceActivityDetector.set_threshold]
    rw [update_fullScale_inactive _ 4096 (by norm_num) rfl (le_refl _)]
    norm_num
    rw [update_fullScale_inactive _ 3104 (by norm_num) rfl (le_refl _)]
    norm_num

/-- C19 (amended): `update` called with an empty block (`frame_count = 0`)
returns the current activity flag and changes nothing: both counters and the
flag keep their values, so an attack run already accumulated is kept. -/
theorem update_empty_block (m : LibM) (v : VoiceActivityDetector)
    (samples : Option (List ℚ)) :
    v.update m samples 0 = (v.is_active_, v) :=
  VoiceActivityDetector.update_skip m v samples 0 (Or.inr rfl)

/-- Counterexample to C19 as stated: the default detector, after a full-scale
block of 4096 samples, has attack counter 4096; an empty block leaves it at
4096 instead of resetting it, and a further full-scale block of only 3104
samples (not the whole budget of 7200) activates the detector. -/
theorem update_empty_block_counterexample :
    (updateAll tableLibM VoiceActivityDetector.new
        [fullScaleBlock 4096, ⟨some [], 0⟩]).attack_counter_ = 4096 ∧
      updateReturns tableLibM VoiceActivityDetector.new
        [fullScaleBlock 4096, ⟨some [], 0⟩, fullScaleBlock 3104] = [false, false, true] := by
  constructor
  · rw [VoiceActivityDetector.new_eq]
    simp only [updateAll]
    rw [update_fullScale_inactive _ 4096 (by norm_num) rfl (by norm_num)]
    norm_num
    rw [VoiceActivityDetector.update_skip _ _ _ _ (Or.inr rfl)]
  · rw [VoiceActivityDetector.new_eq]
    simp only [updateReturns]
    rw [update_fullScale_inactive _ 4096 (by norm_num) rfl (by norm_num)]
    norm_num
    rw [VoiceActivityDetector.update_skip _ _ _ _ (Or.inr rfl)]
    norm_num
    rw [update_fullScale_inactive _ 3104 (by norm_num) rfl (by norm_num)]
    norm_num

/-! ## Queue capacity -/

theorem SPSCQueue.try_push_false_iff {T : Type} {Capacity : Nat} (q : SPSCQueue T Capacity)
    (item : T) : (q.try_push item).1 = false ↔ (q.head_ + 1) % Capacity = q.tail_ := by
  by_cases h : (q.head_ + 1) % Capacity = q.tail_ <;> simp [SPSCQueue.try_push, h]

/-- Pushing `items` into a queue that holds `xs` and has room for all of them:
every push succeeds. -/
theorem foldl_push_holds {T : Type} {Capacity : Nat} :
    ∀ (items : List T) (r : QueueRun T Capacity) (xs : List T),
      r.queue.Holds xs → xs.length + items.length < Capacity →
      ((items.map QueueCall.push).foldl QueueRun.step r).pushed = r.pushed ++ items ∧
        ((items.map QueueCall.push).foldl QueueRun.step r).popped = r.popped ∧
        ((items.map QueueCall.push).foldl QueueRun.step r).queue.Holds (xs ++ items) := by
  intro items
  induction items with
  | nil => intro r xs h _; simpa using h
  | cons item items ih =>
    intro r xs h hlen
    simp only [List.length_cons] at hlen
    obtain ⟨h1, h2⟩ := SPSCQueue.holds_push r.queue xs item h (by omega)
    have hstep : r.step (.push item) =
        { r with queue := (r.queue.try_push item).2, pushed := r.pushed ++ [item] } := by
      simp [QueueRun.step, h1]
    obtain ⟨i1, i2, i3⟩ := ih (r.step (.push item)) (xs ++ [item])
      (by rw [hstep]; exact h2) (by simp; omega)
    simp only [List.map_cons, List.foldl_cons]
    refine ⟨?_, ?_, ?_⟩
    · rw [i1, hstep]; simp
    · rw [i2, hstep]
    · simpa using i3

/-- C20: `try_push` is rejected exactly when `(head_ + 1) % Capacity` equals
`tail_`; starting from an empty queue of capacity `N`, `N - 1` consecutive
pushes all succeed and the next push returns false; and after any sequence of
calls the queue holds at most `N - 1` items (pushed but not yet popped). -/
theorem try_push_capacity {T : Type} {Capacity : Nat} (q : SPSCQueue T Capacity)
    (hwf : q.WellFormed) (hempty : q.head_ = q.tail_) :
    (∀ (q' : SPSCQueue T Capacity) (item : T),
        (q'.try_push item).1 = false ↔ (q'.head_ + 1) % Capacity = q'.tail_) ∧
      (∀ (items : List T) (extra : T), items.length = Capacity - 1 →
        (runCalls q (items.map QueueCall.push)).pushed = items ∧
          ((runCalls q (items.map QueueCall.push)).queue.try_push extra).1 = false) ∧
      (∀ calls : List (QueueCall T),
        (runCalls q calls).pushed.length ≤ (runCalls q calls).popped.length + (Capacity - 1)) := by
  have hpos : 0 < Capacity := by
    obtain ⟨_, hh, _⟩ := hwf
    omega
  refine ⟨SPSCQueue.try_push_false_iff, ?_, ?_⟩
  · intro items extra hlen
    have h0 : q.Holds [] := (SPSCQueue.holds_nil_iff q hwf).mpr hempty.symm
    obtain ⟨h1, _, h3⟩ := foldl_push_holds items
      ({ queue := q, pushed := [], popped := [] } : QueueRun T Capacity) [] h0
      (by simp; omega)
    simp only [List.nil_append] at h1 h3
    refine ⟨h1, ?_⟩
    rw [SPSCQueue.try_push_false_iff]
    exact (SPSCQueue.holds_full_iff _ items h3).mpr (by omega)
  · intro calls
    obtain ⟨xs, ⟨_, hlt, _, _⟩, hp⟩ := SPSCQueue.runCalls_invariant q hwf hempty calls
    rw [hp, List.length_append]
    omega

theorem LoudnessAnalyzer.new_voice_queue_wf :
    LoudnessAnalyzer.new.voice_queue_.WellFormed ∧
      LoudnessAnalyzer.new.voice_queue_.head_ = LoudnessAnalyzer.new.voice_queue_.tail_ :=
  ⟨⟨List.length_replicate _ _, show 0 < 256 by norm_num, show 0 < 256 by norm_num⟩, rfl⟩

theorem LoudnessAnalyzer.new_bgm_queue_wf :
    LoudnessAnalyzer.new.bgm_queue_.WellFormed ∧
      LoudnessAnalyzer.new.bgm_queue_.head_ = LoudnessAnalyzer.new.bgm_queue_.tail_ :=
  ⟨⟨List.length_replicate _ _, show 0 < 256 by norm_num, show 0 < 256 by norm_num⟩, rfl⟩

/-- Witness for C20 on the analyzer's 256-slot voice queue: 255 pushes of a
frame succeed and the 256th is rejected. -/
theorem try_push_capacity_witness :
    (runCalls LoudnessAnalyzer.new.voice_queue_
        ((List.replicate 255 ({} : AudioFrame)).map QueueCall.push)).pushed =
        List.replicate 255 ({} : AudioFrame) ∧
      ((runCalls LoudnessAnalyzer.new.voice_queue_
        ((List.replicate 255 ({} : AudioFrame)).map QueueCall.push)).queue.try_push
          ({} : AudioFrame)).1 = false :=
  (try_push_capacity LoudnessAnalyzer.new.voice_queue_
    LoudnessAnalyzer.new_voice_queue_wf.1 LoudnessAnalyzer.new_voice_queue_wf.2).2.1
    (List.replicate 255 ({} : AudioFrame)) {}
    (by rw [List.length_replicate])

/-! ## Analyzer: lifecycle, sample rate, metrics -/

namespace LoudnessAnalyzer

theorem start_of_running (alloc : Allocs) (a : LoudnessAnalyzer) (h : a.running_ = true) :
    a.start alloc = a := by
  simp [start, h]

theorem start_of_not_running (alloc : Allocs) (a : LoudnessAnalyzer)
    (h : a.running_ = false) :
    a.start alloc =
      { a with
        running_ := true
        voice_state_ := (ebur128_init alloc.voice a.sample_rate_).map
          (fun st => ebur128_set_channel st EBUR128_CENTER)
        bgm_state_ := (ebur128_init alloc.bgm a.sample_rate_).map
          (fun st => ebur128_set_channel st EBUR128_CENTER)
        mix_state_ := (ebur128_init alloc.mix a.sample_rate_).map
          (fun st => ebur128_set_channel st EBUR128_CENTER) } := by
  simp [start, h, init_ebur128_states, destroy_ebur128_states]

theorem stop_of_running (a : LoudnessAnalyzer) (h : a.running_ = true) :
    a.stop = { a with running_ := false } := by
  simp [stop, h]

theorem update_threshold_unchanged (m : LibM) (v : VoiceActivityDetector)
    (samples : Option (List ℚ)) (n : Nat) :
    (v.update m samples n).2.threshold_dbfs_ = v.threshold_dbfs_ := by
  simp only [VoiceActivityDetector.update]
  split_ifs <;> rfl

theorem update_voice_metrics_voice_active (m : LibM) (lib : Ebur128Lib) (a : LoudnessAnalyzer) :
    (a.update_voice_metrics m lib).results_.voice_active = a.results_.voice_active ∧
      (a.update_voice_metrics m lib).vad_ = a.vad_ := by
  cases h : a.voice_state_ with
  | none => simp [update_voice_metrics, h]
  | some st => cases h2 : lib.loudness_shortterm st <;> simp [update_voice_metrics, h, h2]

theorem update_mix_metrics_voice_active (m : LibM) (lib : Ebur128Lib) (a : LoudnessAnalyzer) :
    (a.update_mix_metrics m lib).results_.voice_active = a.results_.voice_active ∧
      (a.update_mix_metrics m lib).vad_ = a.vad_ := by
  cases h : a.mix_state_ with
  | none => simp [update_mix_metrics, h]
  | some st => cases h2 : lib.loudness_shortterm st <;> simp [update_mix_metrics, h, h2]

/-- `process_voice` for a frame on which the detector reports inactive. -/
theorem process_voice_inactive (m : LibM) (lib : Ebur128Lib) (ok_voice ok_mix : Bool)
    (a : LoudnessAnalyzer) (frame : AudioFrame)
    (hu : (a.vad_.update m (some frame.samples) frame.frame_count).1 = false) :
    a.process_voice m lib ok_voice ok_mix frame =
      { a with
        vad_ := (a.vad_.update m (some frame.samples) frame.frame_count).2
        results_ := { a.results_ with voice_active := false }
        prev_voice_active_ := false
        voice_state_ :=
          if a.prev_voice_active_ then reset_ebur128_state ok_voice a.sample_rate_ a.voice_state_
          else a.voice_state_
        mix_state_ :=
          if a.prev_voice_active_ then reset_ebur128_state ok_mix a.sample_rate_ a.mix_state_
          else a.mix_state_ } := by
  cases hp : a.prev_voice_active_ <;> simp [process_voice, hu, hp]

/-- `process_voice` for a frame on which the detector reports active, when
the voice integrator exists and no BGM block has been retained. -/
theorem process_voice_active_no_bgm (m : LibM) (lib : Ebur128Lib) (ok_voice ok_mix : Bool)
    (a : LoudnessAnalyzer) (frame : AudioFrame) (vst : Ebur128State)
    (hu : (a.vad_.update m (some frame.samples) frame.frame_count).1 = true)
    (hv : a.voice_state_ = some vst) (hb : a.last_bgm_frame_count_ = 0) :
    a.process_voice m lib ok_voice ok_mix frame =
      update_voice_metrics m lib
        { a with
          vad_ := (a.vad_.update m (some frame.samples) frame.frame_count).2
          results_ := { a.results_ with voice_active := true }
          prev_voice_active_ := true
          voice_state_ :=
            some (ebur128_add_frames_float vst frame.samples frame.frame_count) } := by
  have hl : (update_voice_metrics m lib
        { a with
          vad_ := (a.vad_.update m (some frame.samples) frame.frame_count).2
          results_ := { a.results_ with voice_active := true }
          prev_voice_active_ := true
          voice_state_ :=
            some (ebur128_add_frames_float vst frame.samples frame.frame_count) }).last_bgm_frame_count_ = 0 := by
    cases h2 : lib.loudness_shortterm (ebur128_add_frames_float vst frame.samples frame.frame_count) <;>
      simp [update_voice_metrics, h2, hb]
  simp only [process_voice, hu, hv, Bool.not_true, Bool.and_false, Bool.false_eq_true, if_false]
  split
  · simp [hl]
  · rfl


theorem process_voice_vad (m : LibM) (lib : Ebur128Lib) (ok_voice ok_mix : Bool)
    (a : LoudnessAnalyzer) (frame : AudioFrame) :
    (a.process_voice m lib ok_voice ok_mix frame).results_.voice_active =
        (a.vad_.update m (some frame.samples) frame.frame_count).1 ∧
      (a.process_voice m lib ok_voice ok_mix frame).vad_ =
        (a.vad_.update m (some frame.samples) frame.frame_count).2 := by
  cases hu : (a.vad_.update m (some frame.samples) frame.frame_count).1 with
  | false => rw [process_voice_inactive m lib ok_voice ok_mix a frame hu]; exact ⟨rfl, rfl⟩
  | true =>
    simp only [process_voice, hu, Bool.not_true, Bool.and_false, Bool.false_eq_true, if_false]
    split
    · split
      · split_ifs
        · simp only [(update_mix_metrics_voice_active m lib _).1,
            (update_mix_metrics_voice_active m lib _).2,
            (update_voice_metrics_voice_active m lib _).1,
            (update_voice_metrics_voice_active m lib _).2, and_self]
        · simp only [(update_voice_metrics_voice_active m lib _).1,
            (update_voice_metrics_voice_active m lib _).2, and_self]
      · simp only [(update_voice_metrics_voice_active m lib _).1,
          (update_voice_metrics_voice_active m lib _).2, and_self]
    · exact ⟨rfl, rfl⟩

end LoudnessAnalyzer
/-- C13: what the code does on a rate change.  `LoudnessAnalyzer::set_sample_rate`
never touches the three integrators: each keeps the rate it was created with
and the samples it has accumulated.  The call stores the new rate, recomputes
the VAD budgets and, when the analyzer is running, only resets the three
published LUFS values to the sentinel. -/
theorem set_sample_rate_keeps_integrators (a : LoudnessAnalyzer) (r : Nat) :
    (a.set_sample_rate r).voice_state_ = a.voice_state_ ∧
      (a.set_sample_rate r).bgm_state_ = a.bgm_state_ ∧
      (a.set_sample_rate r).mix_state_ = a.mix_state_ ∧
      (a.set_sample_rate r).sample_rate_ = r := by
  unfold LoudnessAnalyzer.set_sample_rate
  by_cases h : r = a.sample_rate_
  · simp [h]
  · by_cases hr : a.running_ = true <;> simp [h, hr, LoudnessAnalyzer.reset_states]

/-- C14: what the code does with the configured VAD threshold.  The flag that
`process_voice` publishes and the detector state it leaves are those of
`vad_.update`, which compares with the detector's own `threshold_dbfs_`; the
result is the same whatever value has been stored into `config_.vad_threshold`,
and `process_voice` never changes `threshold_dbfs_`. -/
theorem process_voice_ignores_config_threshold (m : LibM) (lib : Ebur128Lib)
    (ok_voice ok_mix : Bool) (a : LoudnessAnalyzer) (frame : AudioFrame) (t : ℚ) :
    (LoudnessAnalyzer.process_voice m lib ok_voice ok_mix
        { a with config_ := { a.config_ with vad_threshold := t } } frame).results_.voice_active =
        (a.vad_.update m (some frame.samples) frame.frame_count).1 ∧
      (LoudnessAnalyzer.process_voice m lib ok_voice ok_mix
        { a with config_ := { a.config_ with vad_threshold := t } } frame).vad_ =
        (a.vad_.update m (some frame.samples) frame.frame_count).2 ∧
      (LoudnessAnalyzer.process_voice m lib ok_voice ok_mix
        { a with config_ := { a.config_ with vad_threshold := t } }
          frame).vad_.threshold_dbfs_ = a.vad_.threshold_dbfs_ := by
  obtain ⟨h1, h2⟩ := LoudnessAnalyzer.process_voice_vad m lib ok_voice ok_mix
    { a with config_ := { a.config_ with vad_threshold := t } } frame
  refine ⟨h1, h2, ?_⟩
  rw [h2]
  exact LoudnessAnalyzer.update_threshold_unchanged m a.vad_ _ _

/-- C15 (amended): `start()` on a non-running analyzer always leaves it
running, whatever the outcome of the three allocations; an integrator whose
allocation failed is null.  A later `start()` is a no-op, so it does not retry
the allocation; only `start()` after `stop()` allocates again. -/
theorem start_always_runs (a : LoudnessAnalyzer) (alloc alloc' : Allocs)
    (h : a.running_ = false) :
    (a.start alloc).is_running = true ∧
      (a.start alloc).voice_state_ =
        (ebur128_init alloc.voice a.sample_rate_).map
          (fun st => ebur128_set_channel st EBUR128_CENTER) ∧
      (a.start alloc).bgm_state_ =
        (ebur128_init alloc.bgm a.sample_rate_).map
          (fun st => ebur128_set_channel st EBUR128_CENTER) ∧
      (a.start alloc).mix_state_ =
        (ebur128_init alloc.mix a.sample_rate_).map
          (fun st => ebur128_set_channel st EBUR128_CENTER) ∧
      (a.start alloc).start alloc' = a.start alloc ∧
      ((a.start alloc).stop.start alloc').voice_state_ =
        (ebur128_init alloc'.voice a.sample_rate_).map
          (fun st => ebur128_set_channel st EBUR128_CENTER) := by
  have hs := LoudnessAnalyzer.start_of_not_running alloc a h
  have hr : (a.start alloc).running_ = true := by rw [hs]
  refine ⟨hr, by rw [hs], by rw [hs], by rw [hs], ?_, ?_⟩
  · exact LoudnessAnalyzer.start_of_running alloc' _ hr
  · rw [LoudnessAnalyzer.stop_of_running _ hr, LoudnessAnalyzer.start_of_not_running alloc' _ rfl]
    simp only [hs]

/-- Witness for C15 (amended): a freshly constructed analyzer whose three
allocations fail is running after `start()`, with a null voice integrator. -/
theorem start_always_runs_witness :
    (LoudnessAnalyzer.new.start ⟨false, false, false⟩).is_running = true ∧
      (LoudnessAnalyzer.new.start ⟨false, false, false⟩).voice_state_ = none :=
  ⟨(start_always_runs LoudnessAnalyzer.new ⟨false, false, false⟩ ⟨true, true, true⟩ rfl).1,
    (start_always_runs LoudnessAnalyzer.new ⟨false, false, false⟩ ⟨true, true, true⟩ rfl).2.1⟩

/-- Counterexample to C15 as stated: on a freshly constructed analyzer whose
three allocations fail, `is_running()` is true after `start()`, and a second
`start()` whose allocations would succeed leaves the voice integrator null. -/
theorem start_alloc_failure_counterexample :
    (LoudnessAnalyzer.new.start ⟨false, false, false⟩).is_running = true ∧
      ((LoudnessAnalyzer.new.start ⟨false, false, false⟩).start
        ⟨true, true, true⟩).voice_state_ = none := by
  have hs := LoudnessAnalyzer.start_of_not_running ⟨false, false, false⟩ LoudnessAnalyzer.new rfl
  have hr : (LoudnessAnalyzer.new.start ⟨false, false, false⟩).running_ = true := by rw [hs]
  refine ⟨hr, ?_⟩
  rw [LoudnessAnalyzer.start_of_running _ _ hr, hs]
  rfl

/-- C16: when the short-term query on an integrator does not return success,
`update_voice_metrics`, `update_bgm_metrics` and `update_mix_metrics` leave the
corresponding published LUFS value as it was. -/
theorem metrics_keep_lufs_without_result (m : LibM) (lib : Ebur128Lib) (a : LoudnessAnalyzer)
    (st : Ebur128State) (hno : lib.loudness_shortterm st = none) :
    (a.voice_state_ = some st →
        (a.update_voice_metrics m lib).results_.voice_lufs = a.results_.voice_lufs) ∧
      (a.bgm_state_ = some st →
        (a.update_bgm_metrics m lib).results_.bgm_lufs = a.results_.bgm_lufs) ∧
      (a.mix_state_ = some st →
        (a.update_mix_metrics m lib).results_.mix_lufs = a.results_.mix_lufs) := by
  refine ⟨fun h => ?_, fun h => ?_, fun h => ?_⟩
  · simp [LoudnessAnalyzer.update_voice_metrics, h, hno]
  · simp [LoudnessAnalyzer.update_bgm_metrics, h, hno]
  · simp [LoudnessAnalyzer.update_mix_metrics, h, hno]

/-- Witness for C16: a published voice loudness of -20 LUFS survives an update
in which the integrator reports no result. -/
theorem metrics_keep_lufs_without_result_witness :
    (LoudnessAnalyzer.update_voice_metrics tableLibM noResultLib
        { voice_state_ := some ⟨48000, some EBUR128_CENTER, []⟩,
          results_ := { voice_lufs := .fin (-20) } }).results_.voice_lufs = .fin (-20) :=
  (metrics_keep_lufs_without_result tableLibM noResultLib
    { voice_state_ := some ⟨48000, some EBUR128_CENTER, []⟩,
      results_ := { voice_lufs := .fin (-20) } }
    ⟨48000, some EBUR128_CENTER, []⟩ rfl).1 rfl

/-! ## Analyzer: pushing frames and the worker -/

theorem block_peak_const (xs : List ℚ) (c : ℚ) (hc : 0 < c) (n : Nat)
    (h : ∀ i, i < n → |xs.getD i 0| = c) :
    block_peak xs n = if n = 0 then 0 else c := by
  unfold block_peak
  induction n with
  | zero => simp
  | succ n ih =>
    rw [List.range_succ, List.foldl_append, ih (fun i hi => h i (Nat.lt_succ_of_lt hi))]
    simp only [List.foldl_cons, List.foldl_nil, h n (Nat.lt_succ_self n)]
    by_cases hn : n = 0
    · simp [hn, hc]
    · simp [hn]

theorem squareWave_length (n : Nat) : (squareWave n).length = n := by
  simp only [squareWave, List.length_map, List.length_range]

theorem squareWave_getD (n i : Nat) (hi : i < n) :
    (squareWave n).getD i 0 = if i % 2 = 0 then 1 else -1 := by
  simp only [squareWave]
  rw [List.getD_eq_getElem?_getD, List.getElem?_map, List.getElem?_range hi]
  rfl

theorem squareWave_sq (n i : Nat) (hi : i < n) :
    (squareWave n).getD i 0 * (squareWave n).getD i 0 = 1 := by
  rw [squareWave_getD n i hi]
  split_ifs <;> norm_num

theorem squareWave_abs (n i : Nat) (hi : i < n) : |(squareWave n).getD i 0| = 1 := by
  rw [squareWave_getD n i hi]
  split_ifs <;> norm_num

theorem squareWave_take (n : Nat) : (squareWave n).take n = squareWave n :=
  List.take_of_length_le (le_of_eq (squareWave_length n))

namespace LoudnessAnalyzer

theorem push_voice_frame_valid (a : LoudnessAnalyzer) (xs : List ℚ) (frames : Nat)
    (h1 : 1 ≤ frames) (h2 : frames ≤ 4096) :
    a.push_voice_frame (some xs) frames =
      { a with
        voice_peak_ := block_peak xs frames
        voice_queue_ := (a.voice_queue_.try_push
          { samples := xs.take frames, frame_count := frames, source_type := .Voice }).2 } := by
  have h : ¬ (frames = 0 ∨ frames > kMaxSamples) := by
    simp only [kMaxSamples]; omega
  simp only [push_voice_frame, h, if_false]

theorem push_bgm_frame_valid (a : LoudnessAnalyzer) (xs : List ℚ) (frames : Nat)
    (h1 : 1 ≤ frames) (h2 : frames ≤ 4096) :
    a.push_bgm_frame (some xs) frames =
      { a with
        bgm_peak_ := block_peak xs frames
        bgm_queue_ := (a.bgm_queue_.try_push
          { samples := xs.take frames, frame_count := frames, source_type := .BGM }).2 } := by
  have h : ¬ (frames = 0 ∨ frames > kMaxSamples) := by
    simp only [kMaxSamples]; omega
  simp only [push_bgm_frame, h, if_false]

theorem push_voice_frame_invalid (a : LoudnessAnalyzer) (samples : Option (List ℚ))
    (frames : Nat) (h : samples = none ∨ frames = 0 ∨ frames > 4096) :
    a.push_voice_frame samples frames = a := by
  cases samples with
  | none => rfl
  | some xs =>
    have h' : frames = 0 ∨ frames > kMaxSamples := by
      simpa [kMaxSamples] using h
    simp only [push_voice_frame, h', if_true]

theorem push_bgm_frame_invalid (a : LoudnessAnalyzer) (samples : Option (List ℚ))
    (frames : Nat) (h : samples = none ∨ frames = 0 ∨ frames > 4096) :
    a.push_bgm_frame samples frames = a := by
  cases samples with
  | none => rfl
  | some xs =>
    have h' : frames = 0 ∨ frames > kMaxSamples := by
      simpa [kMaxSamples] using h
    simp only [push_bgm_frame, h', if_true]

/-- A loop pass that finds both queues empty changes nothing. -/
theorem worker_idle (m : LibM) (lib : Ebur128Lib) (ok_voice ok_mix : Bool)
    (a : LoudnessAnalyzer) (hv : a.voice_queue_.tail_ = a.voice_queue_.head_)
    (hb : a.bgm_queue_.tail_ = a.bgm_queue_.head_) :
    a.worker_loop_iteration m lib ok_voice ok_mix = a := by
  cases a
  simp only at hv hb
  simp [worker_loop_iteration, SPSCQueue.try_pop, hv, hb]

/-- A loop pass that finds a voice frame and no BGM frame. -/
theorem worker_voice_only (m : LibM) (lib : Ebur128Lib) (ok_voice ok_mix : Bool)
    (a : LoudnessAnalyzer) (f : AudioFrame) (fs : List AudioFrame)
    (hr : a.running_ = true) (hv : a.voice_queue_.Holds (f :: fs))
    (hb : a.bgm_queue_.Holds []) :
    ∃ q', q'.Holds fs ∧
      a.worker_loop_iteration m lib ok_voice ok_mix =
        (process_voice m lib ok_voice ok_mix { a with voice_queue_ := q' } f).update_judgments := by
  obtain ⟨p1, p2, p3⟩ := SPSCQueue.holds_pop a.voice_queue_ f fs ({} : AudioFrame) hv
  have he : a.bgm_queue_.tail_ = a.bgm_queue_.head_ :=
    (SPSCQueue.holds_empty_iff a.bgm_queue_ [] hb).mpr rfl
  refine ⟨(a.voice_queue_.try_pop ({} : AudioFrame)).2.1, p3, ?_⟩
  have hbp : a.bgm_queue_.try_pop ({} : AudioFrame) = (false, a.bgm_queue_, {}) := by
    simp [SPSCQueue.try_pop, he]
  simp only [worker_loop_iteration, hr, hbp, p1, p2]
  simp

end LoudnessAnalyzer

theorem getD_take_of_lt (xs : List ℚ) (n i : Nat) (h : i < n) :
    (xs.take n).getD i 0 = xs.getD i 0 := by
  rw [List.getD_eq_getElem?_getD, List.getD_eq_getElem?_getD, List.getElem?_take_of_lt h]

theorem update_balance_judgment_keeps (cfg : AnalysisConfig) (r : AnalysisResults) :
    (update_balance_judgment cfg r).voice_active = r.voice_active ∧
      (update_balance_judgment cfg r).voice_peak_dbfs = r.voice_peak_dbfs ∧
      (update_balance_judgment cfg r).bgm_peak_dbfs = r.bgm_peak_dbfs ∧
      (update_balance_judgment cfg r).mix_peak_dbfs = r.mix_peak_dbfs := by
  unfold update_balance_judgment
  split <;> simp

theorem update_mix_judgment_keeps (cfg : AnalysisConfig) (r : AnalysisResults) :
    (update_mix_judgment cfg r).voice_active = r.voice_active ∧
      (update_mix_judgment cfg r).voice_peak_dbfs = r.voice_peak_dbfs ∧
      (update_mix_judgment cfg r).bgm_peak_dbfs = r.bgm_peak_dbfs ∧
      (update_mix_judgment cfg r).mix_peak_dbfs = r.mix_peak_dbfs := by
  unfold update_mix_judgment
  split <;> simp

theorem update_clip_judgment_bad (r : AnalysisResults) (x : ℚ) (hx : 0 ≤ x)
    (h : r.voice_peak_dbfs = .fin x) :
    (update_clip_judgment r).clip_status = .BAD ∧
      (update_clip_judgment r).voice_active = r.voice_active := by
  obtain ⟨_, h1, _, _⟩ := std_max_three r.voice_peak_dbfs r.bgm_peak_dbfs r.mix_peak_dbfs
  have hge : (std_max r.voice_peak_dbfs [r.bgm_peak_dbfs, r.mix_peak_dbfs]).ge 0 = true := by
    rw [h] at h1
    cases hM : std_max (Level.fin x) [r.bgm_peak_dbfs, r.mix_peak_dbfs] with
    | negInf => rw [hM] at h1; simp [Level.le] at h1
    | fin q =>
      rw [hM] at h1
      simp only [Level.le, decide_eq_true_eq] at h1
      rw [h, hM]
      simp only [Level.ge, decide_eq_true_eq]
      linarith
  simp [update_clip_judgment, kClipBadThreshold, hge]

namespace LoudnessAnalyzer

/-- What the three judgments at the end of a loop pass keep. -/
theorem update_judgments_keeps (a : LoudnessAnalyzer) :
    a.update_judgments.results_.voice_active = a.results_.voice_active ∧
      a.update_judgments.running_ = a.running_ ∧
      a.update_judgments.voice_queue_ = a.voice_queue_ ∧
      a.update_judgments.bgm_queue_ = a.bgm_queue_ ∧
      a.update_judgments.vad_ = a.vad_ ∧
      a.update_judgments.voice_state_ = a.voice_state_ ∧
      a.update_judgments.prev_voice_active_ = a.prev_voice_active_ ∧
      a.update_judgments.last_bgm_frame_count_ = a.last_bgm_frame_count_ ∧
      a.update_judgments.voice_peak_ = a.voice_peak_ := by
  refine ⟨?_, rfl, rfl, rfl, rfl, rfl, rfl, rfl, rfl⟩
  simp only [update_judgments, update_clip_judgment]
  rw [(update_mix_judgment_keeps _ _).1, (update_balance_judgment_keeps _ _).1]

/-- The clip status after the judgments of a loop pass, when the published
voice peak is at or above 0 dBFS. -/
theorem update_judgments_clip_bad (a : LoudnessAnalyzer) (x : ℚ) (hx : 0 ≤ x)
    (h : a.results_.voice_peak_dbfs = .fin x) :
    a.update_judgments.results_.clip_status = .BAD := by
  simp only [update_judgments]
  refine (update_clip_judgment_bad _ x hx ?_).1
  rw [(update_mix_judgment_keeps _ _).2.1, (update_balance_judgment_keeps _ _).2.1, h]

/-- A loop pass on a voice frame for which the detector reports inactive,
with nothing in the BGM queue and the voice previously inactive. -/
theorem worker_pass_inactive (m : LibM) (lib : Ebur128Lib) (ok_voice ok_mix : Bool)
    (a : LoudnessAnalyzer) (f : AudioFrame) (fs : List AudioFrame)
    (hr : a.running_ = true) (hv : a.voice_queue_.Holds (f :: fs))
    (hb : a.bgm_queue_.Holds [])
    (hu : (a.vad_.update m (some f.samples) f.frame_count).1 = false)
    (hp : a.prev_voice_active_ = false) :
    (a.worker_loop_iteration m lib ok_voice ok_mix).results_.voice_active = false ∧
      (a.worker_loop_iteration m lib ok_voice ok_mix).running_ = true ∧
      (a.worker_loop_iteration m lib ok_voice ok_mix).voice_queue_.Holds fs ∧
      (a.worker_loop_iteration m lib ok_voice ok_mix).bgm_queue_ = a.bgm_queue_ ∧
      (a.worker_loop_iteration m lib ok_voice ok_mix).vad_ =
        (a.vad_.update m (some f.samples) f.frame_count).2 ∧
      (a.worker_loop_iteration m lib ok_voice ok_mix).voice_state_ = a.voice_state_ ∧
      (a.worker_loop_iteration m lib ok_voice ok_mix).prev_voice_active_ = false ∧
      (a.worker_loop_iteration m lib ok_voice ok_mix).last_bgm_frame_count_ =
        a.last_bgm_frame_count_ ∧
      (a.worker_loop_iteration m lib ok_voice ok_mix).voice_peak_ = a.voice_peak_ := by
  obtain ⟨q', hq', e⟩ := worker_voice_only m lib ok_voice ok_mix a f fs hr hv hb
  obtain ⟨k1, k2, k3, k4, k5, k6, k7, k8, k9⟩ :=
    update_judgments_keeps (process_voice m lib ok_voice ok_mix { a with voice_queue_ := q' } f)
  have ep := process_voice_inactive m lib ok_voice ok_mix { a with voice_queue_ := q' } f hu
  rw [e, k1, k2, k3, k4, k5, k6, k7, k8, k9, ep]
  simp [hp, hr, hq']

/-- A loop pass on a voice frame for which the detector reports active, with
a voice integrator, nothing in the BGM queue and no BGM block retained: the
published flag is true and the published voice peak is the stored peak in
dBFS. -/
theorem worker_pass_active (m : LibM) (lib : Ebur128Lib) (ok_voice ok_mix : Bool)
    (a : LoudnessAnalyzer) (f : AudioFrame) (fs : List AudioFrame) (vst : Ebur128State)
    (hr : a.running_ = true) (hv : a.voice_queue_.Holds (f :: fs))
    (hb : a.bgm_queue_.Holds [])
    (hu : (a.vad_.update m (some f.samples) f.frame_count).1 = true)
    (hs : a.voice_state_ = some vst) (hl : a.last_bgm_frame_count_ = 0) :
    (a.worker_loop_iteration m lib ok_voice ok_mix).results_.voice_active = true ∧
      ∀ x : ℚ, 0 ≤ x → peak_to_dbfs m a.voice_peak_ = .fin x →
        (a.worker_loop_iteration m lib ok_voice ok_mix).results_.clip_status = .BAD := by
  obtain ⟨q', hq', e⟩ := worker_voice_only m lib ok_voice ok_mix a f fs hr hv hb
  have ep := process_voice_active_no_bgm m lib ok_voice ok_mix { a with voice_queue_ := q' } f
    vst hu hs hl
  have hpk : (process_voice m lib ok_voice ok_mix { a with voice_queue_ := q' } f
      ).results_.voice_peak_dbfs = peak_to_dbfs m a.voice_peak_ := by
    rw [ep]
    cases h2 : lib.loudness_shortterm (ebur128_add_frames_float vst f.samples f.frame_count) <;>
      simp [update_voice_metrics, h2]
  have hva : (process_voice m lib ok_voice ok_mix { a with voice_queue_ := q' } f
      ).results_.voice_active = true := by
    rw [(process_voice_vad m lib ok_voice ok_mix { a with voice_queue_ := q' } f).1]
    exact hu
  rw [e]
  refine ⟨by rw [(update_judgments_keeps _).1, hva], fun x hx hpx => ?_⟩
  exact update_judgments_clip_bad _ x hx (by rw [hpk, hpx])

end LoudnessAnalyzer

namespace LoudnessAnalyzer

/-- What a valid `push_voice_frame` into a queue with room changes and keeps. -/
theorem push_voice_frame_fields (a : LoudnessAnalyzer) (xs : List ℚ) (n : Nat)
    (fs : List AudioFrame) (h1 : 1 ≤ n) (h2 : n ≤ 4096) (hh : a.voice_queue_.Holds fs)
    (hroom : fs.length + 1 ≠ 256) :
    (a.push_voice_frame (some xs) n).voice_queue_.Holds
        (fs ++ [{ samples := xs.take n, frame_count := n, source_type := .Voice }]) ∧
      (a.push_voice_frame (some xs) n).voice_peak_ = block_peak xs n ∧
      (a.push_voice_frame (some xs) n).running_ = a.running_ ∧
      (a.push_voice_frame (some xs) n).bgm_queue_ = a.bgm_queue_ ∧
      (a.push_voice_frame (some xs) n).vad_ = a.vad_ ∧
      (a.push_voice_frame (some xs) n).voice_state_ = a.voice_state_ ∧
      (a.push_voice_frame (some xs) n).prev_voice_active_ = a.prev_voice_active_ ∧
      (a.push_voice_frame (some xs) n).last_bgm_frame_count_ = a.last_bgm_frame_count_ := by
  rw [push_voice_frame_valid a xs n h1 h2]
  exact ⟨(SPSCQueue.holds_push a.voice_queue_ fs _ hh hroom).2, rfl, rfl, rfl, rfl, rfl, rfl, rfl⟩

end LoudnessAnalyzer

/-- The `update` call on an inactive detector with threshold at most 0 dBFS,
for a block whose samples all have absolute value 1. -/
theorem update_unit_block_inactive (m : LibM) (hsqrt : m.sqrt 1 = 1) (hlog : m.log10 1 = 0)
    (v : VoiceActivityDetector) (xs : List ℚ) (n : Nat) (hn : n ≠ 0)
    (h : ∀ i, i < n → |xs.getD i 0| = 1) (hi : v.is_active_ = false)
    (hthr : v.threshold_dbfs_ ≤ 0) :
    v.update m (some xs) n =
      if v.attack_samples_ ≤ (v.attack_counter_ + n) % 2 ^ 32 then
        (true, { v with release_counter_ := 0, attack_counter_ := 0, is_active_ := true })
      else
        (false, { v with release_counter_ := 0,
                         attack_counter_ := (v.attack_counter_ + n) % 2 ^ 32 }) := by
  have hlev : VoiceActivityDetector.calculate_rms_dbfs m (some xs) n = .fin 0 :=
    VoiceActivityDetector.level_of_full_scale m hsqrt hlog xs n hn (fun i hi' => by
      rw [← abs_mul_abs_self, h i hi']; norm_num)
  exact VoiceActivityDetector.update_inactive_above m v ⟨some xs, n⟩ rfl hn hi
    (by simp only [Block.level, hlev]; simp [Level.ge, hthr])

/-- Two voice blocks of samples of absolute value 1, of `n1` and `n2` samples
with `n1 + n2 >= 7200`, pushed into a running analyzer with empty queues, a
default inactive detector and a voice integrator, then two loop passes: the
first pass leaves the voice inactive, the second publishes `voice_active` and
the clip status BAD. -/
theorem split_block_activates (m : LibM) (hsqrt : m.sqrt 1 = 1) (hlog : m.log10 1 = 0)
    (lib : Ebur128Lib) (okv1 okm1 okv2 okm2 : Bool) (a : LoudnessAnalyzer)
    (xs1 xs2 : List ℚ) (n1 n2 : Nat) (vst : Ebur128State)
    (hr : a.running_ = true) (hvq : a.voice_queue_.Holds []) (hbq : a.bgm_queue_.Holds [])
    (hvad : a.vad_ = { attack_samples_ := 7200, release_samples_ := 28800 })
    (hvs : a.voice_state_ = some vst) (hprev : a.prev_voice_active_ = false)
    (hbgm : a.last_bgm_frame_count_ = 0)
    (hn1 : 1 ≤ n1) (hn1' : n1 ≤ 4096) (hn2 : 1 ≤ n2) (hn2' : n2 ≤ 4096)
    (hsum : 7200 ≤ n1 + n2)
    (h1 : ∀ i, i < n1 → |xs1.getD i 0| = 1) (h2 : ∀ i, i < n2 → |xs2.getD i 0| = 1) :
    (LoudnessAnalyzer.worker_loop_iteration m lib okv1 okm1
        ((a.push_voice_frame (some xs1) n1).push_voice_frame (some xs2) n2)
      ).results_.voice_active = false ∧
    (LoudnessAnalyzer.worker_loop_iteration m lib okv2 okm2
        (LoudnessAnalyzer.worker_loop_iteration m lib okv1 okm1
          ((a.push_voice_frame (some xs1) n1).push_voice_frame (some xs2) n2))
      ).results_.voice_active = true ∧
    (LoudnessAnalyzer.worker_loop_iteration m lib okv2 okm2
        (LoudnessAnalyzer.worker_loop_iteration m lib okv1 okm1
          ((a.push_voice_frame (some xs1) n1).push_voice_frame (some xs2) n2))
      ).results_.clip_status = .BAD := by
  obtain ⟨p1, _, p3, p4, p5, p6, p7, p8⟩ :=
    LoudnessAnalyzer.push_voice_frame_fields a xs1 n1 [] hn1 hn1' hvq (by norm_num)
  obtain ⟨q1, q2, q3, q4, q5, q6, q7, q8⟩ :=
    LoudnessAnalyzer.push_voice_frame_fields (a.push_voice_frame (some xs1) n1) xs2 n2 _
      hn2 hn2' p1 (by norm_num)
  rw [p3, hr] at q3
  rw [p4] at q4
  rw [p5, hvad] at q5
  rw [p6, hvs] at q6
  rw [p7, hprev] at q7
  rw [p8, hbgm] at q8
  generalize (a.push_voice_frame (some xs1) n1).push_voice_frame (some xs2) n2 = a2 at *
  simp only [List.nil_append, List.singleton_append] at q1
  -- first pass
  have hu1 : (a2.vad_.update m (some (xs1.take n1)) n1).1 = false ∧
      (a2.vad_.update m (some (xs1.take n1)) n1).2 =
        { attack_samples_ := 7200, release_samples_ := 28800, attack_counter_ := n1 } := by
    rw [q5, update_unit_block_inactive m hsqrt hlog _ (xs1.take n1) n1 (by omega)
      (fun i hi => by rw [getD_take_of_lt xs1 n1 i hi]; exact h1 i hi) rfl (by norm_num)]
    have hmod : (0 + n1) % 2 ^ 32 = n1 := by
      rw [Nat.zero_add]; exact Nat.mod_eq_of_lt (by omega)
    have hlt : ¬ 7200 ≤ n1 := by omega
    simp only [hmod, hlt, if_false, and_self]
  obtain ⟨r1, r2, r3, r4, r5, r6, r7, r8, r9⟩ :=
    LoudnessAnalyzer.worker_pass_inactive m lib okv1 okm1 a2 _ _ q3 q1 (q4 ▸ hbq) hu1.1 q7
  rw [hu1.2] at r5
  rw [q4] at r4
  rw [q6] at r6
  rw [q8] at r8
  rw [q2] at r9
  refine ⟨r1, ?_⟩
  generalize LoudnessAnalyzer.worker_loop_iteration m lib okv1 okm1 a2 = a3 at *
  -- second pass
  have hu2 : (a3.vad_.update m (some (xs2.take n2)) n2).1 = true := by
    rw [r5, update_unit_block_inactive m hsqrt hlog _ (xs2.take n2) n2 (by omega)
      (fun i hi => by rw [getD_take_of_lt xs2 n2 i hi]; exact h2 i hi) rfl (by norm_num)]
    have hmod : (n1 + n2) % 2 ^ 32 = n1 + n2 := Nat.mod_eq_of_lt (by omega)
    simp only [hmod, hsum, if_true]
  obtain ⟨s1, s2⟩ :=
    LoudnessAnalyzer.worker_pass_active m lib okv2 okm2 a3 _ [] vst r2 r3 (r4 ▸ hbq) hu2 r6 r8
  refine ⟨s1, s2 0 (le_refl _) ?_⟩
  rw [r9, block_peak_const xs2 1 (by norm_num) n2 h2]
  have : ¬ n2 = 0 := by omega
  simp [LoudnessAnalyzer.peak_to_dbfs, this, hlog]

/-- C11: `push_voice_frame` and `push_bgm_frame` change nothing when `samples`
is null, `frames` is 0 or `frames > 4096`: no frame enters a queue and the
stored peaks keep their values.  For `1 <= frames <= 4096` and a queue that is
not full, exactly one frame is appended to the stream's queue, carrying a copy
of the first `frames` samples, the count and the stream tag; the other queue
is untouched. -/
theorem push_frame_guard (a : LoudnessAnalyzer) (samples : Option (List ℚ)) (xs : List ℚ)
    (frames : Nat) (fs : List AudioFrame) :
    ((samples = none ∨ frames = 0 ∨ frames > 4096) →
        a.push_voice_frame samples frames = a ∧ a.push_bgm_frame samples frames = a) ∧
      (1 ≤ frames → frames ≤ 4096 → a.voice_queue_.Holds fs →
        (a.voice_queue_.head_ + 1) % 256 ≠ a.voice_queue_.tail_ →
        (a.push_voice_frame (some xs) frames).voice_queue_.Holds
            (fs ++ [{ samples := xs.take frames, frame_count := frames,
                      source_type := .Voice }]) ∧
          (a.push_voice_frame (some xs) frames).bgm_queue_ = a.bgm_queue_) ∧
      (1 ≤ frames → frames ≤ 4096 → a.bgm_queue_.Holds fs →
        (a.bgm_queue_.head_ + 1) % 256 ≠ a.bgm_queue_.tail_ →
        (a.push_bgm_frame (some xs) frames).bgm_queue_.Holds
            (fs ++ [{ samples := xs.take frames, frame_count := frames,
                      source_type := .BGM }]) ∧
          (a.push_bgm_frame (some xs) frames).voice_queue_ = a.voice_queue_) := by
  refine ⟨fun h => ⟨LoudnessAnalyzer.push_voice_frame_invalid a samples frames h,
    LoudnessAnalyzer.push_bgm_frame_invalid a samples frames h⟩, ?_, ?_⟩
  · intro h1 h2 hh hnf
    rw [LoudnessAnalyzer.push_voice_frame_valid a xs frames h1 h2]
    have hroom : fs.length + 1 ≠ 256 := fun hc =>
      hnf ((SPSCQueue.holds_full_iff a.voice_queue_ fs hh).mpr hc)
    exact ⟨(SPSCQueue.holds_push a.voice_queue_ fs _ hh hroom).2, rfl⟩
  · intro h1 h2 hh hnf
    rw [LoudnessAnalyzer.push_bgm_frame_valid a xs frames h1 h2]
    have hroom : fs.length + 1 ≠ 256 := fun hc =>
      hnf ((SPSCQueue.holds_full_iff a.bgm_queue_ fs hh).mpr hc)
    exact ⟨(SPSCQueue.holds_push a.bgm_queue_ fs _ hh hroom).2, rfl⟩

/-- Witness for C11 on a freshly constructed analyzer: a push of 5000 samples
changes nothing, and a push of the first 2 of 3 samples puts one frame holding
those 2 samples into the empty voice queue. -/
theorem push_frame_guard_witness :
    LoudnessAnalyzer.new.push_voice_frame (some [1 / 2, -1 / 4, 1 / 8]) 5000 =
        LoudnessAnalyzer.new ∧
      (LoudnessAnalyzer.new.push_voice_frame (some [1 / 2, -1 / 4, 1 / 8]) 2).voice_queue_.Holds
        [{ samples := [1 / 2, -1 / 4], frame_count := 2, source_type := .Voice }] :=
  ⟨((push_frame_guard LoudnessAnalyzer.new (some [1 / 2, -1 / 4, 1 / 8]) [] 5000 []).1
      (Or.inr (Or.inr (by norm_num)))).1,
    ((push_frame_guard LoudnessAnalyzer.new none [1 / 2, -1 / 4, 1 / 8] 2 []).2.1
      (by norm_num) (by norm_num)
      ((SPSCQueue.holds_nil_iff _ LoudnessAnalyzer.new_voice_queue_wf.1).mpr
        LoudnessAnalyzer.new_voice_queue_wf.2.symm)
      (by show (0 + 1) % 256 ≠ 0; norm_num)).1⟩

namespace LoudnessAnalyzer

/-- The analyzer after construction and a `start()` whose three allocations
succeed: the fields the end-to-end run depends on. -/
theorem started_fields :
    (LoudnessAnalyzer.new.start ⟨true, true, true⟩).running_ = true ∧
      (LoudnessAnalyzer.new.start ⟨true, true, true⟩).voice_queue_.Holds [] ∧
      (LoudnessAnalyzer.new.start ⟨true, true, true⟩).bgm_queue_.Holds [] ∧
      (LoudnessAnalyzer.new.start ⟨true, true, true⟩).vad_ =
        { attack_samples_ := 7200, release_samples_ := 28800 } ∧
      (LoudnessAnalyzer.new.start ⟨true, true, true⟩).voice_state_ =
        some ⟨48000, some EBUR128_CENTER, []⟩ ∧
      (LoudnessAnalyzer.new.start ⟨true, true, true⟩).prev_voice_active_ = false ∧
      (LoudnessAnalyzer.new.start ⟨true, true, true⟩).last_bgm_frame_count_ = 0 ∧
      (LoudnessAnalyzer.new.start ⟨true, true, true⟩).results_ = {} := by
  rw [start_of_not_running _ _ rfl]
  refine ⟨rfl, ?_, ?_, ?_, rfl, rfl, rfl, rfl⟩
  · exact (SPSCQueue.holds_nil_iff _ new_voice_queue_wf.1).mpr new_voice_queue_wf.2.symm
  · exact (SPSCQueue.holds_nil_iff _ new_bgm_queue_wf.1).mpr new_bgm_queue_wf.2.symm
  · exact VoiceActivityDetector.new_eq

end LoudnessAnalyzer

/-- C12 (amended): with the analyzer at 48 kHz and default settings, started
with its integrators allocated, a full-scale square wave of one attack budget
(7200 samples) pushed through `push_voice_frame` as two blocks of 4096 and
3104 samples and processed by two passes of the worker yields published
`voice_active = true` and clip status BAD; after the first pass the voice is
still inactive.  The library functions are assumed to give `sqrt(1) = 1` and
`log10(1) = 0`. -/
theorem end_to_end_split_square_wave (m : LibM) (hsqrt : m.sqrt 1 = 1) (hlog : m.log10 1 = 0)
    (lib : Ebur128Lib) (okv1 okm1 okv2 okm2 : Bool) :
    (LoudnessAnalyzer.worker_loop_iteration m lib okv1 okm1
        (((LoudnessAnalyzer.new.start ⟨true, true, true⟩).push_voice_frame
          (some (squareWave 4096)) 4096).push_voice_frame (some (squareWave 3104)) 3104)
      ).results_.voice_active = false ∧
    (LoudnessAnalyzer.worker_loop_iteration m lib okv2 okm2
        (LoudnessAnalyzer.worker_loop_iteration m lib okv1 okm1
          (((LoudnessAnalyzer.new.start ⟨true, true, true⟩).push_voice_frame
            (some (squareWave 4096)) 4096).push_voice_frame (some (squareWave 3104)) 3104))
      ).results_.voice_active = true ∧
    (LoudnessAnalyzer.worker_loop_iteration m lib okv2 okm2
        (LoudnessAnalyzer.worker_loop_iteration m lib okv1 okm1
          (((LoudnessAnalyzer.new.start ⟨true, true, true⟩).push_voice_frame
            (some (squareWave 4096)) 4096).push_voice_frame (some (squareWave 3104)) 3104))
      ).results_.clip_status = .BAD := by
  obtain ⟨f1, f2, f3, f4, f5, f6, f7, _⟩ := LoudnessAnalyzer.started_fields
  exact split_block_activates m hsqrt hlog lib okv1 okm1 okv2 okm2 _ _ _ 4096 3104 _
    f1 f2 f3 f4 f5 f6 f7 (by norm_num) (by norm_num) (by norm_num) (by norm_num) (by norm_num)
    (squareWave_abs 4096) (squareWave_abs 3104)

/-- Witness for C12 (amended), with the table of library values and an
integrator that reports no loudness. -/
theorem end_to_end_split_square_wave_witness :
    (LoudnessAnalyzer.worker_loop_iteration tableLibM noResultLib true true
        (LoudnessAnalyzer.worker_loop_iteration tableLibM noResultLib true true
          (((LoudnessAnalyzer.new.start ⟨true, true, true⟩).push_voice_frame
            (some (squareWave 4096)) 4096).push_voice_frame (some (squareWave 3104)) 3104))
      ).results_.voice_active = true ∧
    (LoudnessAnalyzer.worker_loop_iteration tableLibM noResultLib true true
        (LoudnessAnalyzer.worker_loop_iteration tableLibM noResultLib true true
          (((LoudnessAnalyzer.new.start ⟨true, true, true⟩).push_voice_frame
            (some (squareWave 4096)) 4096).push_voice_frame (some (squareWave 3104)) 3104))
      ).results_.clip_status = .BAD :=
  (end_to_end_split_square_wave tableLibM (by simp [tableLibM]) (by simp [tableLibM])
    noResultLib true true true true).2

/-- Counterexample to C12 as stated: at 48 kHz the attack budget is 7200
samples, more than the 4096 samples a frame can carry.  Pushing one
full-scale square wave of 7200 samples through `push_voice_frame` leaves the
started analyzer exactly as it was, and the worker pass that follows finds
both queues empty: the published `voice_active` stays false and the clip
status stays OK. -/
theorem end_to_end_single_block_counterexample :
    (LoudnessAnalyzer.new.start ⟨true, true, true⟩).vad_.attack_samples_ = 7200 ∧
      (LoudnessAnalyzer.new.start ⟨true, true, true⟩).push_voice_frame
          (some (squareWave 7200)) 7200 = LoudnessAnalyzer.new.start ⟨true, true, true⟩ ∧
      (LoudnessAnalyzer.worker_loop_iteration tableLibM noResultLib true true
          ((LoudnessAnalyzer.new.start ⟨true, true, true⟩).push_voice_frame
            (some (squareWave 7200)) 7200)).results_.voice_active = false ∧
      (LoudnessAnalyzer.worker_loop_iteration tableLibM noResultLib true true
          ((LoudnessAnalyzer.new.start ⟨true, true, true⟩).push_voice_frame
            (some (squareWave 7200)) 7200)).results_.clip_status = .OK := by
  obtain ⟨_, f2, f3, f4, _, _, _, f8⟩ := LoudnessAnalyzer.started_fields
  have hp := LoudnessAnalyzer.push_voice_frame_invalid
    (LoudnessAnalyzer.new.start ⟨true, true, true⟩) (some (squareWave 7200)) 7200
    (Or.inr (Or.inr (by norm_num)))
  have hi := LoudnessAnalyzer.worker_idle tableLibM noResultLib true true
    (LoudnessAnalyzer.new.start ⟨true, true, true⟩)
    ((SPSCQueue.holds_empty_iff _ [] f2).mpr rfl) ((SPSCQueue.holds_empty_iff _ [] f3).mpr rfl)
  refine ⟨by rw [f4], hp, ?_, ?_⟩
  · rw [hp, hi, f8]
  · rw [hp, hi, f8]

/-! ## Properties of the hysteresis judgment -/

theorem specClassify_idem (m ok warn h : ℚ) (p : Status) :
    specClassify m ok warn h (specClassify m ok warn h p) = specClassify m ok warn h p := by
  unfold specClassify
  split_ifs <;> rfl

theorem specClassify_warn_of_wide (m ok warn h : ℚ) (p : Status) (hh : (ok - warn) / 2 ≤ h)
    (hw : specClassify m ok warn h p = .WARN) : p = .WARN := by
  unfold specClassify at hw
  split_ifs at hw with h1 h2 h3
  · exfalso; linarith [h3.1, h3.2]
  · exact hw

theorem update_balance_judgment_eq_classify (cfg : AnalysisConfig) (r : AnalysisResults) :
    (update_balance_judgment cfg r).balance_status = r.balance_status ∨
      ∃ v b, r.voice_lufs = .fin v ∧ r.bgm_lufs = .fin b ∧
        update_balance_judgment cfg r =
          { r with
            balance_delta := v - b
            balance_status :=
              specClassify (v - b) cfg.balance_target (cfg.balance_target - 3)
                cfg.hysteresis r.balance_status } := by
  cases hv : r.voice_lufs with
  | negInf => left; simp [update_balance_judgment, hv]
  | fin v =>
    cases hb : r.bgm_lufs with
    | negInf => left; simp [update_balance_judgment, hv, hb]
    | fin b =>
      right
      exact ⟨v, b, rfl, rfl, by simp only [update_balance_judgment, hv, hb, specClassify]⟩

theorem update_mix_judgment_eq_classify (cfg : AnalysisConfig) (r : AnalysisResults) :
    (update_mix_judgment cfg r).mix_status = r.mix_status ∨
      ∃ mx, r.mix_lufs = .fin mx ∧
        update_mix_judgment cfg r =
          { r with
            mix_status :=
              specClassify mx cfg.mix_ok_threshold cfg.mix_warn_threshold
                cfg.hysteresis r.mix_status } := by
  cases hm : r.mix_lufs with
  | negInf => left; simp [update_mix_judgment, hm]
  | fin mx =>
    right
    exact ⟨mx, rfl, by simp only [update_mix_judgment, hm, specClassify]⟩

theorem update_balance_judgment_idem (cfg : AnalysisConfig) (r : AnalysisResults) :
    update_balance_judgment cfg (update_balance_judgment cfg r) =
      update_balance_judgment cfg r := by
  cases hv : r.voice_lufs with
  | negInf => simp [update_balance_judgment, hv]
  | fin v =>
    cases hb : r.bgm_lufs with
    | negInf => simp [update_balance_judgment, hv, hb]
    | fin b =>
      simp only [update_balance_judgment, hv, hb]
      split_ifs <;> rfl

theorem update_mix_judgment_idem (cfg : AnalysisConfig) (r : AnalysisResults) :
    update_mix_judgment cfg (update_mix_judgment cfg r) = update_mix_judgment cfg r := by
  cases hm : r.mix_lufs with
  | negInf => simp [update_mix_judgment, hm]
  | fin mx =>
    simp only [update_mix_judgment, hm]
    split_ifs <;> rfl

/-- C27: the hysteresis judgment is idempotent in the status.  This holds for
the specification's `classify`, and running `update_balance_judgment` or
`update_mix_judgment` a second time on its own result (same metric, same
configuration) changes nothing. -/
theorem judgment_idempotent (cfg : AnalysisConfig) (r : AnalysisResults)
    (m ok warn h : ℚ) (p : Status) :
    specClassify m ok warn h (specClassify m ok warn h p) = specClassify m ok warn h p ∧
      update_balance_judgment cfg (update_balance_judgment cfg r) =
        update_balance_judgment cfg r ∧
      update_mix_judgment cfg (update_mix_judgment cfg r) = update_mix_judgment cfg r :=
  ⟨specClassify_idem m ok warn h p, update_balance_judgment_idem cfg r,
    update_mix_judgment_idem cfg r⟩

/-- C29: for a fixed previous status the judgment is not monotone in the
metric.  With target 6, hysteresis 0.5 and previous status BAD, the balance
delta 5 yields WARN, while the larger delta 6, inside the dead zone
`[5.5, 6.5)`, leaves the status BAD. -/
theorem judgment_not_monotone :
    (update_balance_judgment {}
        { voice_lufs := .fin (-14), bgm_lufs := .fin (-19), balance_status := .BAD }) =
        { voice_lufs := .fin (-14), bgm_lufs := .fin (-19), balance_delta := 5,
          balance_status := .WARN } ∧
      (update_balance_judgment {}
        { voice_lufs := .fin (-14), bgm_lufs := .fin (-20), balance_status := .BAD }) =
        { voice_lufs := .fin (-14), bgm_lufs := .fin (-20), balance_delta := 6,
          balance_status := .BAD } ∧
      specClassify 5 6 3 (1 / 2) .BAD = .WARN ∧
      specClassify 6 6 3 (1 / 2) .BAD = .BAD := by
  refine ⟨?_, ?_, ?_, ?_⟩
  · simp only [update_balance_judgment]; norm_num
  · simp only [update_balance_judgment]; norm_num
  · simp only [specClassify]; norm_num
  · simp only [specClassify]; norm_num

/-! ## Invariant of the detector's counters -/

theorem update_budgets_unchanged (m : LibM) (v : VoiceActivityDetector)
    (samples : Option (List ℚ)) (n : Nat) :
    (v.update m samples n).2.attack_samples_ = v.attack_samples_ ∧
      (v.update m samples n).2.release_samples_ = v.release_samples_ := by
  simp only [VoiceActivityDetector.update]
  split_ifs <;> exact ⟨rfl, rfl⟩

theorem update_consistent (m : LibM) (v : VoiceActivityDetector)
    (samples : Option (List ℚ)) (n : Nat) (hc : CountersConsistent v) :
    CountersConsistent (v.update m samples n).2 := by
  obtain ⟨h1, h2⟩ := hc
  simp only [VoiceActivityDetector.update, CountersConsistent]
  split_ifs <;> simp_all

theorem update_bounds (m : LibM) (v : VoiceActivityDetector)
    (samples : Option (List ℚ)) (n : Nat) (hc : CountersConsistent v)
    (hA : 1 ≤ v.attack_samples_) (hR : 1 ≤ v.release_samples_)
    (ha : v.attack_counter_ < v.attack_samples_)
    (hr : v.release_counter_ < v.release_samples_) :
    (v.update m samples n).2.attack_counter_ < v.attack_samples_ ∧
      (v.update m samples n).2.release_counter_ < v.release_samples_ := by
  obtain ⟨h1, h2⟩ := hc
  simp only [VoiceActivityDetector.update]
  split_ifs <;> simp_all <;> omega

theorem updateAll_invariant (m : LibM) (bs : List Block) :
    ∀ v : VoiceActivityDetector, CountersConsistent v →
      CountersConsistent (updateAll m v bs) ∧
        (updateAll m v bs).attack_samples_ = v.attack_samples_ ∧
        (updateAll m v bs).release_samples_ = v.release_samples_ ∧
        (1 ≤ v.attack_samples_ → 1 ≤ v.release_samples_ →
          v.attack_counter_ < v.attack_samples_ → v.release_counter_ < v.release_samples_ →
          (updateAll m v bs).attack_counter_ < v.attack_samples_ ∧
            (updateAll m v bs).release_counter_ < v.release_samples_) := by
  induction bs with
  | nil => intro v hc; exact ⟨hc, rfl, rfl, fun _ _ ha hr => ⟨ha, hr⟩⟩
  | cons b bs ih =>
    intro v hc
    obtain ⟨e1, e2⟩ := update_budgets_unchanged m v b.samples b.frame_count
    obtain ⟨i1, i2, i3, i4⟩ := ih _ (update_consistent m v b.samples b.frame_count hc)
    simp only [updateAll]
    rw [e1] at i2
    rw [e2] at i3
    refine ⟨i1, i2, i3, fun hA hR ha hr => ?_⟩
    obtain ⟨b1, b2⟩ := update_bounds m v b.samples b.frame_count hc hA hR ha hr
    rw [e1, e2] at i4
    exact i4 hA hR b1 b2

theorem new_consistent : CountersConsistent VoiceActivityDetector.new := by
  rw [VoiceActivityDetector.new_eq]
  exact ⟨fun h => rfl, fun h => rfl⟩

/-- C25: the detector's counters are consistent with its flag (active implies
attack counter 0, inactive implies release counter 0) after construction,
after `reset()`, and after every `update()` on a consistent detector, hence
after any sequence of updates; and with budgets `A >= 1` and `R >= 1` the
attack counter stays below `A` and the release counter below `R` through any
sequence of updates, the counters being reduced modulo `2 ^ 32`. -/
theorem vad_counters_invariant (m : LibM) (v : VoiceActivityDetector) (bs : List Block)
    (hc : CountersConsistent v) (hA : 1 ≤ v.attack_samples_) (hR : 1 ≤ v.release_samples_)
    (ha : v.attack_counter_ < v.attack_samples_)
    (hr : v.release_counter_ < v.release_samples_) :
    CountersConsistent VoiceActivityDetector.new ∧
      (∀ w : VoiceActivityDetector,
        CountersConsistent w.reset ∧ w.reset.attack_counter_ = 0 ∧
          w.reset.release_counter_ = 0) ∧
      (∀ (samples : Option (List ℚ)) (n : Nat),
        CountersConsistent (v.update m samples n).2 ∧
          (v.update m samples n).2.attack_counter_ < v.attack_samples_ ∧
          (v.update m samples n).2.release_counter_ < v.release_samples_) ∧
      CountersConsistent (updateAll m v bs) ∧
      (updateAll m v bs).attack_counter_ < v.attack_samples_ ∧
      (updateAll m v bs).release_counter_ < v.release_samples_ := by
  obtain ⟨i1, _, _, i4⟩ := updateAll_invariant m bs v hc
  refine ⟨new_consistent, fun w => ⟨⟨fun _ => rfl, fun _ => rfl⟩, rfl, rfl⟩,
    fun samples n => ⟨update_consistent m v samples n hc,
      update_bounds m v samples n hc hA hR ha hr⟩,
    i1, i4 hA hR ha hr⟩

/-- Witness for C25: the default detector fed full-scale blocks of 1 and of
`2 ^ 32 - 1` samples (the attack counter wraps) and then a block of zeros. -/
theorem vad_counters_invariant_witness :
    CountersConsistent (updateAll tableLibM VoiceActivityDetector.new
        [fullScaleBlock 1, fullScaleBlock 4294967295, silentBlock 480]) ∧
      (updateAll tableLibM VoiceActivityDetector.new
        [fullScaleBlock 1, fullScaleBlock 4294967295, silentBlock 480]).attack_counter_ <
        7200 ∧
      (updateAll tableLibM VoiceActivityDetector.new
        [fullScaleBlock 1, fullScaleBlock 4294967295, silentBlock 480]).release_counter_ <
        28800 := by
  have hA : VoiceActivityDetector.new.attack_samples_ = 7200 := by
    rw [VoiceActivityDetector.new_eq]
  have hR : VoiceActivityDetector.new.release_samples_ = 28800 := by
    rw [VoiceActivityDetector.new_eq]
  have h0 : VoiceActivityDetector.new.attack_counter_ = 0 ∧
      VoiceActivityDetector.new.release_counter_ = 0 := by
    rw [VoiceActivityDetector.new_eq]; exact ⟨rfl, rfl⟩
  have h := (vad_counters_invariant tableLibM VoiceActivityDetector.new
    [fullScaleBlock 1, fullScaleBlock 4294967295, silentBlock 480] new_consistent
    (by rw [hA]; norm_num) (by rw [hR]; norm_num) (by rw [hA, h0.1]; norm_num)
    (by rw [hR, h0.2]; norm_num)).2.2.2
  rw [hA, hR] at h
  exact h

/-! ## Analyzer: what `process_voice` does to the integrators and the mix -/

theorem block_peak_succ (xs : List ℚ) (n : Nat) :
    block_peak xs (n + 1) =
      if |xs.getD n 0| > block_peak xs n then |xs.getD n 0| else block_peak xs n := by
  simp only [block_peak, List.range_succ, List.foldl_append, List.foldl_cons, List.foldl_nil]

theorem block_peak_ge (xs : List ℚ) (n : Nat) :
    ∀ i, i < n → |xs.getD i 0| ≤ block_peak xs n := by
  induction n with
  | zero => intro i hi; omega
  | succ n ih =>
    intro i hi
    rw [block_peak_succ]
    by_cases hlt : i < n
    · have := ih i hlt
      split_ifs with h
      · linarith
      · exact this
    · have hin : i = n := by omega
      subst hin
      split_ifs with h
      · exact le_refl _
      · exact not_lt.mp h

theorem block_peak_attained (xs : List ℚ) (n : Nat) (hn : 0 < n) :
    ∃ i, i < n ∧ |xs.getD i 0| = block_peak xs n := by
  induction n with
  | zero => omega
  | succ n ih =>
    rw [block_peak_succ]
    split_ifs with h
    · exact ⟨n, Nat.lt_succ_self n, rfl⟩
    · by_cases hn0 : n = 0
      · subst hn0
        refine ⟨0, Nat.lt_succ_self 0, ?_⟩
        have h0 : block_peak xs 0 = 0 := rfl
        rw [h0] at h ⊢
        exact le_antisymm (not_lt.mp h) (abs_nonneg _)
      · obtain ⟨i, hi, e⟩ := ih (Nat.pos_of_ne_zero hn0)
        exact ⟨i, Nat.lt_succ_of_lt hi, e⟩

namespace LoudnessAnalyzer

theorem reset_ebur128_state_cases (ok : Bool) (sr : Nat) (st : Ebur128State) :
    reset_ebur128_state true sr (some st) = some ⟨sr, some EBUR128_CENTER, []⟩ ∧
      reset_ebur128_state false sr (some st) = none ∧
      reset_ebur128_state ok sr none = none := by
  simp [reset_ebur128_state, ebur128_init, ebur128_set_channel]

/-- What `update_voice_metrics` can change: only the published voice LUFS and
voice peak. -/
theorem update_voice_metrics_frame (m : LibM) (lib : Ebur128Lib) (a : LoudnessAnalyzer) :
    ∃ r' : AnalysisResults,
      a.update_voice_metrics m lib = { a with results_ := r' } ∧
        r'.bgm_lufs = a.results_.bgm_lufs ∧ r'.bgm_peak_dbfs = a.results_.bgm_peak_dbfs ∧
        r'.mix_lufs = a.results_.mix_lufs ∧ r'.mix_peak_dbfs = a.results_.mix_peak_dbfs ∧
        r'.balance_delta = a.results_.balance_delta ∧
        r'.voice_active = a.results_.voice_active ∧
        r'.balance_status = a.results_.balance_status ∧
        r'.mix_status = a.results_.mix_status ∧ r'.clip_status = a.results_.clip_status ∧
        (a.voice_state_ ≠ none → r'.voice_peak_dbfs = peak_to_dbfs m a.voice_peak_) := by
  cases h : a.voice_state_ with
  | none =>
    refine ⟨a.results_, ?_⟩
    cases a
    simp only at h
    subst h
    simp [update_voice_metrics]
  | some st =>
    cases h2 : lib.loudness_shortterm st with
    | none =>
      exact ⟨{ a.results_ with voice_peak_dbfs := peak_to_dbfs m a.voice_peak_ },
        by simp [update_voice_metrics, h, h2]⟩
    | some lufs =>
      exact ⟨{ a.results_ with voice_lufs := lufs,
                               voice_peak_dbfs := peak_to_dbfs m a.voice_peak_ },
        by simp [update_voice_metrics, h, h2]⟩

/-- What `update_mix_metrics` can change: only the published mix LUFS and mix
peak. -/
theorem update_mix_metrics_frame (m : LibM) (lib : Ebur128Lib) (a : LoudnessAnalyzer) :
    ∃ r' : AnalysisResults,
      a.update_mix_metrics m lib = { a with results_ := r' } ∧
        r'.voice_lufs = a.results_.voice_lufs ∧
        r'.voice_peak_dbfs = a.results_.voice_peak_dbfs ∧
        r'.bgm_lufs = a.results_.bgm_lufs ∧ r'.bgm_peak_dbfs = a.results_.bgm_peak_dbfs ∧
        r'.voice_active = a.results_.voice_active := by
  cases h : a.mix_state_ with
  | none =>
    refine ⟨a.results_, ?_⟩
    cases a
    simp only at h
    subst h
    simp [update_mix_metrics]
  | some st =>
    cases h2 : lib.loudness_shortterm st with
    | none =>
      exact ⟨{ a.results_ with mix_peak_dbfs := peak_to_dbfs m a.mix_peak_ },
        by simp [update_mix_metrics, h, h2]⟩
    | some lufs =>
      exact ⟨{ a.results_ with mix_lufs := lufs,
                               mix_peak_dbfs := peak_to_dbfs m a.mix_peak_ },
        by simp [update_mix_metrics, h, h2]⟩

/-- What `update_bgm_metrics` can change: only the published results. -/
theorem update_bgm_metrics_frame (m : LibM) (lib : Ebur128Lib) (a : LoudnessAnalyzer) :
    ∃ r' : AnalysisResults, a.update_bgm_metrics m lib = { a with results_ := r' } := by
  cases h : a.bgm_state_ with
  | none =>
    refine ⟨a.results_, ?_⟩
    cases a
    simp only at h
    subst h
    simp [update_bgm_metrics]
  | some st =>
    cases h2 : lib.loudness_shortterm st with
    | none =>
      exact ⟨{ a.results_ with bgm_peak_dbfs := peak_to_dbfs m a.bgm_peak_ },
        by simp [update_bgm_metrics, h, h2]⟩
    | some lufs =>
      exact ⟨{ a.results_ with bgm_lufs := lufs,
                               bgm_peak_dbfs := peak_to_dbfs m a.bgm_peak_ },
        by simp [update_bgm_metrics, h, h2]⟩

/-- `process_bgm` never touches the voice and mix integrators, the mix buffer
or the mix peak; with a BGM integrator it retains the frame. -/
theorem process_bgm_frame (m : LibM) (lib : Ebur128Lib) (a : LoudnessAnalyzer)
    (frame : AudioFrame) :
    (a.process_bgm m lib frame).voice_state_ = a.voice_state_ ∧
      (a.process_bgm m lib frame).mix_state_ = a.mix_state_ ∧
      (a.process_bgm m lib frame).mix_buffer_ = a.mix_buffer_ ∧
      (a.process_bgm m lib frame).mix_peak_ = a.mix_peak_ ∧
      (a.bgm_state_ ≠ none →
        (a.process_bgm m lib frame).last_bgm_frame_count_ = frame.frame_count ∧
          (a.process_bgm m lib frame).last_bgm_samples_ =
            frame.samples.take frame.frame_count) := by
  cases h : a.bgm_state_ with
  | none => simp [process_bgm, h]
  | some bst =>
    obtain ⟨r', e⟩ := update_bgm_metrics_frame m lib
      { a with
        last_bgm_frame_count_ := frame.frame_count
        last_bgm_samples_ := frame.samples.take frame.frame_count
        bgm_state_ := some (ebur128_add_frames_float bst frame.samples frame.frame_count) }
    simp only [process_bgm, h]
    rw [e]
    simp

theorem update_voice_metrics_fields (m : LibM) (lib : Ebur128Lib) (a : LoudnessAnalyzer) :
    (a.update_voice_metrics m lib).voice_state_ = a.voice_state_ ∧
      (a.update_voice_metrics m lib).bgm_state_ = a.bgm_state_ ∧
      (a.update_voice_metrics m lib).mix_state_ = a.mix_state_ ∧
      (a.update_voice_metrics m lib).mix_buffer_ = a.mix_buffer_ ∧
      (a.update_voice_metrics m lib).mix_peak_ = a.mix_peak_ ∧
      (a.update_voice_metrics m lib).last_bgm_samples_ = a.last_bgm_samples_ ∧
      (a.update_voice_metrics m lib).last_bgm_frame_count_ = a.last_bgm_frame_count_ ∧
      (a.update_voice_metrics m lib).results_.mix_lufs = a.results_.mix_lufs ∧
      (a.update_voice_metrics m lib).results_.mix_peak_dbfs = a.results_.mix_peak_dbfs ∧
      (a.voice_state_ ≠ none →
        (a.update_voice_metrics m lib).results_.voice_peak_dbfs =
          peak_to_dbfs m a.voice_peak_) := by
  obtain ⟨r', e, -, -, h1, h2, -, -, -, -, -, h3⟩ := update_voice_metrics_frame m lib a
  rw [e]
  exact ⟨rfl, rfl, rfl, rfl, rfl, rfl, rfl, h1, h2, h3⟩

theorem update_mix_metrics_fields (m : LibM) (lib : Ebur128Lib) (a : LoudnessAnalyzer) :
    (a.update_mix_metrics m lib).voice_state_ = a.voice_state_ ∧
      (a.update_mix_metrics m lib).bgm_state_ = a.bgm_state_ ∧
      (a.update_mix_metrics m lib).mix_state_ = a.mix_state_ ∧
      (a.update_mix_metrics m lib).mix_buffer_ = a.mix_buffer_ ∧
      (a.update_mix_metrics m lib).mix_peak_ = a.mix_peak_ ∧
      (a.update_mix_metrics m lib).results_.voice_peak_dbfs =
        a.results_.voice_peak_dbfs := by
  obtain ⟨r', e, -, h1, -⟩ := update_mix_metrics_frame m lib a
  rw [e]
  exact ⟨rfl, rfl, rfl, rfl, rfl, h1⟩

/-- `process_voice` on an active frame when the voice integrator is null. -/
theorem process_voice_active_null (m : LibM) (lib : Ebur128Lib) (ok_voice ok_mix : Bool)
    (a : LoudnessAnalyzer) (frame : AudioFrame)
    (hu : (a.vad_.update m (some frame.samples) frame.frame_count).1 = true)
    (hv : a.voice_state_ = none) :
    a.process_voice m lib ok_voice ok_mix frame =
      { a with
        vad_ := (a.vad_.update m (some frame.samples) frame.frame_count).2
        results_ := { a.results_ with voice_active := true }
        prev_voice_active_ := true } := by
  simp [process_voice, hu, hv]

/-- `process_voice` on an active frame when the voice integrator exists but
no mix block is produced (null mix integrator or nothing retained). -/
theorem process_voice_active_no_mix (m : LibM) (lib : Ebur128Lib) (ok_voice ok_mix : Bool)
    (a : LoudnessAnalyzer) (frame : AudioFrame) (vst : Ebur128State)
    (hu : (a.vad_.update m (some frame.samples) frame.frame_count).1 = true)
    (hv : a.voice_state_ = some vst)
    (hb : a.mix_state_ = none ∨ a.last_bgm_frame_count_ = 0) :
    a.process_voice m lib ok_voice ok_mix frame =
      update_voice_metrics m lib
        { a with
          vad_ := (a.vad_.update m (some frame.samples) frame.frame_count).2
          results_ := { a.results_ with voice_active := true }
          prev_voice_active_ := true
          voice_state_ :=
            some (ebur128_add_frames_float vst frame.samples frame.frame_count) } := by
  simp only [process_voice, hu, hv, Bool.not_true, Bool.and_false, Bool.false_eq_true, if_false]
  simp only [(update_voice_metrics_fields m lib _).2.2.1,
    (update_voice_metrics_fields m lib _).2.2.2.2.2.2.1]
  rcases hb with hb | hb
  · simp [hb]
  · cases hm : a.mix_state_ <;> simp [hb]

/-- `process_voice` on an active frame when both integrators exist and a BGM
block has been retained: the mix block is built and fed. -/
theorem process_voice_active_mix (m : LibM) (lib : Ebur128Lib) (ok_voice ok_mix : Bool)
    (a : LoudnessAnalyzer) (frame : AudioFrame) (vst mst : Ebur128State)
    (hu : (a.vad_.update m (some frame.samples) frame.frame_count).1 = true)
    (hv : a.voice_state_ = some vst) (hm : a.mix_state_ = some mst)
    (hb : 0 < a.last_bgm_frame_count_) :
    a.process_voice m lib ok_voice ok_mix frame =
      update_mix_metrics m lib
        { (update_voice_metrics m lib
            { a with
              vad_ := (a.vad_.update m (some frame.samples) frame.frame_count).2
              results_ := { a.results_ with voice_active := true }
              prev_voice_active_ := true
              voice_state_ :=
                some (ebur128_add_frames_float vst frame.samples frame.frame_count) }) with
          mix_buffer_ := (List.range (min frame.frame_count a.last_bgm_frame_count_)).map
            (fun i => frame.samples.getD i 0 + a.last_bgm_samples_.getD i 0)
          mix_peak_ := block_peak
            ((List.range (min frame.frame_count a.last_bgm_frame_count_)).map
              (fun i => frame.samples.getD i 0 + a.last_bgm_samples_.getD i 0))
            (min frame.frame_count a.last_bgm_frame_count_)
          mix_state_ := some (ebur128_add_frames_float mst
            ((List.range (min frame.frame_count a.last_bgm_frame_count_)).map
              (fun i => frame.samples.getD i 0 + a.last_bgm_samples_.getD i 0))
            (min frame.frame_count a.last_bgm_frame_count_)) } := by
  simp only [process_voice, hu, hv, Bool.not_true, Bool.and_false, Bool.false_eq_true, if_false]
  simp only [(update_voice_metrics_fields m lib _).2.2.1,
    (update_voice_metrics_fields m lib _).2.2.2.2.2.2.1,
    (update_voice_metrics_fields m lib _).2.2.2.2.2.1]
  simp [hm, hb]

end LoudnessAnalyzer

/-! ## Small concrete frames for the detector -/

/-- A one-sample frame of silence on an inactive detector reports inactive. -/
theorem zero_frame_inactive (v : VoiceActivityDetector) (hi : v.is_active_ = false) :
    v.update tableLibM (some [0]) 1 = (false, { v with attack_counter_ := 0 }) := by
  have hl : (Block.level tableLibM ⟨some [0], 1⟩).ge v.threshold_dbfs_ = false := by
    rw [Block.level, VoiceActivityDetector.level_of_silence tableLibM (by simp [tableLibM]) _ _
      (fun xs hxs i hi' => by
        have hx : xs = [0] := by simpa using hxs.symm
        have h0 : i = 0 := by simpa using hi'
        subst hx h0
        rfl)]
    rfl
  exact VoiceActivityDetector.update_inactive_below tableLibM v ⟨some [0], 1⟩ rfl (by decide) hi hl

/-- A one-sample frame of silence on an active detector whose release budget
is reached by that sample reports inactive. -/
theorem zero_frame_releases (v : VoiceActivityDetector) (hi : v.is_active_ = true)
    (hr : v.release_samples_ ≤ (v.release_counter_ + 1) % 2 ^ 32) :
    v.update tableLibM (some [0]) 1 =
      (false, { v with attack_counter_ := 0, release_counter_ := 0, is_active_ := false }) := by
  have hl : (Block.level tableLibM ⟨some [0], 1⟩).ge v.threshold_dbfs_ = false := by
    rw [Block.level, VoiceActivityDetector.level_of_silence tableLibM (by simp [tableLibM]) _ _
      (fun xs hxs i hi' => by
        have hx : xs = [0] := by simpa using hxs.symm
        have h0 : i = 0 := by simpa using hi'
        subst hx h0
        rfl)]
    rfl
  have e := VoiceActivityDetector.update_active_below tableLibM v ⟨some [0], 1⟩ rfl
    (by decide) hi hl
  simp only [hr, if_true] at e
  exact e

/-- A frame of full-scale samples on an active detector reports active. -/
theorem unit_frame_active (v : VoiceActivityDetector) (xs : List ℚ) (n : Nat) (hn : n ≠ 0)
    (h : ∀ i, i < n → |xs.getD i 0| = 1) (hi : v.is_active_ = true)
    (hthr : v.threshold_dbfs_ ≤ 0) :
    v.update tableLibM (some xs) n = (true, { v with release_counter_ := 0 }) := by
  have hlev : VoiceActivityDetector.calculate_rms_dbfs tableLibM (some xs) n = .fin 0 :=
    VoiceActivityDetector.level_of_full_scale tableLibM (by simp [tableLibM])
      (by simp [tableLibM]) xs n hn (fun i hi' => by
        rw [← abs_mul_abs_self, h i hi']; norm_num)
  exact VoiceActivityDetector.update_active_above tableLibM v ⟨some xs, n⟩ rfl hn hi
    (by simp only [Block.level, hlev]; simp [Level.ge, hthr])

/-- C23: when the detector reports inactive for a voice frame, `process_voice`
writes `voice_active` and no other published field (so voice LUFS, voice peak
dBFS, mix LUFS and mix peak dBFS are unchanged), and feeds no samples to an
integrator: each of the voice and mix integrators afterwards is the one from
before or an empty one, and the BGM integrator is untouched. -/
theorem process_voice_inactive_frame (m : LibM) (lib : Ebur128Lib) (ok_voice ok_mix : Bool)
    (a : LoudnessAnalyzer) (frame : AudioFrame)
    (hu : (a.vad_.update m (some frame.samples) frame.frame_count).1 = false) :
    (a.process_voice m lib ok_voice ok_mix frame).results_ =
        { a.results_ with voice_active := false } ∧
      (a.process_voice m lib ok_voice ok_mix frame).results_.voice_lufs =
        a.results_.voice_lufs ∧
      (a.process_voice m lib ok_voice ok_mix frame).results_.voice_peak_dbfs =
        a.results_.voice_peak_dbfs ∧
      (a.process_voice m lib ok_voice ok_mix frame).results_.mix_lufs = a.results_.mix_lufs ∧
      (a.process_voice m lib ok_voice ok_mix frame).results_.mix_peak_dbfs =
        a.results_.mix_peak_dbfs ∧
      (∀ st, (a.process_voice m lib ok_voice ok_mix frame).voice_state_ = some st →
        a.voice_state_ = some st ∨ st.audio = []) ∧
      (∀ st, (a.process_voice m lib ok_voice ok_mix frame).mix_state_ = some st →
        a.mix_state_ = some st ∨ st.audio = []) ∧
      (a.prev_voice_active_ = false →
        (a.process_voice m lib ok_voice ok_mix frame).voice_state_ = a.voice_state_ ∧
          (a.process_voice m lib ok_voice ok_mix frame).mix_state_ = a.mix_state_) ∧
      (a.process_voice m lib ok_voice ok_mix frame).bgm_state_ = a.bgm_state_ ∧
      (a.process_voice m lib ok_voice ok_mix frame).mix_buffer_ = a.mix_buffer_ ∧
      (a.process_voice m lib ok_voice ok_mix frame).mix_peak_ = a.mix_peak_ := by
  rw [LoudnessAnalyzer.process_voice_inactive m lib ok_voice ok_mix a frame hu]
  have key : ∀ (ok : Bool) (s : Option Ebur128State) (st : Ebur128State),
      (if a.prev_voice_active_ = true then
          LoudnessAnalyzer.reset_ebur128_state ok a.sample_rate_ s else s) = some st →
        s = some st ∨ st.audio = [] := by
    intro ok s st h
    cases hp : a.prev_voice_active_ with
    | false => rw [hp] at h; exact Or.inl (by simpa using h)
    | true =>
      rw [hp] at h
      simp only [if_true] at h
      cases s with
      | none => simp [LoudnessAnalyzer.reset_ebur128_state] at h
      | some s0 =>
        cases ok with
        | false =>
          rw [(LoudnessAnalyzer.reset_ebur128_state_cases false a.sample_rate_ s0).2.1] at h
          exact absurd h (by simp)
        | true =>
          rw [(LoudnessAnalyzer.reset_ebur128_state_cases true a.sample_rate_ s0).1] at h
          right
          have := Option.some.inj h
          rw [← this]
  refine ⟨rfl, rfl, rfl, rfl, rfl, key ok_voice a.voice_state_, key ok_mix a.mix_state_,
    fun hp => ?_, rfl, rfl, rfl⟩
  simp [hp]

/-- Witness for C23: an inactive detector fed one sample of silence; the
published voice loudness of -20 LUFS and the integrator holding one sample
are as before. -/
theorem process_voice_inactive_frame_witness :
    ((VoiceActivityDetector.update tableLibM
        { attack_samples_ := 7200, release_samples_ := 28800 } (some [0]) 1).1 = false) ∧
      (LoudnessAnalyzer.process_voice tableLibM noResultLib true true
        { vad_ := { attack_samples_ := 7200, release_samples_ := 28800 },
          voice_state_ := some ⟨48000, some EBUR128_CENTER, [1 / 2]⟩,
          results_ := { voice_lufs := .fin (-20) } }
        { samples := [0], frame_count := 1 }).results_.voice_lufs = .fin (-20) ∧
      (LoudnessAnalyzer.process_voice tableLibM noResultLib true true
        { vad_ := { attack_samples_ := 7200, release_samples_ := 28800 },
          voice_state_ := some ⟨48000, some EBUR128_CENTER, [1 / 2]⟩,
          results_ := { voice_lufs := .fin (-20) } }
        { samples := [0], frame_count := 1 }).voice_state_ =
        some ⟨48000, some EBUR128_CENTER, [1 / 2]⟩ :=
  have hu : (VoiceActivityDetector.update tableLibM
      { attack_samples_ := 7200, release_samples_ := 28800 } (some [0]) 1).1 = false := by
    rw [zero_frame_inactive _ rfl]
  ⟨hu,
    (process_voice_inactive_frame tableLibM noResultLib true true
      { vad_ := { attack_samples_ := 7200, release_samples_ := 28800 },
        voice_state_ := some ⟨48000, some EBUR128_CENTER, [1 / 2]⟩,
        results_ := { voice_lufs := .fin (-20) } }
      { samples := [0], frame_count := 1 } hu).2.1,
    ((process_voice_inactive_frame tableLibM noResultLib true true
      { vad_ := { attack_samples_ := 7200, release_samples_ := 28800 },
        voice_state_ := some ⟨48000, some EBUR128_CENTER, [1 / 2]⟩,
        results_ := { voice_lufs := .fin (-20) } }
      { samples := [0], frame_count := 1 } hu).2.2.2.2.2.2.2.1 rfl).1⟩

/-- C21 (amended): in `process_voice`, when the previous voice frame was
active and the detector reports inactive for the current one, each of the voice
and mix integrators that exists is destroyed and replaced by the result of a
new `ebur128_init`: a fresh integrator at the current sample rate holding no
samples when that allocation succeeds, null when it fails; an integrator that
was null stays null; the BGM integrator is untouched. On every other voice
frame no integrator is reinitialised: each integrator afterwards is the one
from before, or the one from before with samples appended. -/
theorem voice_transition_resets (m : LibM) (lib : Ebur128Lib) (ok_voice ok_mix : Bool)
    (a : LoudnessAnalyzer) (frame : AudioFrame) :
    (a.prev_voice_active_ = true →
      (a.vad_.update m (some frame.samples) frame.frame_count).1 = false →
        (a.process_voice m lib ok_voice ok_mix frame).voice_state_ =
            LoudnessAnalyzer.reset_ebur128_state ok_voice a.sample_rate_ a.voice_state_ ∧
          (a.process_voice m lib ok_voice ok_mix frame).mix_state_ =
            LoudnessAnalyzer.reset_ebur128_state ok_mix a.sample_rate_ a.mix_state_ ∧
          (a.process_voice m lib ok_voice ok_mix frame).bgm_state_ = a.bgm_state_ ∧
          (a.voice_state_ ≠ none → ok_voice = true →
            (a.process_voice m lib ok_voice ok_mix frame).voice_state_ =
              some ⟨a.sample_rate_, some EBUR128_CENTER, []⟩) ∧
          (a.mix_state_ ≠ none → ok_mix = true →
            (a.process_voice m lib ok_voice ok_mix frame).mix_state_ =
              some ⟨a.sample_rate_, some EBUR128_CENTER, []⟩) ∧
          ((a.voice_state_ = none ∨ ok_voice = false) →
            (a.process_voice m lib ok_voice ok_mix frame).voice_state_ = none) ∧
          ((a.mix_state_ = none ∨ ok_mix = false) →
            (a.process_voice m lib ok_voice ok_mix frame).mix_state_ = none)) ∧
      (¬ (a.prev_voice_active_ = true ∧
          (a.vad_.update m (some frame.samples) frame.frame_count).1 = false) →
        (a.process_voice m lib ok_voice ok_mix frame).bgm_state_ = a.bgm_state_ ∧
          ((a.process_voice m lib ok_voice ok_mix frame).voice_state_ = a.voice_state_ ∨
            ∃ vst, a.voice_state_ = some vst ∧
              (a.process_voice m lib ok_voice ok_mix frame).voice_state_ =
                some (ebur128_add_frames_float vst frame.samples frame.frame_count)) ∧
          ((a.process_voice m lib ok_voice ok_mix frame).mix_state_ = a.mix_state_ ∨
            ∃ mst blk n, a.mix_state_ = some mst ∧
              (a.process_voice m lib ok_voice ok_mix frame).mix_state_ =
                some (ebur128_add_frames_float mst blk n))) := by
  constructor
  · intro hp hu
    rw [LoudnessAnalyzer.process_voice_inactive m lib ok_voice ok_mix a frame hu]
    simp only [hp, if_true]
    refine ⟨trivial, trivial, trivial, fun hv hok => ?_, fun hv hok => ?_, fun h => ?_,
      fun h => ?_⟩
    · obtain ⟨st, hst⟩ := Option.ne_none_iff_exists'.mp hv
      rw [hst, hok, (LoudnessAnalyzer.reset_ebur128_state_cases true a.sample_rate_ st).1]
    · obtain ⟨st, hst⟩ := Option.ne_none_iff_exists'.mp hv
      rw [hst, hok, (LoudnessAnalyzer.reset_ebur128_state_cases true a.sample_rate_ st).1]
    · rcases h with h | h
      · rw [h]; rfl
      · rw [h]
        cases hs : a.voice_state_ with
        | none => rfl
        | some st =>
          exact (LoudnessAnalyzer.reset_ebur128_state_cases false a.sample_rate_ st).2.1
    · rcases h with h | h
      · rw [h]; rfl
      · rw [h]
        cases hs : a.mix_state_ with
        | none => rfl
        | some st =>
          exact (LoudnessAnalyzer.reset_ebur128_state_cases false a.sample_rate_ st).2.1
  · intro hn
    cases hu : (a.vad_.update m (some frame.samples) frame.frame_count).1 with
    | false =>
      have hp : a.prev_voice_active_ = false := by
        cases hp : a.prev_voice_active_ with
        | false => rfl
        | true => exact absurd ⟨hp, hu⟩ hn
      rw [LoudnessAnalyzer.process_voice_inactive m lib ok_voice ok_mix a frame hu]
      simp [hp]
    | true =>
      cases hv : a.voice_state_ with
      | none =>
        rw [LoudnessAnalyzer.process_voice_active_null m lib ok_voice ok_mix a frame hu hv]
        simp [hv]
      | some vst =>
        by_cases hb : a.mix_state_ = none ∨ a.last_bgm_frame_count_ = 0
        · rw [LoudnessAnalyzer.process_voice_active_no_mix m lib ok_voice ok_mix a frame vst
            hu hv hb]
          simp only [(LoudnessAnalyzer.update_voice_metrics_fields m lib _).1,
            (LoudnessAnalyzer.update_voice_metrics_fields m lib _).2.1,
            (LoudnessAnalyzer.update_voice_metrics_fields m lib _).2.2.1]
          simp
        · push_neg at hb
          obtain ⟨mst, hm⟩ := Option.ne_none_iff_exists'.mp hb.1
          rw [LoudnessAnalyzer.process_voice_active_mix m lib ok_voice ok_mix a frame vst mst
            hu hv hm (Nat.pos_of_ne_zero hb.2)]
          simp only [(LoudnessAnalyzer.update_mix_metrics_fields m lib _).1,
            (LoudnessAnalyzer.update_mix_metrics_fields m lib _).2.1,
            (LoudnessAnalyzer.update_mix_metrics_fields m lib _).2.2.1,
            (LoudnessAnalyzer.update_voice_metrics_fields m lib _).1,
            (LoudnessAnalyzer.update_voice_metrics_fields m lib _).2.1]
          exact ⟨trivial, Or.inr ⟨vst, rfl, rfl⟩,
            Or.inr ⟨mst, _, _, hm, rfl⟩⟩

/-- Witness for C21 (amended): an active detector one sample short of its
release budget receives one sample of silence; both integrators, which held
samples, are replaced by empty ones and the BGM integrator keeps its sample. -/
theorem voice_transition_resets_witness :
    (LoudnessAnalyzer.process_voice tableLibM noResultLib true true
        { vad_ := { attack_samples_ := 7200, release_samples_ := 28800,
                    is_active_ := true, release_counter_ := 28799 },
          prev_voice_active_ := true,
          voice_state_ := some ⟨48000, some EBUR128_CENTER, [1 / 2]⟩,
          bgm_state_ := some ⟨48000, some EBUR128_CENTER, [1 / 4]⟩,
          mix_state_ := some ⟨48000, some EBUR128_CENTER, [3 / 4]⟩ }
        { samples := [0], frame_count := 1 }).voice_state_ =
        some ⟨48000, some EBUR128_CENTER, []⟩ ∧
      (LoudnessAnalyzer.process_voice tableLibM noResultLib true true
        { vad_ := { attack_samples_ := 7200, release_samples_ := 28800,
                    is_active_ := true, release_counter_ := 28799 },
          prev_voice_active_ := true,
          voice_state_ := some ⟨48000, some EBUR128_CENTER, [1 / 2]⟩,
          bgm_state_ := some ⟨48000, some EBUR128_CENTER, [1 / 4]⟩,
          mix_state_ := some ⟨48000, some EBUR128_CENTER, [3 / 4]⟩ }
        { samples := [0], frame_count := 1 }).mix_state_ =
        some ⟨48000, some EBUR128_CENTER, []⟩ ∧
      (LoudnessAnalyzer.process_voice tableLibM noResultLib true true
        { vad_ := { attack_samples_ := 7200, release_samples_ := 28800,
                    is_active_ := true, release_counter_ := 28799 },
          prev_voice_active_ := true,
          voice_state_ := some ⟨48000, some EBUR128_CENTER, [1 / 2]⟩,
          bgm_state_ := some ⟨48000, some EBUR128_CENTER, [1 / 4]⟩,
          mix_state_ := some ⟨48000, some EBUR128_CENTER, [3 / 4]⟩ }
        { samples := [0], frame_count := 1 }).bgm_state_ =
        some ⟨48000, some EBUR128_CENTER, [1 / 4]⟩ :=
  have hu : (VoiceActivityDetector.update tableLibM
      { attack_samples_ := 7200, release_samples_ := 28800,
        is_active_ := true, release_counter_ := 28799 } (some [0]) 1).1 = false := by
    rw [zero_frame_releases _ rfl (by decide)]
  have h := (voice_transition_resets tableLibM noResultLib true true
    { vad_ := { attack_samples_ := 7200, release_samples_ := 28800,
                is_active_ := true, release_counter_ := 28799 },
      prev_voice_active_ := true,
      voice_state_ := some ⟨48000, some EBUR128_CENTER, [1 / 2]⟩,
      bgm_state_ := some ⟨48000, some EBUR128_CENTER, [1 / 4]⟩,
      mix_state_ := some ⟨48000, some EBUR128_CENTER, [3 / 4]⟩ }
    { samples := [0], frame_count := 1 }).1 rfl hu
  ⟨h.2.2.2.1 (by simp) rfl, h.2.2.2.2.1 (by simp) rfl, h.2.2.1⟩

/-- Counterexample to C21 as stated: on an active-to-inactive transition, a
voice integrator that is null (as after a `start()` whose allocation failed)
is not replaced by a fresh one, and an existing voice integrator whose
re-allocation fails becomes null. -/
theorem voice_transition_reset_counterexample :
    (VoiceActivityDetector.update tableLibM
        { attack_samples_ := 7200, release_samples_ := 28800,
          is_active_ := true, release_counter_ := 28799 } (some [0]) 1).1 = false ∧
      (LoudnessAnalyzer.process_voice tableLibM noResultLib true true
        { vad_ := { attack_samples_ := 7200, release_samples_ := 28800,
                    is_active_ := true, release_counter_ := 28799 },
          prev_voice_active_ := true,
          voice_state_ := none,
          mix_state_ := some ⟨48000, some EBUR128_CENTER, [3 / 4]⟩ }
        { samples := [0], frame_count := 1 }).voice_state_ = none ∧
      (LoudnessAnalyzer.process_voice tableLibM noResultLib false true
        { vad_ := { attack_samples_ := 7200, release_samples_ := 28800,
                    is_active_ := true, release_counter_ := 28799 },
          prev_voice_active_ := true,
          voice_state_ := some ⟨48000, some EBUR128_CENTER, [1 / 2]⟩,
          mix_state_ := some ⟨48000, some EBUR128_CENTER, [3 / 4]⟩ }
        { samples := [0], frame_count := 1 }).voice_state_ = none := by
  have hu : (VoiceActivityDetector.update tableLibM
      { attack_samples_ := 7200, release_samples_ := 28800,
        is_active_ := true, release_counter_ := 28799 } (some [0]) 1).1 = false := by
    rw [zero_frame_releases _ rfl (by decide)]
  refine ⟨hu, ?_, ?_⟩
  · rw [LoudnessAnalyzer.process_voice_inactive _ _ _ _ _ _ hu]
    rfl
  · rw [LoudnessAnalyzer.process_voice_inactive _ _ _ _ _ _ hu]
    rfl

/-- C22: on a voice frame for which the detector reports active, with a
retained BGM block of length `Lb > 0` (and both integrators present, without
which nothing is fed), the block that `process_voice` feeds to the mix
integrator has length `min Lv Lb`, its `i`-th sample is
`voice[i] + last_bgm[i]` for every `i` below that length, and the stored mix
peak is the greatest absolute value of those sums. With `Lb > 0` and a null
voice or mix integrator, and with `Lb = 0`, no mix block is produced: the mix
integrator, mix buffer, mix peak and the published mix LUFS and mix peak dBFS
are unchanged. -/
theorem mix_block_construction (m : LibM) (lib : Ebur128Lib) (ok_voice ok_mix : Bool)
    (a : LoudnessAnalyzer) (frame : AudioFrame)
    (hu : (a.vad_.update m (some frame.samples) frame.frame_count).1 = true) :
    (0 < a.last_bgm_frame_count_ →
      ∀ vst mst, a.voice_state_ = some vst → a.mix_state_ = some mst →
        ∃ blk : List ℚ,
          blk.length = min frame.frame_count a.last_bgm_frame_count_ ∧
            (∀ i, i < min frame.frame_count a.last_bgm_frame_count_ →
              blk.getD i 0 = frame.samples.getD i 0 + a.last_bgm_samples_.getD i 0) ∧
            (a.process_voice m lib ok_voice ok_mix frame).mix_buffer_ = blk ∧
            (a.process_voice m lib ok_voice ok_mix frame).mix_state_ =
              some { mst with audio := mst.audio ++ blk } ∧
            (∀ i, i < blk.length →
              |blk.getD i 0| ≤ (a.process_voice m lib ok_voice ok_mix frame).mix_peak_) ∧
            (0 < blk.length → ∃ i, i < blk.length ∧
              |blk.getD i 0| = (a.process_voice m lib ok_voice ok_mix frame).mix_peak_) ∧
            (blk.length = 0 → (a.process_voice m lib ok_voice ok_mix frame).mix_peak_ = 0)) ∧
      ((a.last_bgm_frame_count_ = 0 ∨ a.voice_state_ = none ∨ a.mix_state_ = none) →
        (a.process_voice m lib ok_voice ok_mix frame).mix_state_ = a.mix_state_ ∧
          (a.process_voice m lib ok_voice ok_mix frame).mix_buffer_ = a.mix_buffer_ ∧
          (a.process_voice m lib ok_voice ok_mix frame).mix_peak_ = a.mix_peak_ ∧
          (a.process_voice m lib ok_voice ok_mix frame).results_.mix_lufs =
            a.results_.mix_lufs ∧
          (a.process_voice m lib ok_voice ok_mix frame).results_.mix_peak_dbfs =
            a.results_.mix_peak_dbfs) := by
  constructor
  · intro hb vst mst hv hm
    have hlen : ((List.range (min frame.frame_count a.last_bgm_frame_count_)).map
        (fun i => frame.samples.getD i 0 + a.last_bgm_samples_.getD i 0)).length =
        min frame.frame_count a.last_bgm_frame_count_ := by
      rw [List.length_map, List.length_range]
    refine ⟨(List.range (min frame.frame_count a.last_bgm_frame_count_)).map
      (fun i => frame.samples.getD i 0 + a.last_bgm_samples_.getD i 0), hlen, ?_, ?_⟩
    · intro i hi
      rw [List.getD_eq_getElem?_getD, List.getElem?_map, List.getElem?_range hi]
      rfl
    · rw [LoudnessAnalyzer.process_voice_active_mix m lib ok_voice ok_mix a frame vst mst
        hu hv hm hb]
      simp only [(LoudnessAnalyzer.update_mix_metrics_fields m lib _).2.2.1,
        (LoudnessAnalyzer.update_mix_metrics_fields m lib _).2.2.2.1,
        (LoudnessAnalyzer.update_mix_metrics_fields m lib _).2.2.2.2.1]
      rw [hlen]
      refine ⟨trivial, ?_, block_peak_ge _ _, block_peak_attained _ _, fun h0 => ?_⟩
      · simp only [ebur128_add_frames_float]
        rw [List.take_of_length_le (le_of_eq hlen)]
      · rw [h0]
        rfl
  · intro h
    cases hv : a.voice_state_ with
    | none =>
      rw [LoudnessAnalyzer.process_voice_active_null m lib ok_voice ok_mix a frame hu hv]
      exact ⟨rfl, rfl, rfl, rfl, rfl⟩
    | some vst =>
      have hb : a.mix_state_ = none ∨ a.last_bgm_frame_count_ = 0 := by
        rcases h with h | h | h
        · exact Or.inr h
        · rw [hv] at h; exact absurd h (by simp)
        · exact Or.inl h
      rw [LoudnessAnalyzer.process_voice_active_no_mix m lib ok_voice ok_mix a frame vst
        hu hv hb]
      simp only [(LoudnessAnalyzer.update_voice_metrics_fields m lib _).2.2.1,
        (LoudnessAnalyzer.update_voice_metrics_fields m lib _).2.2.2.1,
        (LoudnessAnalyzer.update_voice_metrics_fields m lib _).2.2.2.2.1,
        (LoudnessAnalyzer.update_voice_metrics_fields m lib _).2.2.2.2.2.2.2.1,
        (LoudnessAnalyzer.update_voice_metrics_fields m lib _).2.2.2.2.2.2.2.2.1]
      exact ⟨trivial, trivial, trivial, trivial, trivial⟩

/-- Witness for C22: a voice frame `[1, -1, 1]` on an active detector with the
retained BGM block `[1/4, 1/4]`: the mix block is `[5/4, -3/4]`, it is appended
to the mix integrator, and the mix peak is `5/4`. -/
theorem mix_block_construction_witness :
    (VoiceActivityDetector.update tableLibM
        { attack_samples_ := 7200, release_samples_ := 28800, is_active_ := true }
        (some [1, -1, 1]) 3).1 = true ∧
      (LoudnessAnalyzer.process_voice tableLibM noResultLib true true
        { vad_ := { attack_samples_ := 7200, release_samples_ := 28800, is_active_ := true },
          prev_voice_active_ := true,
          voice_state_ := some ⟨48000, some EBUR128_CENTER, []⟩,
          mix_state_ := some ⟨48000, some EBUR128_CENTER, []⟩,
          last_bgm_samples_ := [1 / 4, 1 / 4],
          last_bgm_frame_count_ := 2 }
        { samples := [1, -1, 1], frame_count := 3 }).mix_buffer_ = [5 / 4, -3 / 4] ∧
      (LoudnessAnalyzer.process_voice tableLibM noResultLib true true
        { vad_ := { attack_samples_ := 7200, release_samples_ := 28800, is_active_ := true },
          prev_voice_active_ := true,
          voice_state_ := some ⟨48000, some EBUR128_CENTER, []⟩,
          mix_state_ := some ⟨48000, some EBUR128_CENTER, []⟩,
          last_bgm_samples_ := [1 / 4, 1 / 4],
          last_bgm_frame_count_ := 2 }
        { samples := [1, -1, 1], frame_count := 3 }).mix_state_ = some ⟨48000, some EBUR128_CENTER, [5 / 4, -3 / 4]⟩ ∧
      (LoudnessAnalyzer.process_voice tableLibM noResultLib true true
        { vad_ := { attack_samples_ := 7200, release_samples_ := 28800, is_active_ := true },
          prev_voice_active_ := true,
          voice_state_ := some ⟨48000, some EBUR128_CENTER, []⟩,
          mix_state_ := some ⟨48000, some EBUR128_CENTER, []⟩,
          last_bgm_samples_ := [1 / 4, 1 / 4],
          last_bgm_frame_count_ := 2 }
        { samples := [1, -1, 1], frame_count := 3 }).mix_peak_ = 5 / 4 := by
  have hu : (VoiceActivityDetector.update tableLibM
      { attack_samples_ := 7200, release_samples_ := 28800, is_active_ := true }
      (some [1, -1, 1]) 3).1 = true := by
    rw [unit_frame_active _ [1, -1, 1] 3 (by decide)
      (fun i hi => by interval_cases i <;> simp) rfl (by norm_num)]
  obtain ⟨blk, hlen, hget, hbuf, hst, hge, hatt, -⟩ :=
    (mix_block_construction tableLibM noResultLib true true
      { vad_ := { attack_samples_ := 7200, release_samples_ := 28800, is_active_ := true },
          prev_voice_active_ := true,
          voice_state_ := some ⟨48000, some EBUR128_CENTER, []⟩,
          mix_state_ := some ⟨48000, some EBUR128_CENTER, []⟩,
          last_bgm_samples_ := [1 / 4, 1 / 4],
          last_bgm_frame_count_ := 2 }
      { samples := [1, -1, 1], frame_count := 3 } hu).1 (by decide) _ _ rfl rfl
  have hl2 : blk.length = 2 := hlen
  obtain ⟨x, y, hxy⟩ := List.length_eq_two.mp hl2
  subst hxy
  have h0 := hget 0 (by decide)
  have h1 := hget 1 (by decide)
  simp only [List.getD_cons_zero, List.getD_cons_succ] at h0 h1
  have hx : x = 5 / 4 := by rw [h0]; norm_num
  have hy : y = -3 / 4 := by rw [h1]; norm_num
  subst hx hy
  refine ⟨hu, hbuf, ?_, ?_⟩
  · rw [hst]
    simp
  · obtain ⟨i, hi, e⟩ := hatt (by decide)
    have g0 := hge 0 (by decide)
    rw [← e] at g0 ⊢
    simp only [List.length_cons, List.length_nil] at hi
    interval_cases i
    · simp only [List.getD_cons_zero]
      norm_num [abs_of_pos]
    · simp only [List.getD_cons_zero, List.getD_cons_succ] at g0
      norm_num [abs_of_pos, abs_of_neg] at g0

/-! ## Analyzer: a loop pass that finds a voice frame and a BGM frame -/

namespace LoudnessAnalyzer

theorem reset_ebur128_state_audio (ok : Bool) (sr : Nat) (s : Option Ebur128State)
    (st : Ebur128State) (h : reset_ebur128_state ok sr s = some st) : st.audio = [] := by
  cases s with
  | none => simp [reset_ebur128_state] at h
  | some s0 =>
    cases ok with
    | false =>
      rw [(reset_ebur128_state_cases false sr s0).2.1] at h
      exact absurd h (by simp)
    | true =>
      rw [(reset_ebur128_state_cases true sr s0).1] at h
      rw [← Option.some.inj h]

/-- `process_voice` never touches the BGM integrator, the retained BGM block,
the two queues or the running flag. -/
theorem process_voice_keeps_bgm (m : LibM) (lib : Ebur128Lib) (ok_voice ok_mix : Bool)
    (a : LoudnessAnalyzer) (frame : AudioFrame) :
    (a.process_voice m lib ok_voice ok_mix frame).bgm_state_ = a.bgm_state_ ∧
      (a.process_voice m lib ok_voice ok_mix frame).last_bgm_frame_count_ =
        a.last_bgm_frame_count_ ∧
      (a.process_voice m lib ok_voice ok_mix frame).last_bgm_samples_ =
        a.last_bgm_samples_ ∧
      (a.process_voice m lib ok_voice ok_mix frame).voice_queue_ = a.voice_queue_ ∧
      (a.process_voice m lib ok_voice ok_mix frame).bgm_queue_ = a.bgm_queue_ ∧
      (a.process_voice m lib ok_voice ok_mix frame).running_ = a.running_ := by
  cases hu : (a.vad_.update m (some frame.samples) frame.frame_count).1 with
  | false =>
    rw [process_voice_inactive m lib ok_voice ok_mix a frame hu]
    exact ⟨rfl, rfl, rfl, rfl, rfl, rfl⟩
  | true =>
    cases hv : a.voice_state_ with
    | none =>
      rw [process_voice_active_null m lib ok_voice ok_mix a frame hu hv]
      exact ⟨rfl, rfl, rfl, rfl, rfl, rfl⟩
    | some vst =>
      by_cases hb : a.mix_state_ = none ∨ a.last_bgm_frame_count_ = 0
      · rw [process_voice_active_no_mix m lib ok_voice ok_mix a frame vst hu hv hb]
        obtain ⟨r', e, -⟩ := update_voice_metrics_frame m lib
          { a with
            vad_ := (a.vad_.update m (some frame.samples) frame.frame_count).2
            results_ := { a.results_ with voice_active := true }
            prev_voice_active_ := true
            voice_state_ :=
              some (ebur128_add_frames_float vst frame.samples frame.frame_count) }
        rw [e]
        exact ⟨rfl, rfl, rfl, rfl, rfl, rfl⟩
      · push_neg at hb
        obtain ⟨mst, hm⟩ := Option.ne_none_iff_exists'.mp hb.1
        rw [process_voice_active_mix m lib ok_voice ok_mix a frame vst mst hu hv hm
          (Nat.pos_of_ne_zero hb.2)]
        obtain ⟨r', e, -⟩ := update_voice_metrics_frame m lib
          { a with
            vad_ := (a.vad_.update m (some frame.samples) frame.frame_count).2
            results_ := { a.results_ with voice_active := true }
            prev_voice_active_ := true
            voice_state_ :=
              some (ebur128_add_frames_float vst frame.samples frame.frame_count) }
        rw [e]
        obtain ⟨r2, e2, -⟩ := update_mix_metrics_frame m lib
          { ({ ({ a with
                  vad_ := (a.vad_.update m (some frame.samples) frame.frame_count).2
                  results_ := { a.results_ with voice_active := true }
                  prev_voice_active_ := true
                  voice_state_ :=
                    some (ebur128_add_frames_float vst frame.samples frame.frame_count) } :
                  LoudnessAnalyzer) with results_ := r' } : LoudnessAnalyzer) with
            mix_buffer_ := (List.range (min frame.frame_count a.last_bgm_frame_count_)).map
              (fun i => frame.samples.getD i 0 + a.last_bgm_samples_.getD i 0)
            mix_peak_ := block_peak
              ((List.range (min frame.frame_count a.last_bgm_frame_count_)).map
                (fun i => frame.samples.getD i 0 + a.last_bgm_samples_.getD i 0))
              (min frame.frame_count a.last_bgm_frame_count_)
            mix_state_ := some (ebur128_add_frames_float mst
              ((List.range (min frame.frame_count a.last_bgm_frame_count_)).map
                (fun i => frame.samples.getD i 0 + a.last_bgm_samples_.getD i 0))
              (min frame.frame_count a.last_bgm_frame_count_)) }
        rw [e2]
        exact ⟨rfl, rfl, rfl, rfl, rfl, rfl⟩

/-- `process_voice` when no BGM block has been retained: no mix block. -/
theorem process_voice_nothing_retained (m : LibM) (lib : Ebur128Lib) (ok_voice ok_mix : Bool)
    (a : LoudnessAnalyzer) (frame : AudioFrame) (hb : a.last_bgm_frame_count_ = 0) :
    (a.process_voice m lib ok_voice ok_mix frame).mix_buffer_ = a.mix_buffer_ ∧
      (a.process_voice m lib ok_voice ok_mix frame).mix_peak_ = a.mix_peak_ ∧
      (∀ st, (a.process_voice m lib ok_voice ok_mix frame).mix_state_ = some st →
        a.mix_state_ = some st ∨ st.audio = []) := by
  cases hu : (a.vad_.update m (some frame.samples) frame.frame_count).1 with
  | false =>
    rw [process_voice_inactive m lib ok_voice ok_mix a frame hu]
    refine ⟨rfl, rfl, fun st h => ?_⟩
    cases hp : a.prev_voice_active_ with
    | false => left; simpa [hp] using h
    | true =>
      right
      simp only [hp, if_true] at h
      exact reset_ebur128_state_audio _ _ _ _ h
  | true =>
    cases hv : a.voice_state_ with
    | none =>
      rw [process_voice_active_null m lib ok_voice ok_mix a frame hu hv]
      exact ⟨rfl, rfl, fun st h => Or.inl h⟩
    | some vst =>
      rw [process_voice_active_no_mix m lib ok_voice ok_mix a frame vst hu hv (Or.inr hb)]
      simp only [(update_voice_metrics_fields m lib _).2.2.1,
        (update_voice_metrics_fields m lib _).2.2.2.1,
        (update_voice_metrics_fields m lib _).2.2.2.2.1]
      exact ⟨trivial, trivial, fun st h => Or.inl h⟩

/-- A loop pass that finds a voice frame and a BGM frame. -/
theorem worker_both (m : LibM) (lib : Ebur128Lib) (ok_voice ok_mix : Bool)
    (a : LoudnessAnalyzer) (fv fb : AudioFrame) (fvs fbs : List AudioFrame)
    (hr : a.running_ = true) (hv : a.voice_queue_.Holds (fv :: fvs))
    (hb : a.bgm_queue_.Holds (fb :: fbs)) :
    ∃ qv qb, qv.Holds fvs ∧ qb.Holds fbs ∧
      a.worker_loop_iteration m lib ok_voice ok_mix =
        (process_bgm m lib
          (process_voice m lib ok_voice ok_mix
            { a with voice_queue_ := qv, bgm_queue_ := qb } fv) fb).update_judgments := by
  obtain ⟨p1, p2, p3⟩ := SPSCQueue.holds_pop a.voice_queue_ fv fvs ({} : AudioFrame) hv
  obtain ⟨b1, b2, b3⟩ := SPSCQueue.holds_pop a.bgm_queue_ fb fbs ({} : AudioFrame) hb
  refine ⟨(a.voice_queue_.try_pop ({} : AudioFrame)).2.1,
    (a.bgm_queue_.try_pop ({} : AudioFrame)).2.1, p3, b3, ?_⟩
  simp only [worker_loop_iteration, hr, p1, p2, b1, b2]
  simp

end LoudnessAnalyzer

namespace LoudnessAnalyzer

/-- One valid voice push followed by one valid BGM push: the two queues receive
the frames and the worker-owned fields are untouched. -/
theorem push_both_fields (a : LoudnessAnalyzer) (xs ys : List ℚ) (n k : Nat)
    (hn1 : 1 ≤ n) (hn2 : n ≤ 4096) (hk1 : 1 ≤ k) (hk2 : k ≤ 4096) :
    ((a.push_voice_frame (some xs) n).push_bgm_frame (some ys) k).running_ = a.running_ ∧
      ((a.push_voice_frame (some xs) n).push_bgm_frame (some ys) k).voice_queue_ =
        (a.voice_queue_.try_push
          { samples := xs.take n, frame_count := n, source_type := .Voice }).2 ∧
      ((a.push_voice_frame (some xs) n).push_bgm_frame (some ys) k).bgm_queue_ =
        (a.bgm_queue_.try_push
          { samples := ys.take k, frame_count := k, source_type := .BGM }).2 ∧
      ((a.push_voice_frame (some xs) n).push_bgm_frame (some ys) k).vad_ = a.vad_ ∧
      ((a.push_voice_frame (some xs) n).push_bgm_frame (some ys) k).voice_state_ =
        a.voice_state_ ∧
      ((a.push_voice_frame (some xs) n).push_bgm_frame (some ys) k).bgm_state_ =
        a.bgm_state_ ∧
      ((a.push_voice_frame (some xs) n).push_bgm_frame (some ys) k).mix_state_ =
        a.mix_state_ ∧
      ((a.push_voice_frame (some xs) n).push_bgm_frame (some ys) k).last_bgm_samples_ =
        a.last_bgm_samples_ ∧
      ((a.push_voice_frame (some xs) n).push_bgm_frame (some ys) k).last_bgm_frame_count_ =
        a.last_bgm_frame_count_ := by
  rw [push_bgm_frame_valid _ _ _ hk1 hk2, push_voice_frame_valid _ _ _ hn1 hn2]
  exact ⟨rfl, rfl, rfl, rfl, rfl, rfl, rfl, rfl, rfl⟩

end LoudnessAnalyzer

/-- C24: a loop pass that pops both a voice frame and a BGM frame runs
`process_voice` on the voice frame, then `process_bgm` on the BGM frame, then
the judgments. The mix block of that pass is therefore built from the BGM block
retained before the pass (`last_bgm_samples_` of the state the pass starts
from), not from the BGM frame popped in the same pass, which is only retained
for later passes; and if nothing had been retained before the pass, the pass
produces no mix block (mix buffer and mix peak unchanged, no samples fed to the
mix integrator) although it pops a BGM frame. -/
theorem worker_voice_before_bgm (m : LibM) (lib : Ebur128Lib) (ok_voice ok_mix : Bool)
    (a : LoudnessAnalyzer) (fv fb : AudioFrame) (fvs fbs : List AudioFrame)
    (hr : a.running_ = true) (hv : a.voice_queue_.Holds (fv :: fvs))
    (hb : a.bgm_queue_.Holds (fb :: fbs)) :
    (∃ qv qb, qv.Holds fvs ∧ qb.Holds fbs ∧
      a.worker_loop_iteration m lib ok_voice ok_mix =
        (LoudnessAnalyzer.process_bgm m lib
          (LoudnessAnalyzer.process_voice m lib ok_voice ok_mix
            { a with voice_queue_ := qv, bgm_queue_ := qb } fv) fb).update_judgments) ∧
      ((a.vad_.update m (some fv.samples) fv.frame_count).1 = true →
        0 < a.last_bgm_frame_count_ →
        ∀ vst mst, a.voice_state_ = some vst → a.mix_state_ = some mst →
          (a.worker_loop_iteration m lib ok_voice ok_mix).mix_buffer_ =
              (List.range (min fv.frame_count a.last_bgm_frame_count_)).map
                (fun i => fv.samples.getD i 0 + a.last_bgm_samples_.getD i 0) ∧
            (a.worker_loop_iteration m lib ok_voice ok_mix).mix_state_ =
              some (ebur128_add_frames_float mst
                ((List.range (min fv.frame_count a.last_bgm_frame_count_)).map
                  (fun i => fv.samples.getD i 0 + a.last_bgm_samples_.getD i 0))
                (min fv.frame_count a.last_bgm_frame_count_))) ∧
      (a.last_bgm_frame_count_ = 0 →
        (a.worker_loop_iteration m lib ok_voice ok_mix).mix_buffer_ = a.mix_buffer_ ∧
          (a.worker_loop_iteration m lib ok_voice ok_mix).mix_peak_ = a.mix_peak_ ∧
          (∀ st, (a.worker_loop_iteration m lib ok_voice ok_mix).mix_state_ = some st →
            a.mix_state_ = some st ∨ st.audio = [])) ∧
      (a.bgm_state_ ≠ none →
        (a.worker_loop_iteration m lib ok_voice ok_mix).last_bgm_frame_count_ =
            fb.frame_count ∧
          (a.worker_loop_iteration m lib ok_voice ok_mix).last_bgm_samples_ =
            fb.samples.take fb.frame_count) := by
  obtain ⟨qv, qb, hqv, hqb, e⟩ :=
    LoudnessAnalyzer.worker_both m lib ok_voice ok_mix a fv fb fvs fbs hr hv hb
  have hpb := LoudnessAnalyzer.process_bgm_frame m lib
    (LoudnessAnalyzer.process_voice m lib ok_voice ok_mix
      { a with voice_queue_ := qv, bgm_queue_ := qb } fv) fb
  have hkb := LoudnessAnalyzer.process_voice_keeps_bgm m lib ok_voice ok_mix
    { a with voice_queue_ := qv, bgm_queue_ := qb } fv
  have e1 : (a.worker_loop_iteration m lib ok_voice ok_mix).mix_buffer_ =
      (LoudnessAnalyzer.process_voice m lib ok_voice ok_mix
        { a with voice_queue_ := qv, bgm_queue_ := qb } fv).mix_buffer_ := by
    rw [e]; exact hpb.2.2.1
  have e2 : (a.worker_loop_iteration m lib ok_voice ok_mix).mix_state_ =
      (LoudnessAnalyzer.process_voice m lib ok_voice ok_mix
        { a with voice_queue_ := qv, bgm_queue_ := qb } fv).mix_state_ := by
    rw [e]; exact hpb.2.1
  have e3 : (a.worker_loop_iteration m lib ok_voice ok_mix).mix_peak_ =
      (LoudnessAnalyzer.process_voice m lib ok_voice ok_mix
        { a with voice_queue_ := qv, bgm_queue_ := qb } fv).mix_peak_ := by
    rw [e]; exact hpb.2.2.2.1
  refine ⟨⟨qv, qb, hqv, hqb, e⟩, fun hu hl vst mst hvs hms => ?_, fun hl => ?_, fun hbs => ?_⟩
  · rw [e1, e2, LoudnessAnalyzer.process_voice_active_mix m lib ok_voice ok_mix
      { a with voice_queue_ := qv, bgm_queue_ := qb } fv vst mst hu hvs hms hl]
    simp only [(LoudnessAnalyzer.update_mix_metrics_fields m lib _).2.2.1,
      (LoudnessAnalyzer.update_mix_metrics_fields m lib _).2.2.2.1]
    exact ⟨trivial, trivial⟩
  · rw [e1, e2, e3]
    exact LoudnessAnalyzer.process_voice_nothing_retained m lib ok_voice ok_mix
      { a with voice_queue_ := qv, bgm_queue_ := qb } fv hl
  · have hne : (LoudnessAnalyzer.process_voice m lib ok_voice ok_mix
        { a with voice_queue_ := qv, bgm_queue_ := qb } fv).bgm_state_ ≠ none := by
      rw [hkb.1]; exact hbs
    rw [e]
    exact hpb.2.2.2.2 hne

/-- Witness for C24: a running analyzer with an active detector and the
retained BGM block `[1/4]` receives the voice frame `[1]` and the BGM frame
`[1/2]`; the pass that pops both builds the mix block `[5/4]` from the retained
block and afterwards retains `[1/2]`. -/
theorem worker_voice_before_bgm_witness :
    (LoudnessAnalyzer.push_bgm_frame
          (LoudnessAnalyzer.push_voice_frame
            midRunAnalyzer
            (some [1]) 1)
          (some [1 / 2]) 1).running_ = true ∧
      (LoudnessAnalyzer.push_bgm_frame
          (LoudnessAnalyzer.push_voice_frame
            midRunAnalyzer
            (some [1]) 1)
          (some [1 / 2]) 1).voice_queue_.Holds
        [{ samples := [1], frame_count := 1, source_type := .Voice }] ∧
      (LoudnessAnalyzer.push_bgm_frame
          (LoudnessAnalyzer.push_voice_frame
            midRunAnalyzer
            (some [1]) 1)
          (some [1 / 2]) 1).bgm_queue_.Holds
        [{ samples := [1 / 2], frame_count := 1, source_type := .BGM }] ∧
      (LoudnessAnalyzer.worker_loop_iteration tableLibM noResultLib true true
        (LoudnessAnalyzer.push_bgm_frame
          (LoudnessAnalyzer.push_voice_frame
            midRunAnalyzer
            (some [1]) 1)
          (some [1 / 2]) 1)).mix_buffer_ = [5 / 4] ∧
      (LoudnessAnalyzer.worker_loop_iteration tableLibM noResultLib true true
        (LoudnessAnalyzer.push_bgm_frame
          (LoudnessAnalyzer.push_voice_frame
            midRunAnalyzer
            (some [1]) 1)
          (some [1 / 2]) 1)).last_bgm_samples_ = [1 / 2] := by
  have hq0 : midRunAnalyzer.voice_queue_.Holds [] :=
    (SPSCQueue.holds_nil_iff _ LoudnessAnalyzer.new_voice_queue_wf.1).mpr
      LoudnessAnalyzer.new_voice_queue_wf.2.symm
  have hq1 : midRunAnalyzer.bgm_queue_.Holds [] :=
    (SPSCQueue.holds_nil_iff _ LoudnessAnalyzer.new_bgm_queue_wf.1).mpr
      LoudnessAnalyzer.new_bgm_queue_wf.2.symm
  obtain ⟨f1, f2, f3, f4, f5, f6, f7, f8, f9⟩ :=
    LoudnessAnalyzer.push_both_fields midRunAnalyzer [1] [1 / 2] 1 1 (le_refl 1)
      (by norm_num) (le_refl 1) (by norm_num)
  have hr : (LoudnessAnalyzer.push_bgm_frame
          (LoudnessAnalyzer.push_voice_frame
            midRunAnalyzer
            (some [1]) 1)
          (some [1 / 2]) 1).running_ = true := by
    rw [f1]; rfl
  have hv : (LoudnessAnalyzer.push_bgm_frame
          (LoudnessAnalyzer.push_voice_frame
            midRunAnalyzer
            (some [1]) 1)
          (some [1 / 2]) 1).voice_queue_.Holds
      [{ samples := [1], frame_count := 1, source_type := .Voice }] := by
    rw [f2]
    exact (SPSCQueue.holds_push _ [] _ hq0 (by decide)).2
  have hb : (LoudnessAnalyzer.push_bgm_frame
          (LoudnessAnalyzer.push_voice_frame
            midRunAnalyzer
            (some [1]) 1)
          (some [1 / 2]) 1).bgm_queue_.Holds
      [{ samples := [1 / 2], frame_count := 1, source_type := .BGM }] := by
    rw [f3]
    exact (SPSCQueue.holds_push _ [] _ hq1 (by decide)).2
  have h := worker_voice_before_bgm tableLibM noResultLib true true _ _ _ [] [] hr hv hb
  have hu : (VoiceActivityDetector.update tableLibM
      { attack_samples_ := 7200, release_samples_ := 28800, is_active_ := true }
      (some [1]) 1).1 = true := by
    rw [unit_frame_active _ [1] 1 (by decide)
      (fun i hi => by interval_cases i; simp) rfl (by norm_num)]
  refine ⟨hr, hv, hb, ?_, ?_⟩
  · have h2 := (h.2.1 (by rw [f4]; exact hu) (by rw [f9]; decide)
      ⟨48000, some EBUR128_CENTER, []⟩ ⟨48000, some EBUR128_CENTER, []⟩
      (by rw [f5]; rfl) (by rw [f7]; rfl)).1
    have e1 : midRunAnalyzer.last_bgm_frame_count_ = 1 := rfl
    have e2 : midRunAnalyzer.last_bgm_samples_ = [1 / 4] := rfl
    rw [h2, f8, f9, e1, e2]
    simp [List.range_succ]
    norm_num
  · have e3 : midRunAnalyzer.bgm_state_ = some ⟨48000, some EBUR128_CENTER, [1 / 4]⟩ := rfl
    have h3 := (h.2.2.2 (by rw [f6, e3]; simp)).2
    rw [h3]
    rfl

/-! ## Analyzer: a push into a full queue -/

namespace LoudnessAnalyzer

theorem push_voice_frame_full (a : LoudnessAnalyzer) (xs : List ℚ) (n : Nat)
    (h1 : 1 ≤ n) (h2 : n ≤ 4096)
    (hfull : (a.voice_queue_.head_ + 1) % 256 = a.voice_queue_.tail_) :
    a.push_voice_frame (some xs) n = { a with voice_peak_ := block_peak xs n } := by
  rw [push_voice_frame_valid a xs n h1 h2]
  have h : a.voice_queue_.try_push
      { samples := xs.take n, frame_count := n, source_type := .Voice } =
      (false, a.voice_queue_) := by
    simp [SPSCQueue.try_push, hfull]
  rw [h]

theorem push_bgm_frame_full (a : LoudnessAnalyzer) (xs : List ℚ) (n : Nat)
    (h1 : 1 ≤ n) (h2 : n ≤ 4096)
    (hfull : (a.bgm_queue_.head_ + 1) % 256 = a.bgm_queue_.tail_) :
    a.push_bgm_frame (some xs) n = { a with bgm_peak_ := block_peak xs n } := by
  rw [push_bgm_frame_valid a xs n h1 h2]
  have h : a.bgm_queue_.try_push
      { samples := xs.take n, frame_count := n, source_type := .BGM } =
      (false, a.bgm_queue_) := by
    simp [SPSCQueue.try_push, hfull]
  rw [h]

/-- On an active frame with a voice integrator, `process_voice` publishes the
stored voice peak, whichever frame it was computed from. -/
theorem process_voice_active_peak (m : LibM) (lib : Ebur128Lib) (ok_voice ok_mix : Bool)
    (a : LoudnessAnalyzer) (frame : AudioFrame) (vst : Ebur128State)
    (hu : (a.vad_.update m (some frame.samples) frame.frame_count).1 = true)
    (hv : a.voice_state_ = some vst) :
    (a.process_voice m lib ok_voice ok_mix frame).results_.voice_peak_dbfs =
      peak_to_dbfs m a.voice_peak_ := by
  by_cases hb : a.mix_state_ = none ∨ a.last_bgm_frame_count_ = 0
  · rw [process_voice_active_no_mix m lib ok_voice ok_mix a frame vst hu hv hb]
    exact (update_voice_metrics_fields m lib _).2.2.2.2.2.2.2.2.2 (by simp)
  · push_neg at hb
    obtain ⟨mst, hm⟩ := Option.ne_none_iff_exists'.mp hb.1
    rw [process_voice_active_mix m lib ok_voice ok_mix a frame vst mst hu hv hm
      (Nat.pos_of_ne_zero hb.2), (update_mix_metrics_fields m lib _).2.2.2.2.2]
    exact (update_voice_metrics_fields m lib _).2.2.2.2.2.2.2.2.2 (by simp)

theorem update_judgments_peaks (a : LoudnessAnalyzer) :
    a.update_judgments.results_.voice_peak_dbfs = a.results_.voice_peak_dbfs ∧
      a.update_judgments.results_.bgm_peak_dbfs = a.results_.bgm_peak_dbfs := by
  simp only [update_judgments, update_clip_judgment]
  rw [(update_mix_judgment_keeps _ _).2.1, (update_balance_judgment_keeps _ _).2.1,
    (update_mix_judgment_keeps _ _).2.2.1, (update_balance_judgment_keeps _ _).2.2.1]
  exact ⟨rfl, rfl⟩

end LoudnessAnalyzer

theorem fullQueueAnalyzer_holds :
    fullQueueAnalyzer.voice_queue_.Holds
        (({ samples := [1], frame_count := 1 } : AudioFrame) ::
          List.replicate 254 { samples := [1], frame_count := 1 }) ∧
      fullQueueAnalyzer.bgm_queue_.Holds [] := by
  refine ⟨?_, (SPSCQueue.holds_nil_iff _ LoudnessAnalyzer.new_bgm_queue_wf.1).mpr
    LoudnessAnalyzer.new_bgm_queue_wf.2.symm⟩
  have hq : fullQueueAnalyzer.voice_queue_ =
      ⟨List.replicate 256 { samples := [1], frame_count := 1 }, 255, 0⟩ := rfl
  rw [hq, ← List.replicate_succ]
  refine ⟨⟨List.length_replicate _ _, by norm_num, by norm_num⟩, ?_, ?_, ?_⟩
  · rw [List.length_replicate]; norm_num
  · rw [List.length_replicate]
    show 255 = (0 + (254 + 1)) % 256
    norm_num
  · intro i hi
    rw [List.length_replicate] at hi
    have hi' : (0 + i) % 256 = i := by omega
    simp only [hi']
    rw [List.getElem?_replicate, List.getElem?_replicate]
    simp only [show i < 256 by omega, hi, if_true]

namespace LoudnessAnalyzer

theorem update_bgm_metrics_peak (m : LibM) (lib : Ebur128Lib) (a : LoudnessAnalyzer)
    (st : Ebur128State) (h : a.bgm_state_ = some st) :
    (a.update_bgm_metrics m lib).results_.bgm_peak_dbfs = peak_to_dbfs m a.bgm_peak_ ∧
      (a.update_bgm_metrics m lib).bgm_queue_ = a.bgm_queue_ := by
  cases h2 : lib.loudness_shortterm st <;> simp [update_bgm_metrics, h, h2]

/-- With a BGM integrator, `process_bgm` publishes the stored BGM peak,
whichever frame it was computed from. -/
theorem process_bgm_peak (m : LibM) (lib : Ebur128Lib) (a : LoudnessAnalyzer)
    (frame : AudioFrame) (bst : Ebur128State) (h : a.bgm_state_ = some bst) :
    (a.process_bgm m lib frame).results_.bgm_peak_dbfs = peak_to_dbfs m a.bgm_peak_ ∧
      (a.process_bgm m lib frame).bgm_queue_ = a.bgm_queue_ := by
  simp only [process_bgm, h]
  exact update_bgm_metrics_peak m lib _ _ rfl

/-- A loop pass that finds a BGM frame and no voice frame. -/
theorem worker_bgm_only (m : LibM) (lib : Ebur128Lib) (ok_voice ok_mix : Bool)
    (a : LoudnessAnalyzer) (f : AudioFrame) (fs : List AudioFrame)
    (hr : a.running_ = true) (hv : a.voice_queue_.Holds [])
    (hb : a.bgm_queue_.Holds (f :: fs)) :
    ∃ q', q'.Holds fs ∧
      a.worker_loop_iteration m lib ok_voice ok_mix =
        (process_bgm m lib { a with bgm_queue_ := q' } f).update_judgments := by
  obtain ⟨p1, p2, p3⟩ := SPSCQueue.holds_pop a.bgm_queue_ f fs ({} : AudioFrame) hb
  have he : a.voice_queue_.tail_ = a.voice_queue_.head_ :=
    (SPSCQueue.holds_empty_iff a.voice_queue_ [] hv).mpr rfl
  refine ⟨(a.bgm_queue_.try_pop ({} : AudioFrame)).2.1, p3, ?_⟩
  have hvp : a.voice_queue_.try_pop ({} : AudioFrame) = (false, a.voice_queue_, {}) := by
    simp [SPSCQueue.try_pop, he]
  simp only [worker_loop_iteration, hr, hvp, p1, p2]
  simp

/-- A loop pass that processes an active voice frame publishes the stored
voice peak. -/
theorem worker_voice_only_peak (m : LibM) (lib : Ebur128Lib) (ok_voice ok_mix : Bool)
    (a : LoudnessAnalyzer) (f : AudioFrame) (fs : List AudioFrame) (vst : Ebur128State)
    (hr : a.running_ = true) (hv : a.voice_queue_.Holds (f :: fs))
    (hb : a.bgm_queue_.Holds [])
    (hu : (a.vad_.update m (some f.samples) f.frame_count).1 = true)
    (hvs : a.voice_state_ = some vst) :
    (a.worker_loop_iteration m lib ok_voice ok_mix).voice_queue_.Holds fs ∧
      (a.worker_loop_iteration m lib ok_voice ok_mix).results_.voice_peak_dbfs =
        peak_to_dbfs m a.voice_peak_ := by
  obtain ⟨q', hq', e⟩ := worker_voice_only m lib ok_voice ok_mix a f fs hr hv hb
  rw [e]
  constructor
  · rw [(update_judgments_keeps _).2.2.1,
      (process_voice_keeps_bgm m lib ok_voice ok_mix { a with voice_queue_ := q' } f).2.2.2.1]
    exact hq'
  · rw [(update_judgments_peaks _).1,
      process_voice_active_peak m lib ok_voice ok_mix { a with voice_queue_ := q' } f vst
        hu hvs]

/-- A loop pass that processes a BGM frame publishes the stored BGM peak. -/
theorem worker_bgm_only_peak (m : LibM) (lib : Ebur128Lib) (ok_voice ok_mix : Bool)
    (a : LoudnessAnalyzer) (f : AudioFrame) (fs : List AudioFrame) (bst : Ebur128State)
    (hr : a.running_ = true) (hv : a.voice_queue_.Holds [])
    (hb : a.bgm_queue_.Holds (f :: fs)) (hbs : a.bgm_state_ = some bst) :
    (a.worker_loop_iteration m lib ok_voice ok_mix).bgm_queue_.Holds fs ∧
      (a.worker_loop_iteration m lib ok_voice ok_mix).results_.bgm_peak_dbfs =
        peak_to_dbfs m a.bgm_peak_ := by
  obtain ⟨q', hq', e⟩ := worker_bgm_only m lib ok_voice ok_mix a f fs hr hv hb
  have hp := process_bgm_peak m lib { a with bgm_queue_ := q' } f bst hbs
  rw [e]
  constructor
  · rw [(update_judgments_keeps _).2.2.2.1, hp.2]
    exact hq'
  · rw [(update_judgments_peaks _).2, hp.1]

end LoudnessAnalyzer

/-- C26: for a valid block (non-null, `1 <= count <= 4096`), `push_voice_frame`
and `push_bgm_frame` overwrite the stream's stored linear peak with the
greatest absolute sample of that block. When the stream's queue is full, that
is the only effect: the frame is dropped and the queue is unchanged. A later
loop pass that processes the frame at the front of the full queue then
publishes, as the stream's peak, the peak of the dropped block, a frame that
was never enqueued, while the frames still waiting are those enqueued before
it. -/
theorem push_full_overwrites_peak (m : LibM) (lib : Ebur128Lib) (ok_voice ok_mix : Bool)
    (a : LoudnessAnalyzer) (xs : List ℚ) (n : Nat) (h1 : 1 ≤ n) (h2 : n ≤ 4096) :
    ((a.push_voice_frame (some xs) n).voice_peak_ = block_peak xs n ∧
        (a.push_bgm_frame (some xs) n).bgm_peak_ = block_peak xs n) ∧
      ((∀ i, i < n → |xs.getD i 0| ≤ block_peak xs n) ∧
        ∃ i, i < n ∧ |xs.getD i 0| = block_peak xs n) ∧
      ((a.voice_queue_.head_ + 1) % 256 = a.voice_queue_.tail_ →
        a.push_voice_frame (some xs) n = { a with voice_peak_ := block_peak xs n }) ∧
      ((a.bgm_queue_.head_ + 1) % 256 = a.bgm_queue_.tail_ →
        a.push_bgm_frame (some xs) n = { a with bgm_peak_ := block_peak xs n }) ∧
      (∀ (f : AudioFrame) (fs : List AudioFrame) (vst : Ebur128State),
        a.running_ = true → a.voice_queue_.Holds (f :: fs) → fs.length + 2 = 256 →
        a.bgm_queue_.Holds [] →
        (a.vad_.update m (some f.samples) f.frame_count).1 = true →
        a.voice_state_ = some vst →
          ((a.push_voice_frame (some xs) n).worker_loop_iteration m lib ok_voice
              ok_mix).voice_queue_.Holds fs ∧
            ((a.push_voice_frame (some xs) n).worker_loop_iteration m lib ok_voice
              ok_mix).results_.voice_peak_dbfs = LoudnessAnalyzer.peak_to_dbfs m (block_peak xs n)) ∧
      (∀ (f : AudioFrame) (fs : List AudioFrame) (bst : Ebur128State),
        a.running_ = true → a.bgm_queue_.Holds (f :: fs) → fs.length + 2 = 256 →
        a.voice_queue_.Holds [] → a.bgm_state_ = some bst →
          ((a.push_bgm_frame (some xs) n).worker_loop_iteration m lib ok_voice
              ok_mix).bgm_queue_.Holds fs ∧
            ((a.push_bgm_frame (some xs) n).worker_loop_iteration m lib ok_voice
              ok_mix).results_.bgm_peak_dbfs = LoudnessAnalyzer.peak_to_dbfs m (block_peak xs n)) := by
  refine ⟨⟨?_, ?_⟩, ⟨block_peak_ge xs n, block_peak_attained xs n (by omega)⟩,
    LoudnessAnalyzer.push_voice_frame_full a xs n h1 h2,
    LoudnessAnalyzer.push_bgm_frame_full a xs n h1 h2, ?_, ?_⟩
  · rw [LoudnessAnalyzer.push_voice_frame_valid a xs n h1 h2]
  · rw [LoudnessAnalyzer.push_bgm_frame_valid a xs n h1 h2]
  · intro f fs vst hr hv hlen hb hu hvs
    have hfull : (a.voice_queue_.head_ + 1) % 256 = a.voice_queue_.tail_ :=
      (SPSCQueue.holds_full_iff a.voice_queue_ (f :: fs) hv).mpr (by
        rw [List.length_cons]; omega)
    rw [LoudnessAnalyzer.push_voice_frame_full a xs n h1 h2 hfull]
    exact LoudnessAnalyzer.worker_voice_only_peak m lib ok_voice ok_mix
      { a with voice_peak_ := block_peak xs n } f fs vst hr hv hb hu hvs
  · intro f fs bst hr hb hlen hv hbs
    have hfull : (a.bgm_queue_.head_ + 1) % 256 = a.bgm_queue_.tail_ :=
      (SPSCQueue.holds_full_iff a.bgm_queue_ (f :: fs) hb).mpr (by
        rw [List.length_cons]; omega)
    rw [LoudnessAnalyzer.push_bgm_frame_full a xs n h1 h2 hfull]
    exact LoudnessAnalyzer.worker_bgm_only_peak m lib ok_voice ok_mix
      { a with bgm_peak_ := block_peak xs n } f fs bst hr hv hb hbs

/-- Witness for C26: the voice queue holds 255 frames `[1]` (peak 1, 0 dBFS);
the block `[10]` is pushed and dropped, the stored peak becomes 10, and the
next loop pass, which processes a frame `[1]`, publishes a voice peak of
20 dBFS. -/
theorem push_full_overwrites_peak_witness :
    (fullQueueAnalyzer.push_voice_frame (some [10]) 1).voice_queue_ =
        fullQueueAnalyzer.voice_queue_ ∧
      (fullQueueAnalyzer.push_voice_frame (some [10]) 1).voice_peak_ = 10 ∧
      (LoudnessAnalyzer.worker_loop_iteration tableLibM noResultLib true true
        (fullQueueAnalyzer.push_voice_frame (some [10]) 1)).voice_queue_.Holds
        (List.replicate 254 { samples := [1], frame_count := 1 }) ∧
      (LoudnessAnalyzer.worker_loop_iteration tableLibM noResultLib true true
        (fullQueueAnalyzer.push_voice_frame (some [10]) 1)).results_.voice_peak_dbfs =
        .fin 20 := by
  have h := push_full_overwrites_peak tableLibM noResultLib true true fullQueueAnalyzer
    [10] 1 (le_refl 1) (by norm_num)
  have hpk : block_peak [10] 1 = 10 := by
    simp [block_peak, List.range_succ]
  have hdb : LoudnessAnalyzer.peak_to_dbfs tableLibM 10 = .fin 20 := by
    simp [LoudnessAnalyzer.peak_to_dbfs, tableLibM]
  have hu : (fullQueueAnalyzer.vad_.update tableLibM (some [1]) 1).1 = true := by
    rw [unit_frame_active _ [1] 1 (by decide)
      (fun i hi => by interval_cases i; simp) rfl
      (show (-40 : ℚ) ≤ 0 by norm_num)]
  have h5 := h.2.2.2.2.1 { samples := [1], frame_count := 1 }
    (List.replicate 254 { samples := [1], frame_count := 1 })
    ⟨48000, some EBUR128_CENTER, []⟩ rfl fullQueueAnalyzer_holds.1
    (by rw [List.length_replicate]) fullQueueAnalyzer_holds.2 hu rfl
  refine ⟨?_, ?_, h5.1, ?_⟩
  · rw [h.2.2.1 rfl]
  · rw [h.1.1, hpk]
  · rw [h5.2, hpk, hdb]

/-! ## Double arithmetic with rounding: the judgments -/

theorem roundHalfEven_eq (q : ℚ) (m : ℤ) (h : |q - m| < 1 / 2) : roundHalfEven q = m := by
  rw [abs_lt] at h
  unfold roundHalfEven
  by_cases hq : (m : ℚ) ≤ q
  · have hf : ⌊q⌋ = m := Int.floor_eq_iff.mpr ⟨hq, by linarith⟩
    simp only [hf]
    rw [if_pos (by linarith)]
  · push_neg at hq
    have hf : ⌊q⌋ = m - 1 := Int.floor_eq_iff.mpr ⟨by push_cast; linarith, by push_cast; linarith⟩
    simp only [hf]
    push_cast
    rw [if_neg (by linarith), if_pos (by linarith)]
    ring

theorem roundHalfEven_intCast (n : ℤ) : roundHalfEven n = n :=
  roundHalfEven_eq n n (by simp)

theorem roundHalfEven_bounds (q : ℚ) : ⌊q⌋ ≤ roundHalfEven q ∧ roundHalfEven q ≤ ⌊q⌋ + 1 := by
  unfold roundHalfEven
  simp only
  split_ifs <;> omega

theorem roundHalfEven_mono : Monotone roundHalfEven := by
  intro x y hxy
  have hf : ⌊x⌋ ≤ ⌊y⌋ := Int.floor_mono hxy
  rcases lt_or_eq_of_le hf with hlt | heq
  · have h1 := (roundHalfEven_bounds x).2
    have h2 := (roundHalfEven_bounds y).1
    omega
  · unfold roundHalfEven
    simp only [heq]
    split_ifs <;> first | omega | (exfalso; linarith)

theorem roundHalfEven_neg (q : ℚ) : roundHalfEven (-q) = -roundHalfEven q := by
  by_cases hq : (⌊q⌋ : ℚ) = q
  · rw [← hq, ← Int.cast_neg, roundHalfEven_intCast, roundHalfEven_intCast]
  · have h1 : (⌊q⌋ : ℚ) < q := lt_of_le_of_ne (Int.floor_le q) hq
    have h2 : q < ⌊q⌋ + 1 := Int.lt_floor_add_one q
    have hf : ⌊-q⌋ = -⌊q⌋ - 1 :=
      Int.floor_eq_iff.mpr ⟨by push_cast; linarith, by push_cast; linarith⟩
    unfold roundHalfEven
    simp only [hf]
    push_cast
    split_ifs <;> first | omega | (exfalso; linarith)


theorem binade_eq (x : ℚ) (e : ℤ) (he : -1022 ≤ e) (hlo : (2 : ℚ) ^ e ≤ |x|)
    (hhi : |x| < (2 : ℚ) ^ (e + 1)) : binade x = e := by
  have hpos : (0 : ℚ) < |x| := lt_of_lt_of_le (zpow_pos (by norm_num) e) hlo
  have h1 : e ≤ Int.log 2 |x| :=
    (Int.zpow_le_iff_le_log (by norm_num) hpos).mp (by exact_mod_cast hlo)
  have h2 : Int.log 2 |x| < e + 1 :=
    (Int.lt_zpow_iff_log_lt (by norm_num) hpos).mp (by exact_mod_cast hhi)
  unfold binade
  omega

theorem fl64_eq (x : ℚ) (e m : ℤ) (he : -1022 ≤ e) (hlo : (2 : ℚ) ^ e ≤ |x|)
    (hhi : |x| < (2 : ℚ) ^ (e + 1)) (hm : |x / 2 ^ (e - 52) - m| < 1 / 2) :
    fl64 x = m * 2 ^ (e - 52) := by
  unfold fl64
  simp only [binade_eq x e he hlo hhi]
  rw [roundHalfEven_eq _ m hm]

theorem binade_neg (x : ℚ) : binade (-x) = binade x := by
  unfold binade
  rw [abs_neg]

theorem fl64_neg (x : ℚ) : fl64 (-x) = -fl64 x := by
  unfold fl64
  simp only [binade_neg, neg_div, roundHalfEven_neg]
  push_cast
  ring

theorem fl64_nonneg (x : ℚ) (hx : 0 ≤ x) : 0 ≤ fl64 x := by
  unfold fl64
  have hu : (0 : ℚ) < 2 ^ (binade x - 52) := zpow_pos (by norm_num) _
  have h0 : roundHalfEven 0 ≤ roundHalfEven (x / 2 ^ (binade x - 52)) :=
    roundHalfEven_mono (div_nonneg hx hu.le)
  have h00 : roundHalfEven 0 = 0 := by
    have := roundHalfEven_intCast 0
    simpa using this
  rw [h00] at h0
  exact mul_nonneg (by exact_mod_cast h0) hu.le

theorem abs_lt_binade (x : ℚ) : |x| < (2 : ℚ) ^ (binade x + 1) := by
  have h := Int.lt_zpow_succ_log_self (b := 2) (by norm_num) |x|
  have h2 : ((2 : ℕ) : ℚ) ^ (Int.log 2 |x| + 1) ≤ (2 : ℚ) ^ (binade x + 1) := by
    push_cast
    exact zpow_le_zpow_right₀ (by norm_num) (by unfold binade; omega)
  exact lt_of_lt_of_le h h2

theorem binade_le_abs (x : ℚ) (hx : 0 < |x|) (hb : -1022 < binade x) :
    (2 : ℚ) ^ binade x ≤ |x| := by
  have h := Int.zpow_log_le_self (b := 2) (by norm_num) hx
  have he : binade x = Int.log 2 |x| := by
    unfold binade at hb ⊢
    omega
  rw [he]
  exact_mod_cast h

theorem binade_mono (x y : ℚ) (hx : 0 < |x|) (h : |x| ≤ |y|) : binade x ≤ binade y := by
  unfold binade
  exact max_le_max (Int.log_mono_right hx h) (le_refl _)

theorem fl64_zero : fl64 0 = 0 := by
  have h := fl64_nonneg 0 (le_refl 0)
  have h2 := fl64_nonneg (-0) (by norm_num)
  rw [fl64_neg] at h2
  linarith

theorem fl64_mono_nonneg (x y : ℚ) (hx : 0 ≤ x) (hxy : x ≤ y) : fl64 x ≤ fl64 y := by
  rcases eq_or_lt_of_le hx with h0 | hpos
  · rw [← h0, fl64_zero]
    exact fl64_nonneg y (le_trans hx hxy)
  · have hy : 0 < y := lt_of_lt_of_le hpos hxy
    have hax : |x| = x := abs_of_pos hpos
    have hay : |y| = y := abs_of_pos hy
    have hbe : binade x ≤ binade y :=
      binade_mono x y (by rw [hax]; exact hpos) (by rw [hax, hay]; exact hxy)
    have hux : (0 : ℚ) < 2 ^ (binade x - 52) := zpow_pos (by norm_num) _
    have huy : (0 : ℚ) < 2 ^ (binade y - 52) := zpow_pos (by norm_num) _
    rcases eq_or_lt_of_le hbe with heq | hlt
    · unfold fl64
      simp only [← heq]
      have hq : x / 2 ^ (binade x - 52) ≤ y / 2 ^ (binade x - 52) :=
        div_le_div_of_nonneg_right hxy hux.le
      have := roundHalfEven_mono hq
      exact mul_le_mul_of_nonneg_right (by exact_mod_cast this) hux.le
    · -- x < 2^(bx+1) ≤ 2^by ≤ y
      have hxlt : x < (2 : ℚ) ^ (binade x + 1) := by
        have := abs_lt_binade x
        rwa [hax] at this
      have hyge : (2 : ℚ) ^ binade y ≤ y := by
        have := binade_le_abs y (by rw [hay]; exact hy) (by unfold binade at hlt ⊢; omega)
        rwa [hay] at this
      have hmid : (2 : ℚ) ^ (binade x + 1) ≤ 2 ^ binade y :=
        zpow_le_zpow_right₀ (by norm_num) (by omega)
      have e1 : (2 : ℚ) ^ (binade x + 1) = ((2 ^ 53 : ℤ) : ℚ) * 2 ^ (binade x - 52) := by
        have h := zpow_add₀ (by norm_num : (2 : ℚ) ≠ 0) (53 : ℤ) (binade x - 52)
        rw [show (53 : ℤ) + (binade x - 52) = binade x + 1 by ring] at h
        rw [h]
        norm_num
      have e2 : (2 : ℚ) ^ binade y = ((2 ^ 52 : ℤ) : ℚ) * 2 ^ (binade y - 52) := by
        have h := zpow_add₀ (by norm_num : (2 : ℚ) ≠ 0) (52 : ℤ) (binade y - 52)
        rw [show (52 : ℤ) + (binade y - 52) = binade y by ring] at h
        rw [h]
        norm_num
      have a1 : fl64 x ≤ (2 : ℚ) ^ (binade x + 1) := by
        unfold fl64
        have hq : x / 2 ^ (binade x - 52) ≤ ((2 ^ 53 : ℤ) : ℚ) := by
          rw [div_le_iff₀ hux, ← e1]
          exact hxlt.le
        have := roundHalfEven_mono hq
        rw [roundHalfEven_intCast] at this
        rw [e1]
        exact mul_le_mul_of_nonneg_right (by exact_mod_cast this) hux.le
      have a2 : (2 : ℚ) ^ binade y ≤ fl64 y := by
        unfold fl64
        have hq : ((2 ^ 52 : ℤ) : ℚ) ≤ y / 2 ^ (binade y - 52) := by
          rw [le_div_iff₀ huy, ← e2]
          exact hyge
        have := roundHalfEven_mono hq
        rw [roundHalfEven_intCast] at this
        rw [e2]
        exact mul_le_mul_of_nonneg_right (by exact_mod_cast this) huy.le
      linarith

theorem fl64_monotone : Monotone fl64 := by
  intro x y hxy
  rcases le_total 0 x with hx | hx
  · exact fl64_mono_nonneg x y hx hxy
  · rcases le_total 0 y with hy | hy
    · have h1 := fl64_nonneg (-x) (by linarith)
      rw [fl64_neg] at h1
      have h2 := fl64_nonneg y hy
      linarith
    · have := fl64_mono_nonneg (-y) (-x) (by linarith) (by linarith)
      rw [fl64_neg, fl64_neg] at this
      linarith

theorem update_balance_judgment_rounded_id (cfg : AnalysisConfig) (r : AnalysisResults) :
    update_balance_judgment_rounded id cfg r = update_balance_judgment cfg r := by
  cases hv : r.voice_lufs with
  | negInf => simp [update_balance_judgment_rounded, update_balance_judgment, hv]
  | fin v =>
    cases hb : r.bgm_lufs <;>
      simp [update_balance_judgment_rounded, update_balance_judgment, hv, hb]

theorem update_mix_judgment_rounded_id (cfg : AnalysisConfig) (r : AnalysisResults) :
    update_mix_judgment_rounded id cfg r = update_mix_judgment cfg r := by
  cases hm : r.mix_lufs <;> simp [update_mix_judgment_rounded, update_mix_judgment, hm]

/-- The balance judgment yields WARN from another status only through its
third test. -/
theorem balance_rounded_warn (fl : ℚ → ℚ) (cfg : AnalysisConfig) (r : AnalysisResults)
    (hw : (update_balance_judgment_rounded fl cfg r).balance_status = .WARN) :
    r.balance_status = .WARN ∨
      ∃ d : ℚ, d < fl (cfg.balance_target - cfg.hysteresis) ∧
        fl (fl (cfg.balance_target - 3) + cfg.hysteresis) ≤ d := by
  cases hv : r.voice_lufs with
  | negInf =>
    left
    simpa [update_balance_judgment_rounded, hv] using hw
  | fin v =>
    cases hb : r.bgm_lufs with
    | negInf =>
      left
      simpa [update_balance_judgment_rounded, hv, hb] using hw
    | fin b =>
      simp only [update_balance_judgment_rounded, hv, hb] at hw
      split_ifs at hw with h1 h2 h3
      · exact Or.inr ⟨fl (v - b), h3.1, h3.2⟩
      · exact Or.inl hw

/-- The mix judgment yields WARN from another status only through its third
test. -/
theorem mix_rounded_warn (fl : ℚ → ℚ) (cfg : AnalysisConfig) (r : AnalysisResults)
    (hw : (update_mix_judgment_rounded fl cfg r).mix_status = .WARN) :
    r.mix_status = .WARN ∨
      ∃ d : ℚ, d < fl (cfg.mix_ok_threshold - cfg.hysteresis) ∧
        fl (cfg.mix_warn_threshold + cfg.hysteresis) ≤ d := by
  cases hm : r.mix_lufs with
  | negInf =>
    left
    simpa [update_mix_judgment_rounded, hm] using hw
  | fin mx =>
    simp only [update_mix_judgment_rounded, hm] at hw
    split_ifs at hw with h1 h2 h3
    · exact Or.inr ⟨mx, h3.1, h3.2⟩
    · exact Or.inl hw

/-- The `double` nearest to 0.3. -/
theorem fl64_three_tenths : fl64 (3 / 10) = 5404319552844595 / 18014398509481984 := by
  rw [fl64_eq (3 / 10) (-2) 5404319552844595 (by norm_num) (by norm_num [abs_of_pos])
    (by norm_num [abs_of_pos]) (by norm_num [abs_lt])]
  norm_num

/-- The `double` nearest to -7.2. -/
theorem fl64_voice_example : fl64 (-36 / 5) = -8106479329266893 / 1125899906842624 := by
  rw [fl64_eq (-36 / 5) 2 (-8106479329266893) (by norm_num) (by norm_num [abs_of_neg])
    (by norm_num [abs_of_neg]) (by norm_num [abs_lt])]
  norm_num

/-- The `double` operation `0.3 - 3.0`: the exact difference is not
representable and rounds down, to the `double` nearest to -2.7. -/
theorem fl64_warn_threshold_example :
    fl64 (5404319552844595 / 18014398509481984 - 3) = -3039929748475085 / 1125899906842624 := by
  rw [fl64_eq _ 1 (-6079859496950170) (by norm_num) (by norm_num [abs_of_neg])
    (by norm_num [abs_of_neg]) (by norm_num [abs_lt])]
  norm_num

/-- C28 (amended): the judgment never newly assigns WARN (a resulting status
WARN means the previous status was WARN) when the hysteresis `h` satisfies
`h >= (ok_thresh - warn_thresh) / 2` for the thresholds as the code holds them,
under any monotone rounding `fl` of the `double` operations.  For the
specification's `classify` and for the mix judgment the thresholds are the
given values.  For the balance judgment the WARN threshold is the rounded
difference `fl (target - 3)`, so the condition is
`h >= (target - fl (target - 3)) / 2`, which `h >= 1.5` does not imply when
`target - 3.0` rounds down.  In every case it is enough that the two bounds of
the WARN test, as computed, leave no gap:
`fl (ok_thresh - h) <= fl (warn_thresh + h)`. -/
theorem judgment_never_new_warn (fl : ℚ → ℚ) (cfg : AnalysisConfig) (r : AnalysisResults)
    (m ok warn h : ℚ) (p : Status) (hfl : Monotone fl) :
    ((ok - warn) / 2 ≤ h → specClassify m ok warn h p = .WARN → p = .WARN) ∧
      ((cfg.mix_ok_threshold - cfg.mix_warn_threshold) / 2 ≤ cfg.hysteresis →
        (update_mix_judgment_rounded fl cfg r).mix_status = .WARN → r.mix_status = .WARN) ∧
      ((cfg.balance_target - fl (cfg.balance_target - 3)) / 2 ≤ cfg.hysteresis →
        (update_balance_judgment_rounded fl cfg r).balance_status = .WARN →
        r.balance_status = .WARN) ∧
      (fl (cfg.balance_target - cfg.hysteresis) ≤
          fl (fl (cfg.balance_target - 3) + cfg.hysteresis) →
        (update_balance_judgment_rounded fl cfg r).balance_status = .WARN →
        r.balance_status = .WARN) := by
  refine ⟨fun hh hw => specClassify_warn_of_wide m ok warn h p hh hw, fun hh hw => ?_,
    fun hh hw => ?_, fun hh hw => ?_⟩
  · rcases mix_rounded_warn fl cfg r hw with e | ⟨d, h1, h2⟩
    · exact e
    · exfalso
      have hle : fl (cfg.mix_ok_threshold - cfg.hysteresis) ≤
          fl (cfg.mix_warn_threshold + cfg.hysteresis) := hfl (by linarith)
      linarith
  · rcases balance_rounded_warn fl cfg r hw with e | ⟨d, h1, h2⟩
    · exact e
    · exfalso
      have hle : fl (cfg.balance_target - cfg.hysteresis) ≤
          fl (fl (cfg.balance_target - 3) + cfg.hysteresis) := hfl (by linarith)
      linarith
  · rcases balance_rounded_warn fl cfg r hw with e | ⟨d, h1, h2⟩
    · exact e
    · exfalso
      linarith

/-- Witness for C28 (amended), in binary64 arithmetic: at target 0.3 the
computed WARN threshold is the `double` nearest to -2.7, and with the
hysteresis `1.5 + 2 ^ (-52)` (the next `double` after 1.5), voice -7.2, BGM
-6.0 and previous status OK the balance judgment does not yield WARN. -/
theorem judgment_never_new_warn_witness :
    Monotone fl64 ∧
      (5404319552844595 / 18014398509481984 - fl64 (5404319552844595 / 18014398509481984 - 3)) / 2 ≤ 6755399441055745 / 4503599627370496 ∧
      (update_balance_judgment_rounded fl64
        { balance_target := 5404319552844595 / 18014398509481984, hysteresis := 6755399441055745 / 4503599627370496 }
        { voice_lufs := .fin (-8106479329266893 / 1125899906842624), bgm_lufs := .fin (-6),
          balance_status := .OK }).balance_status ≠ .WARN := by
  have hh : (5404319552844595 / 18014398509481984 - fl64 (5404319552844595 / 18014398509481984 - 3)) / 2 ≤ 6755399441055745 / 4503599627370496 := by
    rw [fl64_warn_threshold_example]
    norm_num
  refine ⟨fl64_monotone, hh, fun hw => ?_⟩
  have h := (judgment_never_new_warn fl64
    { balance_target := 5404319552844595 / 18014398509481984, hysteresis := 6755399441055745 / 4503599627370496 }
    { voice_lufs := .fin (-8106479329266893 / 1125899906842624), bgm_lufs := .fin (-6), balance_status := .OK }
    0 0 0 0 .OK fl64_monotone).2.2.1 hh hw
  exact absurd h (by decide)

/-- Counterexample to C28 as stated, in binary64 arithmetic: with balance
target 0.3, hysteresis 1.5, voice -7.2 LUFS, BGM -6.0 LUFS and previous status
OK, the balance judgment assigns WARN.  The computed WARN threshold
`0.3 - 3.0` rounds down, so the bound `warn_thresh + 1.5` lies one `double`
below the bound `0.3 - 1.5`, and the delta `-7.2 - (-6.0)` equals the former. -/
theorem judgment_new_warn_counterexample :
    fl64 (3 / 10) = 5404319552844595 / 18014398509481984 ∧
      fl64 (-36 / 5) = -8106479329266893 / 1125899906842624 ∧
      (update_balance_judgment_rounded fl64
        { balance_target := 5404319552844595 / 18014398509481984, hysteresis := 3 / 2 }
        { voice_lufs := .fin (-8106479329266893 / 1125899906842624), bgm_lufs := .fin (-6),
          balance_status := .OK }).balance_status = .WARN := by
  refine ⟨fl64_three_tenths, fl64_voice_example, ?_⟩
  have hd : fl64 (-8106479329266893 / 1125899906842624 - -6) = -1351079888211149 / 1125899906842624 := by
    rw [fl64_eq _ 0 (-5404319552844596) (by norm_num) (by norm_num [abs_of_neg])
      (by norm_num [abs_of_neg]) (by norm_num [abs_lt])]
    norm_num
  have hokp : fl64 (5404319552844595 / 18014398509481984 + 3 / 2) = 8106479329266893 / 4503599627370496 := by
    rw [fl64_eq _ 0 8106479329266893 (by norm_num) (by norm_num [abs_of_pos])
      (by norm_num [abs_of_pos]) (by norm_num [abs_lt])]
    norm_num
  have hokm : fl64 (5404319552844595 / 18014398509481984 - 3 / 2) = -5404319552844595 / 4503599627370496 := by
    rw [fl64_eq _ 0 (-5404319552844595) (by norm_num) (by norm_num [abs_of_neg])
      (by norm_num [abs_of_neg]) (by norm_num [abs_lt])]
    norm_num
  have hwm : fl64 (-3039929748475085 / 1125899906842624 - 3 / 2) =
      -4728779608739021 / 1125899906842624 := by
    rw [fl64_eq _ 2 (-4728779608739021) (by norm_num) (by norm_num [abs_of_neg])
      (by norm_num [abs_of_neg]) (by norm_num [abs_lt])]
    norm_num
  have hwp : fl64 (-3039929748475085 / 1125899906842624 + 3 / 2) =
      -1351079888211149 / 1125899906842624 := by
    rw [fl64_eq _ 0 (-5404319552844596) (by norm_num) (by norm_num [abs_of_neg])
      (by norm_num [abs_of_neg]) (by norm_num [abs_lt])]
    norm_num
  simp only [update_balance_judgment_rounded, fl64_warn_threshold_example, hd, hokp, hokm,
    hwm, hwp]
  norm_num

end lbm
